import Mathlib

/-!
StateManager (CPIA/js/state-manager.js): a shallow embedding.

The state layer keeps four JavaScript objects used as dictionaries
(`viewedItems`, `savedItems`, `notes`, `quizStatus`), writes them to
`localStorage` and fans change notifications out to listeners.

The embedding follows the JavaScript semantics the class relies on:

* a value is a `JSVal`; truthiness is `JSVal.truthy`;
* a plain object is its list of own enumerable properties in enumeration
  order (`Props`); the four dictionaries additionally carry their prototype
  (`JSObject.proto`), because `obj[key] = v` with `key = "__proto__"` installs
  `v` as prototype instead of creating a property, and because `key in obj` and
  `obj[key]` consult the prototype chain up to `Object.prototype`;
* `Date.now()` is an explicit argument `now`; numbers are integers;
* effects (`localStorage.setItem`, listener calls, `console.error`) are
  appended to `State.trace`;
* objects are values here, references in JavaScript: a backup document shares
  its dictionaries with the manager that exported or imported it, so the two
  agree as long as the document is consumed before the next mutation.

Around the state layer, the parts of its clients that the properties below are
about are embedded in the same way: `Utils.escapeHTML` (CIP/js/utils.js), the
methods `save` and `delete` of the note editor `NotesManager`
(CPIA/js/notes.js), the scoring of `QuizManager` (CIP/js/quiz.js:
`handleAnswer`, `restoreQuizStateFromStorage`, `getScore`) and the flashcard
deck of `GlossaryManager` (CIP/js/glossary.js: `shuffleCards`, `getCurrentItem`,
`nextCard`, `prevCard`). Their DOM updates are left out.
-/

namespace JS

/-- JavaScript values as they occur in the state layer. `codeUnit u` is the
one-unit string holding the unpaired surrogate `u` (it only arises from
spreading a string with astral characters); `builtin name` is an intrinsic
object reached through `Object.prototype` (for instance the function
`Object.prototype.toString`, or `Object.prototype` itself): it is truthy and
has no own enumerable property. -/
inductive JSVal where
  | undefined
  | null
  | bool (b : Bool)
  | num (n : Int)
  | str (s : String)
  | codeUnit (u : Nat)
  | obj (props : List (String × JSVal))
  | arr (items : List JSVal)
  | builtin (name : String)

/-- Own enumerable string-keyed properties of a plain object, in enumeration order. -/
abbrev Props := List (String × JSVal)

/-- ToBoolean. -/
def JSVal.truthy : JSVal → Bool
  | .undefined => false
  | .null => false
  | .bool b => b
  | .num n => n != 0
  | .str s => s != ""
  | .codeUnit _ => true
  | .obj _ => true
  | .arr _ => true
  | .builtin _ => true

/-- The operator `a || b`. -/
def JSVal.or (a b : JSVal) : JSVal := if a.truthy then a else b

/-- Own property lookup (`[[GetOwnProperty]]` on a data property). A key listed
twice reads as its last entry, like a repeated key in an object literal. -/
def getOwnProperty : Props → String → Option JSVal
  | [], _ => none
  | p :: rest, k => (getOwnProperty rest k).or (if p.1 = k then some p.2 else none)

/-- Own property test (`Object.prototype.hasOwnProperty.call(o, k)`). -/
def hasOwnProperty (ps : Props) (k : String) : Bool := (getOwnProperty ps k).isSome

/-- The keys `Object.keys(o)`. -/
def ownKeys (ps : Props) : List String := ps.map Prod.fst

/-- Value of a string of decimal digits. -/
def digitsValue (cs : List Char) : Nat := cs.foldl (fun n c => 10 * n + (c.toNat - 48)) 0

/-- An array index is a canonical numeric string below `2^32 - 1`; such keys are
enumerated first, in ascending numeric order. -/
def arrayIndex? (k : String) : Option Nat :=
  let cs := k.toList
  if cs ≠ [] ∧ cs.all Char.isDigit = true ∧ (cs.head? ≠ some '0' ∨ cs.length = 1)
      ∧ digitsValue cs < 2 ^ 32 - 1 then
    some (digitsValue cs)
  else
    none

/-- Place a new array-index key `k` (of value `i`) after the smaller index keys. -/
def insertIndex : Props → Nat → String → JSVal → Props
  | [], _, k, v => [(k, v)]
  | p :: rest, i, k, v =>
    match arrayIndex? p.1 with
    | some j => if j < i then p :: insertIndex rest i k v else (k, v) :: p :: rest
    | none => (k, v) :: p :: rest

/-- Create a property that the object does not have yet: index keys go to their
numeric position, every other key to the end. -/
def insertNew (ps : Props) (k : String) (v : JSVal) : Props :=
  match arrayIndex? k with
  | some i => insertIndex ps i k v
  | none => ps ++ [(k, v)]

/-- Overwrite the value of an existing own property, keeping its position. -/
def updateOwn (ps : Props) (k : String) (v : JSVal) : Props :=
  ps.map (fun p => if p.1 = k then (k, v) else p)

/-- CreateDataProperty: what an object literal or a spread does for one key. -/
def defineOwnProperty (ps : Props) (k : String) (v : JSVal) : Props :=
  if hasOwnProperty ps k then updateOwn ps k v else insertNew ps k v

/-- The statement `delete o[k]` on the own properties. -/
def deleteOwnProperty (ps : Props) (k : String) : Props :=
  ps.filter (fun p => p.1 ≠ k)

/-- UTF-16 code units of one character, each as a one-unit string. -/
def charUnits (c : Char) : List JSVal :=
  if c.toNat < 65536 then [JSVal.str (String.singleton c)]
  else [JSVal.codeUnit (55296 + (c.toNat - 65536) / 1024),
        JSVal.codeUnit (56320 + (c.toNat - 65536) % 1024)]

/-- Index the elements of an array-like from `i` on. -/
def indexFrom : Nat → List JSVal → Props
  | _, [] => []
  | i, v :: rest => (toString i, v) :: indexFrom (i + 1) rest

/-- The own enumerable properties a spread `...v` copies (CopyDataProperties):
nothing for `undefined`, `null`, booleans, numbers and intrinsics. -/
def spreadProps : JSVal → Props
  | .obj ps => ps
  | .arr items => indexFrom 0 items
  | .str s => indexFrom 0 (s.toList.flatMap charUnits)
  | .codeUnit u => [("0", JSVal.codeUnit u)]
  | _ => []

/-- The effect of `...src` inside an object literal whose properties so far are `target`. -/
def spreadInto (target src : Props) : Props :=
  src.foldl (fun acc p => defineOwnProperty acc p.1 p.2) target

/-- Names of the properties every plain object inherits from `Object.prototype`. -/
def objectPrototypeNames : List String :=
  ["constructor", "__defineGetter__", "__defineSetter__", "hasOwnProperty",
   "__lookupGetter__", "__lookupSetter__", "isPrototypeOf", "propertyIsEnumerable",
   "toString", "valueOf", "__proto__", "toLocaleString"]

/-- A plain object used as a dictionary: own properties plus prototype.
`proto = none` is the initial prototype `Object.prototype`; `proto = some r` is a
record object with own properties `r` (itself with prototype `Object.prototype`)
installed by an assignment to `__proto__`. -/
structure JSObject where
  proto : Option Props
  props : Props

/-- The object literal `{}`. -/
def JSObject.empty : JSObject := { proto := none, props := [] }

/-- What a lookup that reaches `Object.prototype` returns for receiver prototype `p`. -/
def fromObjectPrototype (p : JSVal) (k : String) : JSVal :=
  if k = "__proto__" then p
  else if k ∈ objectPrototypeNames then JSVal.builtin k
  else JSVal.undefined

/-- Property read `o[k]`: own property, then the prototype chain. -/
def JSObject.get (o : JSObject) (k : String) : JSVal :=
  match getOwnProperty o.props k with
  | some v => v
  | none =>
    match o.proto with
    | some r =>
      match getOwnProperty r k with
      | some v => v
      | none => fromObjectPrototype (JSVal.obj r) k
    | none => fromObjectPrototype (JSVal.builtin "Object.prototype") k

/-- Whether `o` inherits a property named `k`: from the installed prototype, or
from `Object.prototype`. -/
def JSObject.inherits (o : JSObject) (k : String) : Bool :=
  (match o.proto with
    | some r => hasOwnProperty r k
    | none => false)
    || decide (k ∈ objectPrototypeNames)

/-- The operator `k in o`: own property or anywhere on the prototype chain. -/
def JSObject.has (o : JSObject) (k : String) : Bool :=
  hasOwnProperty o.props k || o.inherits k

/-- Whether an assignment to `k` ends in the `__proto__` setter of
`Object.prototype`: no own property and no data property of that name on the
installed prototype. -/
def JSObject.reachesProtoSetter (o : JSObject) (k : String) : Bool :=
  decide (k = "__proto__") && !hasOwnProperty o.props k
    && (match o.proto with
        | some r => !hasOwnProperty r k
        | none => true)

/-- The assignment `o[k] = r` for a freshly built record object `r`. -/
def JSObject.set (o : JSObject) (k : String) (r : Props) : JSObject :=
  if hasOwnProperty o.props k then { o with props := updateOwn o.props k (JSVal.obj r) }
  else if o.reachesProtoSetter k then { o with proto := some r }
  else { o with props := insertNew o.props k (JSVal.obj r) }

/-- The statement `delete o[k]`. -/
def JSObject.delete (o : JSObject) (k : String) : JSObject :=
  { o with props := deleteOwnProperty o.props k }

/-- The literal `{ ...a, ...b }` of two dictionaries: a fresh plain object. -/
def JSObject.spread2 (a b : JSObject) : JSObject :=
  { proto := none, props := spreadInto (spreadInto [] a.props) b.props }

/-- ToNumber on the operand of `-`; `none` is `NaN`. Strings and arrays, which
JavaScript parses, are outside the integer model and read as `NaN`. -/
def toNumber : JSVal → Option Int
  | .num n => some n
  | .null => some 0
  | .bool b => some (if b then 1 else 0)
  | _ => none

/-- Static property read `e.timestamp` on a fresh entry object. -/
def timestampOf (e : Props) : JSVal := (getOwnProperty e "timestamp").getD JSVal.undefined

/-- The comparator `(a, b) => b.timestamp - a.timestamp`; `NaN` counts as `0`,
as `Array.prototype.sort` prescribes. -/
def compareFn (a b : Props) : Int :=
  match toNumber (timestampOf b), toNumber (timestampOf a) with
  | some x, some y => x - y
  | _, _ => 0

/-- The call `xs.sort(compareFn)`, a stable sort: `a` stays before `b` when
`compareFn a b ≤ 0`. -/
def sort (xs : List Props) : List Props :=
  xs.insertionSort (fun a b => compareFn a b ≤ 0)

end JS

namespace StateManager

open JS

/-- The storage keys `this.STORAGE_KEYS` chosen by the constructor. -/
structure StorageKeys where
  VIEWED : String
  SAVED : String
  NOTES : String
  QUIZ : String
  deriving DecidableEq, Repr

/-- The fallback keys used when `window.APP_CONFIG` supplies none. -/
def defaultStorageKeys : StorageKeys :=
  { VIEWED := "app_viewed_items", SAVED := "app_saved_items",
    NOTES := "app_notes", QUIZ := "app_quiz_status" }

/-- A registered callback: its identity and whether calling it throws. -/
structure Listener where
  id : Nat
  throws : Bool
  deriving DecidableEq, Repr

/-- Observable effects, in the order they happen. -/
inductive Event where
  /-- The call `localStorage.setItem(key, JSON.stringify(data))`, with the own
  properties of `data`; `ok = false` when the call threw. -/
  | setItem (key : String) (data : Props) (ok : Bool)
  /-- A listener invoked as `callback(type, url, status)`. -/
  | listenerCall (listener : Nat) (type url : String) (status : Bool)
  /-- A message sent to `console.error`. -/
  | consoleError (message : String)
  /-- A message sent to `console.warn`. -/
  | consoleWarn (message : String)

/-- The fields of a `StateManager` instance together with its environment:
`quotaExceeded` tells whether `localStorage.setItem` throws, `trace` records the
effects performed so far. The four dictionaries are objects, hence truthy: the
guards `!this.notes` and `!this.quizStatus` of the methods never fire and
`this.notes && this.notes[id]` is `this.notes[id]`. -/
structure State where
  STORAGE_KEYS : StorageKeys
  listeners : List Listener
  storageAvailable : Bool
  viewedItems : JSObject
  savedItems : JSObject
  notes : JSObject
  quizStatus : JSObject
  quotaExceeded : Bool
  trace : List Event

/-- The method `saveToStorage(key, data)`. -/
def saveToStorage (s : State) (key : String) (data : JSObject) : State :=
  if !s.storageAvailable then s
  else if s.quotaExceeded then
    { s with trace := s.trace ++ [Event.setItem key data.props false,
                                  Event.consoleError ("Error saving " ++ key ++ ":")] }
  else
    { s with trace := s.trace ++ [Event.setItem key data.props true] }

/-- One iteration of the `forEach` in `notifyListeners`: the call, and the
`console.error` of the `catch` when the callback throws. -/
def callListener (type url : String) (status : Bool) (l : Listener) : List Event :=
  if l.throws then
    [Event.listenerCall l.id type url status, Event.consoleError "Error in state listener:"]
  else
    [Event.listenerCall l.id type url status]

/-- The method `notifyListeners(type, url, status)`. -/
def notifyListeners (s : State) (type url : String) (status : Bool) : State :=
  { s with trace := s.trace ++ s.listeners.flatMap (callListener type url status) }

/-- The method `addListener(callback)`. -/
def addListener (s : State) (callback : Listener) : State :=
  { s with listeners := s.listeners ++ [callback] }

/-- The method `removeListener(callback)`. -/
def removeListener (s : State) (callback : Listener) : State :=
  { s with listeners := s.listeners.filter (fun cb => cb.id ≠ callback.id) }

/-- The method `isViewed(url)`. -/
def isViewed (s : State) (url : String) : Bool := s.viewedItems.has url

/-- The method `markAsViewed(url, context)`; the record is the literal
`{ timestamp: Date.now(), ...context }`. -/
def markAsViewed (s : State) (url : String) (context : JSVal) (now : Int) : State :=
  let record := spreadInto (defineOwnProperty [] "timestamp" (JSVal.num now)) (spreadProps context)
  let s1 := { s with viewedItems := s.viewedItems.set url record }
  let s2 := saveToStorage s1 s1.STORAGE_KEYS.VIEWED s1.viewedItems
  notifyListeners s2 "viewed" url true

/-- The method `markAsUnread(url)`. -/
def markAsUnread (s : State) (url : String) : State :=
  let s1 := { s with viewedItems := s.viewedItems.delete url }
  let s2 := saveToStorage s1 s1.STORAGE_KEYS.VIEWED s1.viewedItems
  notifyListeners s2 "viewed" url false

/-- The method `toggleViewed(url, context)`. -/
def toggleViewed (s : State) (url : String) (context : JSVal) (now : Int) : State :=
  if isViewed s url then markAsUnread s url else markAsViewed s url context now

/-- The method `isSaved(itemId)`. -/
def isSaved (s : State) (itemId : String) : Bool := s.savedItems.has itemId

/-- The method `saveItem(itemId, context)`. -/
def saveItem (s : State) (itemId : String) (context : JSVal) (now : Int) : State :=
  let record := spreadInto (defineOwnProperty [] "timestamp" (JSVal.num now)) (spreadProps context)
  let s1 := { s with savedItems := s.savedItems.set itemId record }
  let s2 := saveToStorage s1 s1.STORAGE_KEYS.SAVED s1.savedItems
  notifyListeners s2 "saved" itemId true

/-- The method `unsaveItem(itemId)`. -/
def unsaveItem (s : State) (itemId : String) : State :=
  let s1 := { s with savedItems := s.savedItems.delete itemId }
  let s2 := saveToStorage s1 s1.STORAGE_KEYS.SAVED s1.savedItems
  notifyListeners s2 "saved" itemId false

/-- The method `toggleSaved(itemId, context)`. -/
def toggleSaved (s : State) (itemId : String) (context : JSVal) (now : Int) : State :=
  if isSaved s itemId then unsaveItem s itemId else saveItem s itemId context now

/-- The mapping `([key, data]) => ({ key, ...data })` over `Object.entries(o)`,
where `name` is the property the key is stored under (`itemId`, `url` or `id`). -/
def labelledEntries (name : String) (o : JSObject) : List Props :=
  o.props.map (fun p =>
    spreadInto (defineOwnProperty [] name (JSVal.str p.1)) (spreadProps p.2))

/-- The method `getSavedItems()`. -/
def getSavedItems (s : State) : List Props := sort (labelledEntries "itemId" s.savedItems)

/-- The method `getViewedItems()`. -/
def getViewedItems (s : State) : List Props := sort (labelledEntries "url" s.viewedItems)

/-- The method `saveNote(itemId, data)`; an empty `itemId` is falsy. -/
def saveNote (s : State) (itemId : String) (data : JSVal) (now : Int) : State :=
  if itemId = "" then s
  else
    let existing := (s.notes.get itemId).or (JSVal.obj [])
    let record := defineOwnProperty
      (spreadInto (spreadInto [] (spreadProps existing)) (spreadProps data))
      "timestamp" (JSVal.num now)
    let s1 := { s with notes := s.notes.set itemId record }
    let s2 := saveToStorage s1 s1.STORAGE_KEYS.NOTES s1.notes
    notifyListeners s2 "note" itemId true

/-- The method `deleteNote(itemId)`. -/
def deleteNote (s : State) (itemId : String) : State :=
  if itemId = "" then s
  else if (s.notes.get itemId).truthy then
    let s1 := { s with notes := s.notes.delete itemId }
    let s2 := saveToStorage s1 s1.STORAGE_KEYS.NOTES s1.notes
    notifyListeners s2 "note" itemId false
  else s

/-- The method `getNote(itemId)`. -/
def getNote (s : State) (itemId : String) : JSVal := (s.notes.get itemId).or JSVal.null

/-- The method `hasNote(itemId)`. -/
def hasNote (s : State) (itemId : String) : Bool := (s.notes.get itemId).truthy

/-- The method `getAllNotes()`. -/
def getAllNotes (s : State) : List Props := sort (labelledEntries "id" s.notes)

/-- The method `getQuizStatus(itemId)`. -/
def getQuizStatus (s : State) (itemId : String) : JSVal :=
  (s.quizStatus.get itemId).or JSVal.null

/-- The method `setQuizStatus(itemId, status)`. -/
def setQuizStatus (s : State) (itemId : String) (status : JSVal) (now : Int) : State :=
  if itemId = "" then s
  else
    let existing := (s.quizStatus.get itemId).or (JSVal.obj [])
    let record := defineOwnProperty
      (spreadInto (spreadInto [] (spreadProps existing)) (spreadProps status))
      "updatedAt" (JSVal.num now)
    let s1 := { s with quizStatus := s.quizStatus.set itemId record }
    saveToStorage s1 s1.STORAGE_KEYS.QUIZ s1.quizStatus

/-- The method `clearQuizStatus(itemId)`. -/
def clearQuizStatus (s : State) (itemId : String) : State :=
  if itemId = "" then s
  else if (s.quizStatus.get itemId).truthy then
    let s1 := { s with quizStatus := s.quizStatus.delete itemId }
    saveToStorage s1 s1.STORAGE_KEYS.QUIZ s1.quizStatus
  else s

/-- The method `clearAllQuizStatus()`. -/
def clearAllQuizStatus (s : State) : State :=
  let s1 := { s with quizStatus := JSObject.empty }
  saveToStorage s1 s1.STORAGE_KEYS.QUIZ s1.quizStatus

/-- The `data` part of a backup document: for each category the dictionary it
carries, `none` when the property is absent or falsy (`null`). A truthy value
that is not a plain object (a number, a string, an array) is not a dictionary
and lies outside this type. -/
structure BackupData where
  viewed : Option JSObject
  saved : Option JSObject
  notes : Option JSObject
  quiz : Option JSObject

/-- The `stats` part of a backup document. -/
structure BackupStats where
  viewedCount : Nat
  savedCount : Nat
  notesCount : Nat
  quizCount : Nat
  deriving DecidableEq, Repr

/-- A backup document; a property that is absent (or falsy) is `none`. -/
structure BackupDocument where
  version : Option String
  appId : Option String
  exportDate : Option String
  data : Option BackupData
  stats : Option BackupStats

/-- The document `{}`. -/
def BackupDocument.empty : BackupDocument :=
  { version := none, appId := none, exportDate := none, data := none, stats := none }

/-- The method `exportData()`; `configAppId` is `window.APP_CONFIG.appId` and
`isoDate` the value of `new Date().toISOString()`. The four dictionaries are
objects, hence truthy, so `this.viewedItems || {}` is the dictionary itself. -/
def exportData (s : State) (configAppId : Option String) (isoDate : String) : BackupDocument :=
  { version := some "1.0"
    appId := some (match configAppId with
      | some a => if a = "" then "unknown" else a
      | none => "unknown")
    exportDate := some isoDate
    data := some { viewed := some s.viewedItems, saved := some s.savedItems,
                   notes := some s.notes, quiz := some s.quizStatus }
    stats := some { viewedCount := (ownKeys s.viewedItems.props).length
                    savedCount := (ownKeys s.savedItems.props).length
                    notesCount := (ownKeys s.notes.props).length
                    quizCount := (ownKeys s.quizStatus.props).length } }

/-- The counters `imported` of a successful import. -/
structure Imported where
  viewed : Nat
  saved : Nat
  notes : Nat
  quiz : Nat
  errors : List String
  deriving DecidableEq, Repr

/-- The object `importData` returns. -/
structure ImportResult where
  success : Bool
  imported : Option Imported
  error : Option String
  deriving DecidableEq, Repr

/-- The two branches `{ ...local, ...incoming }` and `incoming` of one import block. -/
def importMap (merge : Bool) (loc incoming : JSObject) : JSObject :=
  if merge then JSObject.spread2 loc incoming else incoming

/-- The block `// Import viewed items` of `importData`. -/
def importViewed (s : State) (d : BackupData) (merge : Bool) : State :=
  match d.viewed with
  | some m =>
    let s1 := { s with viewedItems := importMap merge s.viewedItems m }
    saveToStorage s1 s1.STORAGE_KEYS.VIEWED s1.viewedItems
  | none => s

/-- The block `// Import saved items` of `importData`. -/
def importSaved (s : State) (d : BackupData) (merge : Bool) : State :=
  match d.saved with
  | some m =>
    let s1 := { s with savedItems := importMap merge s.savedItems m }
    saveToStorage s1 s1.STORAGE_KEYS.SAVED s1.savedItems
  | none => s

/-- The block `// Import notes` of `importData`. -/
def importNotes (s : State) (d : BackupData) (merge : Bool) : State :=
  match d.notes with
  | some m =>
    let s1 := { s with notes := importMap merge s.notes m }
    saveToStorage s1 s1.STORAGE_KEYS.NOTES s1.notes
  | none => s

/-- The block `// Import quiz status` of `importData`. -/
def importQuiz (s : State) (d : BackupData) (merge : Bool) : State :=
  match d.quiz with
  | some m =>
    let s1 := { s with quizStatus := importMap merge s.quizStatus m }
    saveToStorage s1 s1.STORAGE_KEYS.QUIZ s1.quizStatus
  | none => s

/-- The count `Object.keys(m).length` of a category, `0` when it is skipped. -/
def importedCount (m : Option JSObject) : Nat :=
  match m with
  | some o => (ownKeys o.props).length
  | none => 0

/-- The method `importData(backupData, merge)`; `backupData = none` is `null`.
The `throw` of the format check is caught by the method itself, which logs and
returns the failure object. -/
def importData (s : State) (backupData : Option BackupDocument) (merge : Bool) :
    State × ImportResult :=
  match backupData.bind (fun b => b.data) with
  | none =>
    ({ s with trace := s.trace ++ [Event.consoleError "Import failed:"] },
     { success := false, imported := none, error := some "Invalid backup format" })
  | some d =>
    let s1 := importViewed s d merge
    let s2 := importSaved s1 d merge
    let s3 := importNotes s2 d merge
    let s4 := importQuiz s3 d merge
    (notifyListeners s4 "import" "all" true,
     { success := true
       imported := some { viewed := importedCount d.viewed, saved := importedCount d.saved,
                          notes := importedCount d.notes, quiz := importedCount d.quiz,
                          errors := [] }
       error := none })

/-- The method `clearAllData()`; `confirmed` is the answer of the `confirm` dialog. -/
def clearAllData (s : State) (confirmed : Bool) : State × Bool :=
  if confirmed then
    let s1 := { s with viewedItems := JSObject.empty, savedItems := JSObject.empty,
                       notes := JSObject.empty, quizStatus := JSObject.empty }
    let s2 := saveToStorage s1 s1.STORAGE_KEYS.VIEWED s1.viewedItems
    let s3 := saveToStorage s2 s2.STORAGE_KEYS.SAVED s2.savedItems
    let s4 := saveToStorage s3 s3.STORAGE_KEYS.NOTES s3.notes
    let s5 := saveToStorage s4 s4.STORAGE_KEYS.QUIZ s4.quizStatus
    (notifyListeners s5 "clear" "all" false, true)
  else (s, false)

/-- The `localStorage.setItem` calls in a trace. -/
def storageWrites (t : List Event) : List Event :=
  t.filter (fun e => match e with
    | Event.setItem _ _ _ => true
    | _ => false)

/-- The listener invocations in a trace. -/
def listenerCalls (t : List Event) : List Event :=
  t.filter (fun e => match e with
    | Event.listenerCall _ _ _ _ => true
    | _ => false)


/-- The four categories of a backup document and of the state. -/
inductive Category where
  | viewed
  | saved
  | notes
  | quiz
  deriving DecidableEq, Repr

/-- The dictionary the state holds for a category. -/
def State.map (s : State) : Category → JSObject
  | .viewed => s.viewedItems
  | .saved => s.savedItems
  | .notes => s.notes
  | .quiz => s.quizStatus

/-- The dictionary a backup document carries for a category, if any. -/
def BackupData.category (d : BackupData) : Category → Option JSObject
  | .viewed => d.viewed
  | .saved => d.saved
  | .notes => d.notes
  | .quiz => d.quiz

/-- A backup document that carries only `data`. -/
def BackupDocument.ofData (d : BackupData) : BackupDocument :=
  { version := none, appId := none, exportDate := none, data := some d, stats := none }

/-- A fresh manager on an available, empty store with the default keys and the
given listeners: all four dictionaries are `{}`. -/
def freshState (listeners : List Listener) : State :=
  { STORAGE_KEYS := defaultStorageKeys
    listeners := listeners
    storageAvailable := true
    viewedItems := JSObject.empty
    savedItems := JSObject.empty
    notes := JSObject.empty
    quizStatus := JSObject.empty
    quotaExceeded := false
    trace := [] }

/-- A plain object with the given own properties. -/
def plain (ps : Props) : JSObject := { proto := none, props := ps }

/-- A state whose viewed dictionary is `{a: 1}`, with one listener. -/
def viewedA : State :=
  { freshState [⟨0, false⟩] with viewedItems := plain [("a", JSVal.num 1)] }

/-- A state whose saved dictionary holds one entry, `a`. -/
def savedOnly : State :=
  { freshState [] with savedItems := plain [("a", JSVal.obj [("timestamp", JSVal.num 1)])] }

/-- A state whose notes dictionary holds one record under the empty key, as left
by importing a document whose notes carry that key; one listener is registered. -/
def emptyKeyNote : State :=
  { freshState [⟨0, false⟩] with
    notes := plain [("", JSVal.obj [("text", JSVal.str "x"), ("timestamp", JSVal.num 1)])] }

/-- A state with one note under `n1` and one listener. -/
def oneNote : State :=
  { freshState [⟨0, false⟩] with
    notes := plain [("n1", JSVal.obj [("text", JSVal.str "x"), ("timestamp", JSVal.num 1)])] }

/-- Every record of the dictionary is an object with a number under `timestamp`. -/
def numericTimestamps (o : JSObject) : Prop :=
  ∀ p ∈ o.props, ∃ r n, p.2 = JSVal.obj r ∧ getOwnProperty r "timestamp" = some (JSVal.num n)

/-- Entry `a` may stand before entry `b` in a most-recent-first listing: both
timestamps are numbers and that of `b` is not larger. -/
def newestFirst (a b : Props) : Prop :=
  ∃ x y, timestampOf a = JSVal.num x ∧ timestampOf b = JSVal.num y ∧ y ≤ x

/-- A fresh manager after three distinct URLs were marked as viewed, at times
10, 20 and 30. -/
def threeViewed : State :=
  markAsViewed
    (markAsViewed
      (markAsViewed (freshState []) "https://example.org/a" (JSVal.obj []) 10)
      "https://example.org/b" (JSVal.obj []) 20)
    "https://example.org/c" (JSVal.obj []) 30

/-- The `data` of a document that carries `{b: 3}` for the viewed category and
nothing for the other three. -/
def viewedOnlyData : BackupData :=
  { viewed := some (plain [("b", JSVal.num 3)]), saved := none, notes := none, quiz := none }

/-- The `data` of a document that carries `{a: 2, b: 3}` for the viewed category. -/
def mergeData : BackupData :=
  { viewed := some (plain [("a", JSVal.num 2), ("b", JSVal.num 3)]),
    saved := none, notes := none, quiz := none }

end StateManager

namespace JS

mutual
/-- The value `JSON.parse(JSON.stringify(v))` for a value inside an object or an
array; `none` when `JSON.stringify` leaves the value out (`undefined`, a function). -/
def jsonValue : JSVal → Option JSVal
  | .undefined => none
  | .builtin name => if name = "Object.prototype" then some (.obj []) else none
  | .obj ps => some (.obj (jsonProps ps))
  | .arr items => some (.arr (jsonItems items))
  | v => some v
/-- The own properties of `JSON.parse(JSON.stringify(o))` for an object with own
properties `ps`: a property whose value is left out disappears. -/
def jsonProps : List (String × JSVal) → List (String × JSVal)
  | [] => []
  | (k, v) :: rest =>
    match jsonValue v with
    | some w => (k, w) :: jsonProps rest
    | none => jsonProps rest
/-- The elements of `JSON.parse(JSON.stringify(a))` for an array: an element that
is left out becomes `null`. -/
def jsonItems : List JSVal → List JSVal
  | [] => []
  | v :: rest => (jsonValue v).getD .null :: jsonItems rest
end

/-- Whether the value is an object (`Type(v)` is Object) rather than a primitive. -/
def JSVal.isObject : JSVal → Bool
  | .obj _ => true
  | .arr _ => true
  | .builtin _ => true
  | _ => false

/-- The property read `v.name` for a name that no prototype defines (`data`,
`viewed`, `saved`, `notes`, `quiz`): the own property of a plain object, and
`undefined` on every other value. -/
def readProperty (v : JSVal) (name : String) : JSVal :=
  match v with
  | .obj ps => (getOwnProperty ps name).getD .undefined
  | _ => .undefined

end JS

namespace StateManager

open JS

/-- A string held by `localStorage`, described by what `loadFromStorage` can do
with it: the empty string (falsy, never parsed), a text on which `JSON.parse`
throws, or a text that `JSON.parse` turns into the value `v`. -/
inductive StoredText where
  | empty
  | malformed
  | json (v : JSVal)

/-- The content of `localStorage`: keys with their strings. -/
abbrev LocalStorage := List (String × StoredText)

/-- The call `localStorage.getItem(key)`; `none` is `null`. -/
def LocalStorage.getItem : LocalStorage → String → Option StoredText
  | [], _ => none
  | p :: rest, key => if p.1 = key then some p.2 else LocalStorage.getItem rest key

/-- The effect of a successful `localStorage.setItem(key, text)`. -/
def LocalStorage.setItem (items : LocalStorage) (key : String) (text : StoredText) :
    LocalStorage :=
  if (LocalStorage.getItem items key).isSome then
    items.map (fun p => if p.1 = key then (key, text) else p)
  else items ++ [(key, text)]

/-- The effect of `localStorage.removeItem(key)`. -/
def LocalStorage.removeItem (items : LocalStorage) (key : String) : LocalStorage :=
  items.filter (fun p => p.1 ≠ key)

/-- The storage backend a manager is constructed on: whether the probe write
works, whether later writes of the maps throw, and what is stored. -/
structure Backend where
  working : Bool
  quotaExceeded : Bool
  items : LocalStorage

/-- The method `checkStorageAvailable()`: the result of the probe
`setItem('__storage_test__', 'test'); removeItem('__storage_test__')`. -/
def checkStorageAvailable (b : Backend) : Bool := b.working

/-- What the probe of `checkStorageAvailable()` leaves in the store. -/
def afterProbe (b : Backend) : LocalStorage :=
  if b.working then LocalStorage.removeItem b.items "__storage_test__" else b.items

/-- The method `loadFromStorage(key)`: the loaded value (`null` when storage is
unavailable, the key is missing, the string is empty or the parse throws) and
what it logs. -/
def loadFromStorage (storageAvailable : Bool) (items : LocalStorage) (key : String) :
    JSVal × List Event :=
  if !storageAvailable then (JSVal.null, [])
  else
    match LocalStorage.getItem items key with
    | none => (JSVal.null, [])
    | some StoredText.empty => (JSVal.null, [])
    | some StoredText.malformed =>
      (JSVal.null, [Event.consoleError ("Error loading " ++ key ++ ":")])
    | some (StoredText.json v) => (v, [])

/-- The four values `init()` assigns, and what the loads logged. -/
structure LoadedMaps where
  viewedItems : JSVal
  savedItems : JSVal
  notes : JSVal
  quizStatus : JSVal
  log : List Event

/-- The method `init()`: each field is `this.loadFromStorage(key) || {}`. -/
def init (keys : StorageKeys) (storageAvailable : Bool) (items : LocalStorage) : LoadedMaps :=
  { viewedItems := (loadFromStorage storageAvailable items keys.VIEWED).1.or (JSVal.obj [])
    savedItems := (loadFromStorage storageAvailable items keys.SAVED).1.or (JSVal.obj [])
    notes := (loadFromStorage storageAvailable items keys.NOTES).1.or (JSVal.obj [])
    quizStatus := (loadFromStorage storageAvailable items keys.QUIZ).1.or (JSVal.obj [])
    log := (loadFromStorage storageAvailable items keys.VIEWED).2
      ++ (loadFromStorage storageAvailable items keys.SAVED).2
      ++ (loadFromStorage storageAvailable items keys.NOTES).2
      ++ (loadFromStorage storageAvailable items keys.QUIZ).2 }

/-- The value `init()` gives the map of a category. -/
def LoadedMaps.map (m : LoadedMaps) : Category → JSVal
  | .viewed => m.viewedItems
  | .saved => m.savedItems
  | .notes => m.notes
  | .quiz => m.quizStatus

/-- The storage key of a category. -/
def StorageKeys.key (keys : StorageKeys) : Category → String
  | .viewed => keys.VIEWED
  | .saved => keys.SAVED
  | .notes => keys.NOTES
  | .quiz => keys.QUIZ

/-- The storage key the state uses for a category. -/
def State.storageKey (s : State) (c : Category) : String := s.STORAGE_KEYS.key c

/-- The property `storageKeys` of `window.APP_CONFIG`; a key that is absent is `none`. -/
structure StorageKeysConfig where
  viewed : Option String
  saved : Option String
  notes : Option String
  quiz : Option String

/-- The expression `key || fallback` on an optional string: the empty string is falsy. -/
def orDefault (key : Option String) (fallback : String) : String :=
  match key with
  | some k => if k = "" then fallback else k
  | none => fallback

/-- The keys the constructor computes from `window.APP_CONFIG` (`none` when the
configuration or its `storageKeys` is missing). -/
def storageKeysOf (config : Option StorageKeysConfig) : StorageKeys :=
  match config with
  | some c =>
    { VIEWED := orDefault c.viewed "app_viewed_items"
      SAVED := orDefault c.saved "app_saved_items"
      NOTES := orDefault c.notes "app_notes"
      QUIZ := orDefault c.quiz "app_quiz_status" }
  | none => defaultStorageKeys

/-- The plain object a loaded value is, if it is one. -/
def dictionaryOf : JSVal → Option JSObject
  | .obj ps => some { proto := none, props := ps }
  | _ => none

/-- The constructor `new StateManager()` on a backend. The result is `none` when
`init()` leaves a field that is not a plain object (a number, a string, `true`
or an array found in the store): such a manager is outside `State`. -/
def construct (keys : StorageKeys) (b : Backend) : Option State :=
  let loaded := init keys (checkStorageAvailable b) (afterProbe b)
  match dictionaryOf loaded.viewedItems, dictionaryOf loaded.savedItems,
      dictionaryOf loaded.notes, dictionaryOf loaded.quizStatus with
  | some v, some sv, some n, some q =>
    some
      { STORAGE_KEYS := keys
        listeners := []
        storageAvailable := checkStorageAvailable b
        viewedItems := v
        savedItems := sv
        notes := n
        quizStatus := q
        quotaExceeded := b.quotaExceeded
        trace := (if checkStorageAvailable b then []
            else [Event.consoleWarn "localStorage not available - progress will not be saved"])
          ++ loaded.log }
  | _, _, _, _ => none

/-- The effect of one traced event on the store: a successful `setItem` stores
the text `JSON.stringify(data)`. -/
def applyEvent (items : LocalStorage) : Event → LocalStorage
  | Event.setItem key data true =>
    LocalStorage.setItem items key (StoredText.json (JSVal.obj (jsonProps data)))
  | _ => items

/-- The store after the effects of a trace. -/
def storageAfter (items : LocalStorage) (trace : List Event) : LocalStorage :=
  trace.foldl applyEvent items

/-- The backend as a manager constructed on `b` leaves it in state `s`. -/
def Backend.after (b : Backend) (s : State) : Backend :=
  { working := b.working, quotaExceeded := b.quotaExceeded,
    items := storageAfter (afterProbe b) s.trace }

/-- The calls a client can make on a manager. -/
inductive Op where
  | markAsViewed (url : String) (context : JSVal) (now : Int)
  | markAsUnread (url : String)
  | toggleViewed (url : String) (context : JSVal) (now : Int)
  | saveItem (itemId : String) (context : JSVal) (now : Int)
  | unsaveItem (itemId : String)
  | toggleSaved (itemId : String) (context : JSVal) (now : Int)
  | saveNote (itemId : String) (data : JSVal) (now : Int)
  | deleteNote (itemId : String)
  | setQuizStatus (itemId : String) (status : JSVal) (now : Int)
  | clearQuizStatus (itemId : String)
  | clearAllQuizStatus
  | importData (backupData : Option BackupDocument) (merge : Bool)
  | clearAllData (confirmed : Bool)
  | addListener (callback : Listener)
  | removeListener (callback : Listener)

/-- The state after one call. -/
def runOp (s : State) : Op → State
  | .markAsViewed url context now => markAsViewed s url context now
  | .markAsUnread url => markAsUnread s url
  | .toggleViewed url context now => toggleViewed s url context now
  | .saveItem itemId context now => saveItem s itemId context now
  | .unsaveItem itemId => unsaveItem s itemId
  | .toggleSaved itemId context now => toggleSaved s itemId context now
  | .saveNote itemId data now => saveNote s itemId data now
  | .deleteNote itemId => deleteNote s itemId
  | .setQuizStatus itemId status now => setQuizStatus s itemId status now
  | .clearQuizStatus itemId => clearQuizStatus s itemId
  | .clearAllQuizStatus => clearAllQuizStatus s
  | .importData backupData merge => (importData s backupData merge).1
  | .clearAllData confirmed => (clearAllData s confirmed).1
  | .addListener callback => addListener s callback
  | .removeListener callback => removeListener s callback

/-- The events of a call split into a first part without listener call and a
second part without storage write; every write of the first part carries the
content that the written map has after the call; with storage available, every
map the call has changed is written in the first part; and the second part is at
most one notification, one call per registered listener. -/
def persistsBeforeNotifying (s s' : State) : Prop :=
  ∃ w n, s'.trace = s.trace ++ w ++ n ∧ listenerCalls w = [] ∧ storageWrites n = [] ∧
    (∀ key data ok, Event.setItem key data ok ∈ w →
      ∃ c, key = s'.storageKey c ∧ data = (s'.map c).props) ∧
    (s.storageAvailable = true → ∀ c, s'.map c ≠ s.map c →
      ∃ ok, Event.setItem (s'.storageKey c) (s'.map c).props ok ∈ w) ∧
    (listenerCalls n = [] ∨ ∃ type url status,
      listenerCalls n = s.listeners.map (fun l => Event.listenerCall l.id type url status))

/-- The events one call of `saveToStorage(key, data)` adds to the trace. -/
def saveEvents (storageAvailable quotaExceeded : Bool) (key : String) (data : JSObject) :
    List Event :=
  if !storageAvailable then []
  else if quotaExceeded then
    [Event.setItem key data.props false, Event.consoleError ("Error saving " ++ key ++ ":")]
  else [Event.setItem key data.props true]

/-- The events the import block of one category adds: those of its
`saveToStorage` call when the document carries the category, none otherwise. -/
def importEvents (s : State) (d : BackupData) (merge : Bool) (c : Category) : List Event :=
  match d.category c with
  | some m =>
    saveEvents s.storageAvailable s.quotaExceeded (s.STORAGE_KEYS.key c)
      (importMap merge (s.map c) m)
  | none => []

/-- Two managers agree on what is in memory and on what the listeners were told:
the four maps, the registered listeners and the listener calls made so far. -/
def sameMemory (s1 s2 : State) : Prop :=
  s1.viewedItems = s2.viewedItems ∧ s1.savedItems = s2.savedItems ∧ s1.notes = s2.notes ∧
  s1.quizStatus = s2.quizStatus ∧ s1.listeners = s2.listeners ∧
  listenerCalls s1.trace = listenerCalls s2.trace

/-- Whether `isViewed(url)`, that is `url in viewedItems`, throws a TypeError on
a manager whose `viewedItems` field holds `v`: the operator `in` requires an object. -/
def isViewedThrows (viewedItems : JSVal) : Bool := !viewedItems.isObject

/-- Whether `markAsViewed(url, context)`, that is `viewedItems[url] = {...}` in
strict-mode class code, throws a TypeError on a manager whose `viewedItems`
field holds `v`: a property cannot be created on a primitive. -/
def markAsViewedThrows (viewedItems : JSVal) : Bool := !viewedItems.isObject

/-- The dictionary a backup document carries under `name`, read from the value
of its `data`: `some none` when the property is absent or falsy, `none` when it
is truthy without being a plain object. -/
def readCategory (data : JSVal) (name : String) : Option (Option JSObject) :=
  if !(readProperty data name).truthy then some none
  else
    match readProperty data name with
    | .obj ps => some (some { proto := none, props := ps })
    | _ => none

/-- The typed document `importData` sees in a JavaScript value: `some none` for
a falsy value (`null`), `none` when a category is truthy without being a plain
object. Only `data`, the one property `importData` reads, is kept. -/
def readDocument (backupData : JSVal) : Option (Option BackupDocument) :=
  if !backupData.truthy then some none
  else if !(readProperty backupData "data").truthy then some (some BackupDocument.empty)
  else
    match readCategory (readProperty backupData "data") "viewed",
        readCategory (readProperty backupData "data") "saved",
        readCategory (readProperty backupData "data") "notes",
        readCategory (readProperty backupData "data") "quiz" with
    | some v, some sv, some n, some q =>
      some (some (BackupDocument.ofData { viewed := v, saved := sv, notes := n, quiz := q }))
    | _, _, _, _ => none

/-- The field `viewedItems` when `init()` has left an array in it (the stored
text parsed to an array): the elements, and the named properties assigned since. -/
structure ArrayMap where
  items : List JSVal
  named : Props

/-- The array a loaded value is, if it is one. -/
def arrayMapOf : JSVal → Option ArrayMap
  | .arr items => some { items := items, named := [] }
  | _ => none

/-- The assignment `viewedItems[url] = { timestamp: now, ...context }` of
`markAsViewed` on an array, for a `url` that is not an array index, `length` or
`__proto__`: the array gets a named property. The result is `none` for those
other keys, which this type does not cover. -/
def ArrayMap.markAsViewed (a : ArrayMap) (url : String) (context : JSVal) (now : Int) :
    Option ArrayMap :=
  let record := spreadInto (defineOwnProperty [] "timestamp" (JSVal.num now)) (spreadProps context)
  if (arrayIndex? url).isSome ∨ url = "length" ∨ url = "__proto__" then none
  else some { items := a.items, named := defineOwnProperty a.named url (JSVal.obj record) }

/-- The text `JSON.stringify(viewedItems)` that `saveToStorage` writes for an
array: the elements only, named properties are left out. -/
def ArrayMap.stored (a : ArrayMap) : StoredText :=
  StoredText.json (JSVal.arr (jsonItems a.items))

/-- A store that holds the text `[]` under the default viewed key. -/
def arrayStore : LocalStorage := [("app_viewed_items", StoredText.json (JSVal.arr []))]

/-- A state whose viewed dictionary holds one record, for a document URL. -/
def viewedDoc : State :=
  { freshState [] with
    viewedItems := plain [("https://example.org/doc.pdf",
      JSVal.obj [("timestamp", JSVal.num 1), ("title", JSVal.str "Doc")])] }

end StateManager

namespace Utils

/-- The character class `[&<>"']` of the regular expression in `escapeHTML`:
ampersand (38), less-than (60), greater-than (62), double quote (34) and
apostrophe (39). -/
def inClass (c : Char) : Bool :=
  c = Char.ofNat 38 || c = Char.ofNat 60 || c = Char.ofNat 62 || c = Char.ofNat 34
    || c = Char.ofNat 39

/-- The object `escapeMap` of the callback. -/
def escapeMap : List (Char × String) :=
  [(Char.ofNat 38, "&amp;"), (Char.ofNat 60, "&lt;"), (Char.ofNat 62, "&gt;"),
   (Char.ofNat 34, "&quot;"), (Char.ofNat 39, "&#39;")]

/-- The callback `(char) => escapeMap[char]`; a character the object does not
list would read as `undefined`, which `replace` inserts as the text `undefined`. -/
def escapeCallback (char : Char) : String := (escapeMap.lookup char).getD "undefined"

/-- The call `s.replace(re, callback)` for a global regular expression `re` that
matches exactly the single characters of a class: every match, from left to
right, is replaced by what the callback returns for it. -/
def replaceAll (cls : Char → Bool) (callback : Char → String) : List Char → List Char
  | [] => []
  | c :: rest =>
    (if cls c then (callback c).toList else [c]) ++ replaceAll cls callback rest

/-- The function `Utils.escapeHTML(str)` on a string (`String(str)` is then `str`). -/
def escapeHTML (str : String) : String :=
  String.mk (replaceAll inClass escapeCallback str.toList)

/-- The replacement the specification gives for one character: the entity for
each of the five special characters, the character itself otherwise. -/
def entityOf (c : Char) : String :=
  if c = Char.ofNat 38 then "&amp;"
  else if c = Char.ofNat 60 then "&lt;"
  else if c = Char.ofNat 62 then "&gt;"
  else if c = Char.ofNat 34 then "&quot;"
  else if c = Char.ofNat 39 then "&#39;"
  else String.singleton c

/-- The specification of `escapeHTML`: the string with each character replaced
by its entity. -/
def escapeSpec (s : String) : String :=
  String.mk (s.toList.flatMap (fun c => (entityOf c).toList))

end Utils

namespace JS

/-- White space and line terminators, the characters `String.prototype.trim` strips. -/
def isWhiteSpace (c : Char) : Bool :=
  c.toNat = 9 || c.toNat = 10 || c.toNat = 11 || c.toNat = 12 || c.toNat = 13
    || c.toNat = 32 || c.toNat = 160 || c.toNat = 5760
    || (8192 ≤ c.toNat && c.toNat ≤ 8202)
    || c.toNat = 8232 || c.toNat = 8233 || c.toNat = 8239 || c.toNat = 8287
    || c.toNat = 12288 || c.toNat = 65279

/-- The method `s.trim()`. -/
def trim (s : String) : String :=
  String.mk (((s.toList.dropWhile isWhiteSpace).reverse.dropWhile isWhiteSpace).reverse)

end JS

/-- The fields of a `NotesManager` (CPIA/js/notes.js) that `save` and `delete`
use. `stateManager` is the manager the editor was built on (an object, hence
truthy); `currentId` and `currentContext` are `none` for `null`;
`textareaValue` is `this.textarea.value`; `status` is the text of the status
line; `closeTimer` is the delay of the pending `setTimeout(() => this.close(), _)`,
if one was set. -/
structure NotesManager where
  stateManager : StateManager.State
  currentId : Option String
  currentContext : Option JS.Props
  textareaValue : String
  lastSavedText : String
  status : String
  closeTimer : Option Nat

namespace NotesManager

open JS StateManager

/-- The method `close()`, as far as the fields above go. -/
def close (m : NotesManager) : NotesManager :=
  { m with status := "", currentId := none, currentContext := none }

/-- The expression `(this.currentContext && this.currentContext.name) || fallback`. -/
def contextField (m : NotesManager) (name fallback : String) : JSVal :=
  match m.currentContext with
  | some ctx => ((getOwnProperty ctx name).getD JSVal.undefined).or (JSVal.str fallback)
  | none => JSVal.str fallback

/-- The method `delete()`; `confirmed` is the answer of the dialog
`confirm('Delete this note?')`, which is shown only when the text is not blank. -/
def delete (m : NotesManager) (confirmed : Bool) : NotesManager :=
  match m.currentId with
  | none => m.close
  | some id =>
    if id = "" then m.close
    else if (if m.textareaValue = "" then "" else trim m.textareaValue) = "" then m
    else if !confirmed then m
    else
      { m with stateManager := deleteNote m.stateManager id, textareaValue := "",
               lastSavedText := "", status := "Deleted", closeTimer := some 80 }

/-- The method `save()`; `now` is the value of `Date.now()` inside `saveNote`. -/
def save (m : NotesManager) (confirmed : Bool) (now : Int) : NotesManager :=
  match m.currentId with
  | none => m.close
  | some id =>
    if id = "" then m.close
    else if trim m.textareaValue = "" then m.delete confirmed
    else
      let payload : Props :=
        [("text", JSVal.str (trim m.textareaValue)), ("label", m.contextField "label" ""),
         ("type", m.contextField "type" "item"), ("source", m.contextField "source" "")]
      { m with stateManager := saveNote m.stateManager id (JSVal.obj payload) now,
               lastSavedText := trim m.textareaValue, status := "Saved",
               closeTimer := some 120 }

/-- The note editor open on the note `n1` of `oneNote`, whose text is `x`, after
the user has replaced the text by `text`. -/
def editing (text : String) : NotesManager :=
  { stateManager := oneNote
    currentId := some "n1"
    currentContext := some [("type", JSVal.str "glossary"), ("label", JSVal.str "IRB"),
                            ("source", JSVal.str "Glossary")]
    textareaValue := text
    lastSavedText := "x"
    status := "Loaded"
    closeTimer := none }

end NotesManager

/-- A question of the quiz data, as far as scoring goes: its `id`. Identifiers
are strings, as the comparisons of `q.id` with the `data-quiz-id` attribute in
`handleAnswer` assume. -/
structure Question where
  id : String

/-- The scoring fields of a `QuizManager` (CIP/js/quiz.js): the questions
`this.data.questions`, the sets `answeredQuestions` and `correctlyAnswered` and
the map `firstAttemptAnswers`, each in insertion order. -/
structure QuizManager where
  questions : List Question
  answeredQuestions : List String
  firstAttemptAnswers : List (String × Bool)
  correctlyAnswered : List String

/-- The object `getScore()` returns. -/
structure Score where
  correct : Nat
  total : Nat
  deriving DecidableEq, Repr

namespace QuizManager

open JS StateManager

/-- The call `set.add(x)` on a `Set`. -/
def setAdd (xs : List String) (x : String) : List String :=
  if x ∈ xs then xs else xs ++ [x]

/-- The call `set.delete(x)` on a `Set`. -/
def setDelete (xs : List String) (x : String) : List String := xs.filter (fun y => y ≠ x)

/-- The call `map.has(k)` on a `Map`. -/
def mapHas (m : List (String × Bool)) (k : String) : Bool := (m.lookup k).isSome

/-- The call `map.set(k, v)` on a `Map`. -/
def mapSet (m : List (String × Bool)) (k : String) (v : Bool) : List (String × Bool) :=
  if mapHas m k then m.map (fun p => if p.1 = k then (k, v) else p) else m ++ [(k, v)]

/-- The manager the constructor builds, with the quiz data loaded. -/
def create (questions : List Question) : QuizManager :=
  { questions := questions, answeredQuestions := [], firstAttemptAnswers := [],
    correctlyAnswered := [] }

/-- The storage id `quiz-q${id}` that `render` writes into `data-item-id`. -/
def itemIdOf (quizId : String) : String := "quiz-q" ++ quizId

/-- The method `handleAnswer(selectedOption, quizId)` on the scoring fields and
the state manager: `isCorrect` tells whether the option carries `data-correct`,
`selectedIndex` is its position, `now1` and `now2` are the values of
`Date.now()` in the two `setQuizStatus` calls. The second call, which records
the first attempt, stands inside the `else` branch of `if (isCorrect)`. -/
def handleAnswer (q : QuizManager) (sm : State) (quizId : String) (selectedIndex : Nat)
    (isCorrect : Bool) (now1 now2 : Int) : QuizManager × State :=
  let itemId := itemIdOf quizId
  let sm1 := setQuizStatus sm itemId
    (JSVal.obj [("uiState", JSVal.str (if isCorrect then "correct" else "incorrect")),
                ("selectedIndex", JSVal.num selectedIndex),
                ("attempted", JSVal.bool true),
                ("everWrong", JSVal.bool (!isCorrect)),
                ("finished", JSVal.bool isCorrect)]) now1
  let first :=
    if mapHas q.firstAttemptAnswers quizId then q.firstAttemptAnswers
    else mapSet q.firstAttemptAnswers quizId isCorrect
  let q1 : QuizManager :=
    { questions := q.questions
      answeredQuestions := setAdd q.answeredQuestions quizId
      firstAttemptAnswers := first
      correctlyAnswered :=
        if isCorrect then setAdd q.correctlyAnswered quizId
        else setDelete q.correctlyAnswered quizId }
  if isCorrect then (q1, sm1)
  else
    (q1, setQuizStatus sm1 itemId
      (JSVal.obj [("uiState", JSVal.str "incorrect"),
                  ("selectedIndex", JSVal.num selectedIndex),
                  ("firstAttemptRecorded", JSVal.bool (mapHas first quizId)),
                  ("firstAttemptCorrect", JSVal.bool (first.lookup quizId == some true))]) now2)

/-- The comparison `v === true`. -/
def isTrue : JSVal → Bool
  | .bool true => true
  | _ => false

/-- The comparison `v === text` with a string. -/
def isString (v : JSVal) (text : String) : Bool :=
  match v with
  | .str s => s = text
  | _ => false

/-- One round of the `forEach` in `restoreQuizStateFromStorage`, on the scoring
fields. -/
def restoreQuestion (sm : State) (q : QuizManager) (question : Question) : QuizManager :=
  let status := getQuizStatus sm (itemIdOf question.id)
  if !status.truthy then q
  else
    let first :=
      if (readProperty status "firstAttemptRecorded").truthy then
        mapSet q.firstAttemptAnswers question.id
          (isTrue (readProperty status "firstAttemptCorrect"))
      else q.firstAttemptAnswers
    let uiState := readProperty status "uiState"
    { questions := q.questions
      answeredQuestions :=
        if isString uiState "correct" || isString uiState "incorrect" then
          setAdd q.answeredQuestions question.id
        else q.answeredQuestions
      firstAttemptAnswers := first
      correctlyAnswered :=
        if isString uiState "correct" then setAdd q.correctlyAnswered question.id
        else q.correctlyAnswered }

/-- The method `restoreQuizStateFromStorage()`, on the scoring fields. -/
def restoreQuizStateFromStorage (q : QuizManager) (sm : State) : QuizManager :=
  q.questions.foldl (restoreQuestion sm) (create q.questions)

/-- The method `getScore()`. -/
def getScore (q : QuizManager) : Score :=
  { correct := (q.questions.filter
      (fun question => q.firstAttemptAnswers.lookup question.id == some true)).length
    total := q.questions.length }

/-- A backend that works and holds nothing. -/
def emptyBackend : Backend := { working := true, quotaExceeded := false, items := [] }

/-- The page after a reload: a state manager constructed on the store the old
one left, and a quiz manager with the same questions restored from it. -/
def reload (b : Backend) (q : QuizManager) (sm : State) : Option QuizManager :=
  (construct sm.STORAGE_KEYS (b.after sm)).map
    (fun sm2 => restoreQuizStateFromStorage (create q.questions) sm2)

end QuizManager

/-- The flashcard fields of a `GlossaryManager` (CIP/js/glossary.js): `items` is
the list `this.apply()` returns (the terms that pass the search filter, sorted),
which stays the same while the cards are studied. -/
structure GlossaryManager (α : Type) where
  items : List α
  shuffledIndices : List Nat
  currentCardIndex : Nat
  isFlipped : Bool

namespace GlossaryManager

/-- The destructuring assignment `[a[i], a[j]] = [a[j], a[i]]`: both elements
are read, then `a[i]` and `a[j]` are written in this order. -/
def swap (a : List Nat) (i j : Nat) : List Nat :=
  (a.set i (a.getD j 0)).set j (a.getD i 0)

/-- The loop `for (let i = start; i > 0; i--)` of the Fisher-Yates shuffle;
`draw i` is the value of `Math.floor(Math.random() * (i + 1))` in round `i`. -/
def shuffleLoop (draw : Nat → Nat) : Nat → List Nat → List Nat
  | 0, a => a
  | i + 1, a => shuffleLoop draw i (swap a (i + 1) (draw (i + 1)))

/-- The method `shuffleCards()`. -/
def shuffleCards {α : Type} (g : GlossaryManager α) (draw : Nat → Nat) : GlossaryManager α :=
  if g.items.length = 0 then g
  else
    { items := g.items
      shuffledIndices := shuffleLoop draw (g.items.length - 1) (List.range g.items.length)
      currentCardIndex := 0
      isFlipped := false }

/-- The method `getCurrentItem()`; `none` stands for `null` and for the
`undefined` of an index outside the array. -/
def getCurrentItem {α : Type} (g : GlossaryManager α) : Option α :=
  if g.items.length = 0 then none
  else if g.shuffledIndices.length > 0 then
    (g.shuffledIndices.get? g.currentCardIndex).bind (fun i => g.items.get? i)
  else g.items.get? g.currentCardIndex

/-- The method `nextCard()`. -/
def nextCard {α : Type} (g : GlossaryManager α) : GlossaryManager α :=
  if g.currentCardIndex + 1 < g.items.length then
    { g with currentCardIndex := g.currentCardIndex + 1, isFlipped := false }
  else g

/-- The method `prevCard()`. -/
def prevCard {α : Type} (g : GlossaryManager α) : GlossaryManager α :=
  if g.currentCardIndex > 0 then
    { g with currentCardIndex := g.currentCardIndex - 1, isFlipped := false }
  else g

/-- The card shown after `k` presses of the next button. -/
def shownAfter {α : Type} (g : GlossaryManager α) (k : Nat) : Option α :=
  getCurrentItem (nextCard^[k] g)

end GlossaryManager

namespace StateManager

open JS

/-- A call on item `x` of category `c` is local: the dictionaries of the other
three categories are the same objects as before, and in the dictionary of `c`
the entry stored under every key other than `x` is the one stored before. -/
def changesOnly (c : Category) (x : String) (s s' : State) : Prop :=
  (∀ c2, c2 ≠ c → s'.map c2 = s.map c2) ∧
  ∀ y, y ≠ x → getOwnProperty (s'.map c).props y = getOwnProperty (s.map c).props y

/-- The call `exportData()` as a step of the manager: the state after the call
and the document returned. The method has no assignment and calls neither
`saveToStorage` nor `notifyListeners`, so the state is handed on as it is. -/
def exportDataCall (s : State) (configAppId : Option String) (isoDate : String) :
    State × BackupDocument :=
  (s, exportData s configAppId isoDate)

/-- The identifiers of a listing: the value each entry holds under `name`
(`itemId`, `url` or `id`). -/
def labelsOf (name : String) (entries : List Props) : List (Option JSVal) :=
  entries.map (fun e => getOwnProperty e name)

end StateManager

namespace GlossaryManager

/-- A deck of four terms, not shuffled, at its first card. -/
def demoDeck : GlossaryManager String :=
  { items := ["assent", "consent", "IRB", "minimal risk"], shuffledIndices := [],
    currentCardIndex := 0, isFlipped := false }

end GlossaryManager

namespace JS

/-- Key `a` may stand before key `b` in the enumeration of an object: array
indices come first, in ascending order, and no key comes twice. -/
def keyBefore (a b : String) : Prop :=
  match arrayIndex? a, arrayIndex? b with
  | some i, some j => i < j
  | some _, none => True
  | none, some _ => False
  | none, none => a ≠ b

/-- The properties stand in the order in which JavaScript enumerates them, each
key once. -/
def Canonical (ps : Props) : Prop := (ownKeys ps).Pairwise keyBefore

/-- The properties `X` with the values of `d` written over them, key by key. -/
def overlay (d X : Props) : Props :=
  X.map (fun q => (q.1, (getOwnProperty d q.1).getD q.2))

end JS

/-! Lookup lemmas for the property operations. -/

namespace JS

theorem getOwnProperty_append (a b : Props) (k : String) :
    getOwnProperty (a ++ b) k = (getOwnProperty b k).or (getOwnProperty a k) := by
  induction a with
  | nil => simp [getOwnProperty, Option.or_none]
  | cons p rest ih =>
    show getOwnProperty (p :: (rest ++ b)) k = _
    simp only [getOwnProperty, ih, Option.or_assoc]

theorem getOwnProperty_updateOwn (ps : Props) (k k' : String) (v : JSVal) :
    getOwnProperty (updateOwn ps k v) k' =
      if k' = k then (if hasOwnProperty ps k then some v else none)
      else getOwnProperty ps k' := by
  induction ps with
  | nil => simp [updateOwn, getOwnProperty, hasOwnProperty]
  | cons p rest ih =>
    simp only [updateOwn, hasOwnProperty, List.map_cons, getOwnProperty] at ih ⊢
    rw [ih]
    clear ih
    by_cases h1 : k' = k
    · subst h1
      by_cases h2 : p.1 = k'
      · simp only [h2, if_true]
        rcases Option.eq_none_or_eq_some (getOwnProperty rest k') with h3 | ⟨w, h3⟩ <;> simp [h3]
      · simp only [h2, if_false, if_true]
        rcases Option.eq_none_or_eq_some (getOwnProperty rest k') with h3 | ⟨w, h3⟩ <;> simp [h3]
    · by_cases h2 : p.1 = k
      · have h4 : ¬ p.1 = k' := fun h => h1 (h.symm.trans h2)
        have h5 : ¬ k = k' := fun h => h1 h.symm
        simp [h1, h2, h4, h5]
      · simp [h1, h2]

theorem getOwnProperty_insertIndex (ps : Props) (i : Nat) (k k' : String) (v : JSVal)
    (h : getOwnProperty ps k = none) :
    getOwnProperty (insertIndex ps i k v) k' =
      if k' = k then some v else getOwnProperty ps k' := by
  induction ps with
  | nil =>
    by_cases h1 : k' = k
    · simp [insertIndex, getOwnProperty, h1]
    · have h2 : ¬ k = k' := fun e => h1 e.symm
      simp [insertIndex, getOwnProperty, h1, h2]
  | cons p rest ih =>
    simp only [getOwnProperty, Option.or_eq_none] at h
    obtain ⟨hrest, hk0⟩ := h
    have hne : ¬ p.1 = k := by
      intro e
      simp [e] at hk0
    have key : getOwnProperty ((k, v) :: p :: rest) k' =
        if k' = k then some v else getOwnProperty (p :: rest) k' := by
      by_cases h1 : k' = k
      · subst h1
        simp [getOwnProperty, hrest, hne]
      · have h2 : ¬ k = k' := fun e => h1 e.symm
        simp [getOwnProperty, h1, h2, Option.or_none]
    unfold insertIndex
    split
    · split
      · simp only [getOwnProperty, ih hrest]
        by_cases h1 : k' = k
        · subst h1
          simp [hne]
        · simp [h1]
      · exact key
    · exact key

theorem getOwnProperty_insertNew (ps : Props) (k k' : String) (v : JSVal)
    (h : getOwnProperty ps k = none) :
    getOwnProperty (insertNew ps k v) k' =
      if k' = k then some v else getOwnProperty ps k' := by
  unfold insertNew
  split
  · exact getOwnProperty_insertIndex ps _ k k' v h
  · rw [getOwnProperty_append]
    by_cases h1 : k' = k
    · subst h1
      simp [getOwnProperty]
    · have h2 : ¬ k = k' := fun e => h1 e.symm
      simp [getOwnProperty, h1, h2]

theorem getOwnProperty_defineOwnProperty (ps : Props) (k k' : String) (v : JSVal) :
    getOwnProperty (defineOwnProperty ps k v) k' =
      if k' = k then some v else getOwnProperty ps k' := by
  unfold defineOwnProperty
  by_cases h : hasOwnProperty ps k = true
  · simp only [h, if_true, getOwnProperty_updateOwn]
  · have h0 : getOwnProperty ps k = none := by
      cases h3 : getOwnProperty ps k with
      | none => rfl
      | some w => simp [hasOwnProperty, h3] at h
    rw [if_neg h]
    exact getOwnProperty_insertNew ps k k' v h0

theorem getOwnProperty_spreadInto (src target : Props) (k : String) :
    getOwnProperty (spreadInto target src) k =
      (getOwnProperty src k).or (getOwnProperty target k) := by
  induction src generalizing target with
  | nil => simp [spreadInto, getOwnProperty]
  | cons p rest ih =>
    have hstep : spreadInto target (p :: rest) =
        spreadInto (defineOwnProperty target p.1 p.2) rest := by
      simp [spreadInto]
    rw [hstep, ih, getOwnProperty_defineOwnProperty]
    simp only [getOwnProperty, Option.or_assoc]
    by_cases h1 : k = p.1
    · simp [h1]
    · have h2 : ¬ p.1 = k := fun e => h1 e.symm
      simp [h1, h2]

theorem getOwnProperty_deleteOwnProperty (ps : Props) (k k' : String) :
    getOwnProperty (deleteOwnProperty ps k) k' =
      if k' = k then none else getOwnProperty ps k' := by
  induction ps with
  | nil => simp [deleteOwnProperty, getOwnProperty]
  | cons p rest ih =>
    simp only [deleteOwnProperty] at ih ⊢
    by_cases h0 : p.1 = k
    · simp only [List.filter_cons, ne_eq, h0, not_true_eq_false, decide_False, Bool.false_eq_true,
        if_false, ih, getOwnProperty]
      by_cases h1 : k' = k
      · simp [h1]
      · have h2 : ¬ k = k' := fun e => h1 e.symm
        simp [h1, h2, Option.or_none]
    · simp only [List.filter_cons, ne_eq, h0, not_false_eq_true, decide_True, if_true,
        getOwnProperty, ih]
      by_cases h1 : k' = k
      · subst h1
        simp [h0]
      · simp [h1]

end JS

namespace StateManager

open JS

@[simp] theorem saveToStorage_viewedItems (s : State) (key : String) (data : JSObject) :
    (saveToStorage s key data).viewedItems = s.viewedItems := by
  unfold saveToStorage; split <;> [rfl; (split <;> rfl)]

@[simp] theorem saveToStorage_savedItems (s : State) (key : String) (data : JSObject) :
    (saveToStorage s key data).savedItems = s.savedItems := by
  unfold saveToStorage; split <;> [rfl; (split <;> rfl)]

@[simp] theorem saveToStorage_notes (s : State) (key : String) (data : JSObject) :
    (saveToStorage s key data).notes = s.notes := by
  unfold saveToStorage; split <;> [rfl; (split <;> rfl)]

@[simp] theorem saveToStorage_quizStatus (s : State) (key : String) (data : JSObject) :
    (saveToStorage s key data).quizStatus = s.quizStatus := by
  unfold saveToStorage; split <;> [rfl; (split <;> rfl)]

@[simp] theorem saveToStorage_listeners (s : State) (key : String) (data : JSObject) :
    (saveToStorage s key data).listeners = s.listeners := by
  unfold saveToStorage; split <;> [rfl; (split <;> rfl)]

@[simp] theorem saveToStorage_storageAvailable (s : State) (key : String) (data : JSObject) :
    (saveToStorage s key data).storageAvailable = s.storageAvailable := by
  unfold saveToStorage; split <;> [rfl; (split <;> rfl)]

@[simp] theorem saveToStorage_quotaExceeded (s : State) (key : String) (data : JSObject) :
    (saveToStorage s key data).quotaExceeded = s.quotaExceeded := by
  unfold saveToStorage; split <;> [rfl; (split <;> rfl)]

@[simp] theorem saveToStorage_STORAGE_KEYS (s : State) (key : String) (data : JSObject) :
    (saveToStorage s key data).STORAGE_KEYS = s.STORAGE_KEYS := by
  unfold saveToStorage; split <;> [rfl; (split <;> rfl)]

@[simp] theorem notifyListeners_viewedItems (s : State) (type url : String) (status : Bool) :
    (notifyListeners s type url status).viewedItems = s.viewedItems := rfl

@[simp] theorem notifyListeners_savedItems (s : State) (type url : String) (status : Bool) :
    (notifyListeners s type url status).savedItems = s.savedItems := rfl

@[simp] theorem notifyListeners_notes (s : State) (type url : String) (status : Bool) :
    (notifyListeners s type url status).notes = s.notes := rfl

@[simp] theorem notifyListeners_quizStatus (s : State) (type url : String) (status : Bool) :
    (notifyListeners s type url status).quizStatus = s.quizStatus := rfl

@[simp] theorem notifyListeners_listeners (s : State) (type url : String) (status : Bool) :
    (notifyListeners s type url status).listeners = s.listeners := rfl

/-- The four dictionaries after the import blocks, category by category. -/
theorem importData_maps (s : State) (doc : BackupDocument) (d : BackupData) (merge : Bool)
    (h : doc.data = some d) :
    (importData s (some doc) merge).1.viewedItems =
        (match d.viewed with
          | some m => importMap merge s.viewedItems m
          | none => s.viewedItems) ∧
    (importData s (some doc) merge).1.savedItems =
        (match d.saved with
          | some m => importMap merge s.savedItems m
          | none => s.savedItems) ∧
    (importData s (some doc) merge).1.notes =
        (match d.notes with
          | some m => importMap merge s.notes m
          | none => s.notes) ∧
    (importData s (some doc) merge).1.quizStatus =
        (match d.quiz with
          | some m => importMap merge s.quizStatus m
          | none => s.quizStatus) := by
  simp only [importData, Option.bind, h]
  refine ⟨?_, ?_, ?_, ?_⟩
  all_goals
    simp only [notifyListeners_viewedItems, notifyListeners_savedItems, notifyListeners_notes,
      notifyListeners_quizStatus, importQuiz, importNotes, importSaved, importViewed]
    cases d.viewed <;> cases d.saved <;> cases d.notes <;> cases d.quiz <;> simp


theorem importData_category (s : State) (doc : BackupDocument) (d : BackupData) (merge : Bool)
    (c : Category) (h : doc.data = some d) :
    (importData s (some doc) merge).1.map c =
      (match d.category c with
        | some m => importMap merge (s.map c) m
        | none => s.map c) := by
  obtain ⟨h1, h2, h3, h4⟩ := importData_maps s doc d merge h
  cases c
  · simpa [State.map, BackupData.category] using h1
  · simpa [State.map, BackupData.category] using h2
  · simpa [State.map, BackupData.category] using h3
  · simpa [State.map, BackupData.category] using h4

theorem getOwnProperty_spread2 (a b : JSObject) (k : String) :
    getOwnProperty (JSObject.spread2 a b).props k =
      if hasOwnProperty b.props k then getOwnProperty b.props k else getOwnProperty a.props k := by
  simp only [JSObject.spread2, getOwnProperty_spreadInto, hasOwnProperty]
  rcases Option.eq_none_or_eq_some (getOwnProperty b.props k) with h | ⟨w, h⟩ <;>
    simp [h, getOwnProperty, Option.or_none]

/-- C1: round trip. For every state, `importData(exportData(), false)` succeeds and
leaves each of the four dictionaries (viewed, saved, notes, quiz) equal to what it
was before the export, hence with the same keys and the same record under every key. -/
theorem importData_exportData_roundtrip (s : State) (configAppId : Option String)
    (isoDate : String) :
    (importData s (some (exportData s configAppId isoDate)) false).2.success = true ∧
    (importData s (some (exportData s configAppId isoDate)) false).1.viewedItems = s.viewedItems ∧
    (importData s (some (exportData s configAppId isoDate)) false).1.savedItems = s.savedItems ∧
    (importData s (some (exportData s configAppId isoDate)) false).1.notes = s.notes ∧
    (importData s (some (exportData s configAppId isoDate)) false).1.quizStatus = s.quizStatus := by
  obtain ⟨h1, h2, h3, h4⟩ := importData_maps s (exportData s configAppId isoDate)
    { viewed := some s.viewedItems, saved := some s.savedItems,
      notes := some s.notes, quiz := some s.quizStatus } false rfl
  refine ⟨?_, ?_, ?_, ?_, ?_⟩
  · simp [importData, exportData]
  · simpa [importMap] using h1
  · simpa [importMap] using h2
  · simpa [importMap] using h3
  · simpa [importMap] using h4

/-- C2: merge import. When the document carries a dictionary `D` for a category,
after `importData(doc, true)` the local dictionary of that category holds under
every key `k` the value `D[k]` if `k` is a key of `D` and the former local value
otherwise (so a key of neither is absent). -/
theorem importData_merge_union (s : State) (doc : BackupDocument) (d : BackupData)
    (c : Category) (D : JSObject) (k : String)
    (h : doc.data = some d) (hD : d.category c = some D) :
    getOwnProperty ((importData s (some doc) true).1.map c).props k =
      if hasOwnProperty D.props k then getOwnProperty D.props k
      else getOwnProperty (s.map c).props k := by
  rw [importData_category s doc d true c h, hD]
  simp only [importMap, if_true]
  exact getOwnProperty_spread2 (s.map c) D k

/-- Witness for C2: local `{a: 1}` merged with imported `{a: 2, b: 3}` gives `{a: 2, b: 3}`. -/
theorem importData_merge_union_witness :
    (BackupDocument.ofData mergeData).data = some mergeData ∧
    mergeData.category Category.viewed = some (plain [("a", JSVal.num 2), ("b", JSVal.num 3)]) ∧
    getOwnProperty
        ((importData viewedA (some (BackupDocument.ofData mergeData)) true).1.map
          Category.viewed).props "a" =
      (if hasOwnProperty (plain [("a", JSVal.num 2), ("b", JSVal.num 3)]).props "a" then
        getOwnProperty (plain [("a", JSVal.num 2), ("b", JSVal.num 3)]).props "a"
      else getOwnProperty (viewedA.map Category.viewed).props "a") ∧
    ((importData viewedA (some (BackupDocument.ofData mergeData)) true).1.map
        Category.viewed).props = [("a", JSVal.num 2), ("b", JSVal.num 3)] :=
  ⟨rfl, rfl,
   importData_merge_union viewedA (BackupDocument.ofData mergeData) mergeData Category.viewed
     (plain [("a", JSVal.num 2), ("b", JSVal.num 3)]) "a" rfl rfl,
   rfl⟩


/-- C3, counterexample: a replace import of a document whose `data` carries only
a viewed dictionary leaves the local saved entry `a` in place, although the
document carries nothing for the saved category. -/
theorem importData_replace_keeps_omitted :
    (BackupDocument.ofData viewedOnlyData).data = some viewedOnlyData ∧
    viewedOnlyData.category Category.saved = none ∧
    getOwnProperty (savedOnly.map Category.saved).props "a" =
      some (JSVal.obj [("timestamp", JSVal.num 1)]) ∧
    getOwnProperty
        ((importData savedOnly (some (BackupDocument.ofData viewedOnlyData)) false).1.map
          Category.saved).props "a" =
      some (JSVal.obj [("timestamp", JSVal.num 1)]) :=
  ⟨rfl, rfl, rfl, rfl⟩

/-- C3, amended: with `merge = false`, for a category the document carries,
every entry present after the import is an entry of the carried dictionary (no
former local entry survives unless the document carries it); the dictionary of
a category the document omits is kept unchanged. -/
theorem importData_replace_carried (s : State) (doc : BackupDocument) (d : BackupData)
    (c : Category) (h : doc.data = some d) :
    (∀ D, d.category c = some D → ∀ k v,
        getOwnProperty ((importData s (some doc) false).1.map c).props k = some v →
        getOwnProperty D.props k = some v) ∧
    (d.category c = none → (importData s (some doc) false).1.map c = s.map c) := by
  rw [importData_category s doc d false c h]
  constructor
  · intro D hD k v hv
    simpa [hD, importMap] using hv
  · intro hn
    simp [hn]

/-- Witness for C3 amended: the document carrying only a viewed dictionary, on a
state with a saved entry. -/
theorem importData_replace_carried_witness :
    (BackupDocument.ofData viewedOnlyData).data = some viewedOnlyData ∧
    (∀ D, viewedOnlyData.category Category.saved = some D → ∀ k v,
        getOwnProperty
          ((importData savedOnly (some (BackupDocument.ofData viewedOnlyData)) false).1.map
            Category.saved).props k = some v →
        getOwnProperty D.props k = some v) ∧
    (viewedOnlyData.category Category.saved = none →
      (importData savedOnly (some (BackupDocument.ofData viewedOnlyData)) false).1.map
        Category.saved = savedOnly.map Category.saved) :=
  ⟨rfl, importData_replace_carried savedOnly (BackupDocument.ofData viewedOnlyData)
    viewedOnlyData Category.saved rfl⟩

/-- C4: replace import. When the document carries a dictionary `D` for a
category, after `importData(doc, false)` the local dictionary of that category is
exactly `D`. -/
theorem importData_replace_exact (s : State) (doc : BackupDocument) (d : BackupData)
    (c : Category) (D : JSObject) (h : doc.data = some d) (hD : d.category c = some D) :
    (importData s (some doc) false).1.map c = D := by
  rw [importData_category s doc d false c h, hD]
  simp [importMap]

/-- Witness for C4: local `{a: 1}` replaced by imported `{b: 3}` gives exactly `{b: 3}`,
and the local key `a` is gone. -/
theorem importData_replace_exact_witness :
    (BackupDocument.ofData viewedOnlyData).data = some viewedOnlyData ∧
    viewedOnlyData.category Category.viewed = some (plain [("b", JSVal.num 3)]) ∧
    (importData viewedA (some (BackupDocument.ofData viewedOnlyData)) false).1.map
        Category.viewed = plain [("b", JSVal.num 3)] ∧
    getOwnProperty
      ((importData viewedA (some (BackupDocument.ofData viewedOnlyData)) false).1.map
        Category.viewed).props "a" = none :=
  ⟨rfl, rfl,
   importData_replace_exact viewedA (BackupDocument.ofData viewedOnlyData) viewedOnlyData
     Category.viewed (plain [("b", JSVal.num 3)]) rfl rfl,
   rfl⟩

/-- C5: invalid backup. For a document that is `null` or has no `data`, and for
either value of `merge`, `importData` returns `success = false` with the error
message `Invalid backup format`, leaves all four dictionaries unchanged, performs
no `setItem` and calls no listener. -/
theorem importData_invalid (s : State) (backupData : Option BackupDocument) (merge : Bool)
    (h : backupData = none ∨ ∃ doc, backupData = some doc ∧ doc.data = none) :
    (importData s backupData merge).2.success = false ∧
    (importData s backupData merge).2.error = some "Invalid backup format" ∧
    (importData s backupData merge).1.viewedItems = s.viewedItems ∧
    (importData s backupData merge).1.savedItems = s.savedItems ∧
    (importData s backupData merge).1.notes = s.notes ∧
    (importData s backupData merge).1.quizStatus = s.quizStatus ∧
    storageWrites (importData s backupData merge).1.trace = storageWrites s.trace ∧
    listenerCalls (importData s backupData merge).1.trace = listenerCalls s.trace := by
  have hb : backupData.bind (fun b => b.data) = none := by
    rcases h with h | ⟨doc, h, hd⟩
    · simp [h]
    · simp [h, hd]
  simp [importData, hb, storageWrites, listenerCalls, List.filter_append]

/-- Witness for C5: the document `{}` on a manager with a listener and a viewed entry. -/
theorem importData_invalid_witness :
    ((some BackupDocument.empty : Option BackupDocument) = none ∨
      ∃ doc, some BackupDocument.empty = some doc ∧ doc.data = none) ∧
    (importData viewedA (some BackupDocument.empty) true).2.success = false ∧
    (importData viewedA (some BackupDocument.empty) true).2.error =
      some "Invalid backup format" ∧
    (importData viewedA (some BackupDocument.empty) true).1.viewedItems = viewedA.viewedItems ∧
    (importData viewedA (some BackupDocument.empty) true).1.savedItems = viewedA.savedItems ∧
    (importData viewedA (some BackupDocument.empty) true).1.notes = viewedA.notes ∧
    (importData viewedA (some BackupDocument.empty) true).1.quizStatus = viewedA.quizStatus ∧
    storageWrites (importData viewedA (some BackupDocument.empty) true).1.trace =
      storageWrites viewedA.trace ∧
    listenerCalls (importData viewedA (some BackupDocument.empty) true).1.trace =
      listenerCalls viewedA.trace :=
  ⟨Or.inr ⟨BackupDocument.empty, rfl, rfl⟩,
   importData_invalid viewedA (some BackupDocument.empty) true
     (Or.inr ⟨BackupDocument.empty, rfl, rfl⟩)⟩


theorem hasOwnProperty_eq_false_iff (ps : Props) (k : String) :
    hasOwnProperty ps k = false ↔ getOwnProperty ps k = none := by
  rcases Option.eq_none_or_eq_some (getOwnProperty ps k) with h | ⟨w, h⟩ <;>
    simp [hasOwnProperty, h]

theorem hasOwnProperty_eq_true_iff (ps : Props) (k : String) :
    hasOwnProperty ps k = true ↔ ∃ v, getOwnProperty ps k = some v := by
  rcases Option.eq_none_or_eq_some (getOwnProperty ps k) with h | ⟨w, h⟩ <;>
    simp [hasOwnProperty, h]

theorem JSObject.set_of_own (o : JSObject) (k : String) (r : Props)
    (h1 : hasOwnProperty o.props k = true) :
    o.set k r = { proto := o.proto, props := updateOwn o.props k (JSVal.obj r) } := by
  unfold JSObject.set
  rw [if_pos h1]

theorem JSObject.set_of_setter (o : JSObject) (k : String) (r : Props)
    (h1 : hasOwnProperty o.props k = false) (h2 : o.reachesProtoSetter k = true) :
    o.set k r = { proto := some r, props := o.props } := by
  unfold JSObject.set
  rw [if_neg (by simp [h1]), if_pos h2]

theorem JSObject.set_of_new (o : JSObject) (k : String) (r : Props)
    (h1 : hasOwnProperty o.props k = false) (h2 : o.reachesProtoSetter k = false) :
    o.set k r = { proto := o.proto, props := insertNew o.props k (JSVal.obj r) } := by
  unfold JSObject.set
  rw [if_neg (by simp [h1]), if_neg (by simp [h2])]

theorem JSObject.reachesProtoSetter_key (o : JSObject) (k : String)
    (h : o.reachesProtoSetter k = true) : k = "__proto__" := by
  simp only [JSObject.reachesProtoSetter, Bool.and_eq_true, decide_eq_true_eq] at h
  exact h.1.1

/-- Reading back the key just assigned gives the assigned record, unless the
assignment went to the `__proto__` setter and the record has an own `__proto__`. -/
theorem JSObject.get_set_self (o : JSObject) (k : String) (r : Props)
    (h : o.reachesProtoSetter k = true → hasOwnProperty r k = false) :
    (o.set k r).get k = JSVal.obj r := by
  cases h1 : hasOwnProperty o.props k with
  | true =>
    rw [JSObject.set_of_own o k r h1]
    simp [JSObject.get, getOwnProperty_updateOwn, h1]
  | false =>
    have h0 : getOwnProperty o.props k = none := (hasOwnProperty_eq_false_iff _ _).1 h1
    cases h2 : o.reachesProtoSetter k with
    | true =>
      have hr : getOwnProperty r k = none := (hasOwnProperty_eq_false_iff _ _).1 (h h2)
      have hk := JSObject.reachesProtoSetter_key o k h2
      rw [JSObject.set_of_setter o k r h1 h2]
      subst hk
      simp [JSObject.get, h0, hr, fromObjectPrototype]
    | false =>
      rw [JSObject.set_of_new o k r h1 h2]
      simp [JSObject.get, getOwnProperty_insertNew o.props k k (JSVal.obj r) h0]

/-- The key just assigned is `in` the dictionary. -/
theorem JSObject.has_set_self (o : JSObject) (k : String) (r : Props) :
    (o.set k r).has k = true := by
  cases h1 : hasOwnProperty o.props k with
  | true =>
    rw [JSObject.set_of_own o k r h1]
    have h3 : (getOwnProperty o.props k).isSome = true := h1
    simp [JSObject.has, hasOwnProperty, getOwnProperty_updateOwn, h3]
  | false =>
    have h0 : getOwnProperty o.props k = none := (hasOwnProperty_eq_false_iff _ _).1 h1
    cases h2 : o.reachesProtoSetter k with
    | true =>
      have hk := JSObject.reachesProtoSetter_key o k h2
      rw [JSObject.set_of_setter o k r h1 h2]
      subst hk
      simp [JSObject.has, JSObject.inherits, objectPrototypeNames]
    | false =>
      rw [JSObject.set_of_new o k r h1 h2]
      simp [JSObject.has, hasOwnProperty, getOwnProperty_insertNew o.props k k (JSVal.obj r) h0]

/-- A key the dictionary does not inherit never reaches the `__proto__` setter. -/
theorem JSObject.reachesProtoSetter_of_not_inherits (o : JSObject) (k : String)
    (h : o.inherits k = false) : o.reachesProtoSetter k = false := by
  have hk : k ≠ "__proto__" := by
    intro e
    subst e
    simp [JSObject.inherits, objectPrototypeNames] at h
  simp [JSObject.reachesProtoSetter, hk]

/-- Assigning under a key the dictionary does not inherit keeps its prototype. -/
theorem JSObject.proto_set (o : JSObject) (k : String) (r : Props)
    (h : o.inherits k = false) : (o.set k r).proto = o.proto := by
  have h2 := JSObject.reachesProtoSetter_of_not_inherits o k h
  cases h1 : hasOwnProperty o.props k with
  | true => rw [JSObject.set_of_own o k r h1]
  | false => rw [JSObject.set_of_new o k r h1 h2]

/-- After `delete o[k]` the key is `in` the dictionary exactly when it is inherited. -/
theorem JSObject.has_delete_self (o : JSObject) (k : String) :
    (o.delete k).has k = o.inherits k := by
  simp [JSObject.has, JSObject.delete, hasOwnProperty, getOwnProperty_deleteOwnProperty,
    JSObject.inherits]

/-- After `delete o[k]`, reading `k` finds no own property any more. -/
theorem JSObject.get_delete_self (o : JSObject) (k : String) (h : o.inherits k = false) :
    (o.delete k).get k = JSVal.undefined := by
  have hn : k ∉ objectPrototypeNames := by
    intro hm
    simp [JSObject.inherits, hm] at h
  have hk : k ≠ "__proto__" := by
    intro e
    subst e
    simp [objectPrototypeNames] at hn
  simp only [JSObject.get, JSObject.delete, getOwnProperty_deleteOwnProperty, if_true]
  cases hp : o.proto with
  | none => simp [fromObjectPrototype, hk, hn]
  | some r =>
    have hr : getOwnProperty r k = none := by
      apply (hasOwnProperty_eq_false_iff _ _).1
      simpa [JSObject.inherits, hp, hn] using h
    simp [hr, fromObjectPrototype, hk, hn]

theorem storageWrites_append (a b : List Event) :
    storageWrites (a ++ b) = storageWrites a ++ storageWrites b := by
  simp [storageWrites, List.filter_append]

theorem listenerCalls_append (a b : List Event) :
    listenerCalls (a ++ b) = listenerCalls a ++ listenerCalls b := by
  simp [listenerCalls, List.filter_append]

theorem storageWrites_callListener (type url : String) (status : Bool) (ls : List Listener) :
    storageWrites (ls.flatMap (callListener type url status)) = [] := by
  induction ls with
  | nil => rfl
  | cons l rest ih =>
    rw [List.flatMap_cons, storageWrites_append, ih]
    unfold callListener
    split <;> rfl

theorem listenerCalls_callListener (type url : String) (status : Bool) (ls : List Listener) :
    listenerCalls (ls.flatMap (callListener type url status)) =
      ls.map (fun l => Event.listenerCall l.id type url status) := by
  induction ls with
  | nil => rfl
  | cons l rest ih =>
    rw [List.flatMap_cons, listenerCalls_append, ih]
    unfold callListener
    split <;> rfl

/-- The events `saveToStorage` adds: one `setItem` when storage is available
(reported as failed, and logged, when the store throws), none otherwise. -/
theorem saveToStorage_trace (s : State) (key : String) (data : JSObject) :
    storageWrites (saveToStorage s key data).trace =
        storageWrites s.trace ++
          (if s.storageAvailable then [Event.setItem key data.props (!s.quotaExceeded)] else []) ∧
    listenerCalls (saveToStorage s key data).trace = listenerCalls s.trace := by
  unfold saveToStorage
  cases h1 : s.storageAvailable <;> cases h2 : s.quotaExceeded <;>
    simp [storageWrites, listenerCalls, List.filter_append]


/-- C7, counterexample: on a fresh manager `deleteNote("toString")` finds the
inherited `Object.prototype.toString`, so it writes the notes dictionary and
calls the listener although no note is stored, and `hasNote("toString")` is
still true afterwards; and `deleteNote("")` leaves a note stored under the empty
key in place, without any write or listener call. -/
theorem deleteNote_inherited_or_empty_key :
    (getOwnProperty (freshState [⟨0, false⟩]).notes.props "toString" = none ∧
      (deleteNote (freshState [⟨0, false⟩]) "toString").trace =
        [Event.setItem "app_notes" [] true, Event.listenerCall 0 "note" "toString" false] ∧
      hasNote (deleteNote (freshState [⟨0, false⟩]) "toString") "toString" = true) ∧
    (hasNote emptyKeyNote "" = true ∧
      (deleteNote emptyKeyNote "").trace = [] ∧
      hasNote (deleteNote emptyKeyNote "") "" = true) :=
  ⟨⟨rfl, rfl, rfl⟩, rfl, rfl, rfl⟩

/-- C7, amended: for a non-empty id that the notes dictionary does not inherit
from its prototype chain, `deleteNote(id)` persists and notifies exactly when
`hasNote(id)` held before: in that case `hasNote(id)` is false afterwards, the
call adds one `setItem` of the notes dictionary when storage is available and
one call `("note", id, false)` per listener; otherwise the state is unchanged. -/
theorem deleteNote_effect (s : State) (itemId : String) (hne : itemId ≠ "")
    (hin : s.notes.inherits itemId = false) :
    (hasNote s itemId = true →
      hasNote (deleteNote s itemId) itemId = false ∧
      storageWrites (deleteNote s itemId).trace =
        storageWrites s.trace ++
          (if s.storageAvailable then
            [Event.setItem s.STORAGE_KEYS.NOTES (deleteNote s itemId).notes.props
              (!s.quotaExceeded)]
          else []) ∧
      listenerCalls (deleteNote s itemId).trace =
        listenerCalls s.trace ++
          s.listeners.map (fun l => Event.listenerCall l.id "note" itemId false)) ∧
    (hasNote s itemId = false → deleteNote s itemId = s) := by
  constructor
  · intro h
    have ht : (s.notes.get itemId).truthy = true := h
    have hd : deleteNote s itemId =
        notifyListeners
          (saveToStorage { s with notes := s.notes.delete itemId } s.STORAGE_KEYS.NOTES
            (s.notes.delete itemId)) "note" itemId false := by
      simp [deleteNote, hne, ht]
    rw [hd]
    refine ⟨?_, ?_, ?_⟩
    · simp [hasNote, JSObject.get_delete_self s.notes itemId hin, JSVal.truthy]
    · have h1 := (saveToStorage_trace { s with notes := s.notes.delete itemId }
        s.STORAGE_KEYS.NOTES (s.notes.delete itemId)).1
      simp only [notifyListeners, storageWrites_append, storageWrites_callListener,
        List.append_nil, h1, saveToStorage_notes, saveToStorage_listeners]
    · have h2 := (saveToStorage_trace { s with notes := s.notes.delete itemId }
        s.STORAGE_KEYS.NOTES (s.notes.delete itemId)).2
      simp only [notifyListeners, listenerCalls_append, listenerCalls_callListener, h2,
        saveToStorage_listeners]
  · intro h
    have ht : (s.notes.get itemId).truthy = false := h
    simp [deleteNote, hne, ht]

/-- Witness for C7 amended: deleting the stored note `n1`, with one listener. -/
theorem deleteNote_effect_witness :
    ("n1" : String) ≠ "" ∧ oneNote.notes.inherits "n1" = false ∧ hasNote oneNote "n1" = true ∧
    hasNote (deleteNote oneNote "n1") "n1" = false ∧
    storageWrites (deleteNote oneNote "n1").trace =
      storageWrites oneNote.trace ++
        (if oneNote.storageAvailable then
          [Event.setItem oneNote.STORAGE_KEYS.NOTES (deleteNote oneNote "n1").notes.props
            (!oneNote.quotaExceeded)]
        else []) ∧
    listenerCalls (deleteNote oneNote "n1").trace =
      listenerCalls oneNote.trace ++
        oneNote.listeners.map (fun l => Event.listenerCall l.id "note" "n1" false) :=
  ⟨by decide, rfl, rfl, (deleteNote_effect oneNote "n1" (by decide) rfl).1 rfl⟩

/-- C8, the code at the failing input: on a fresh manager, after
`markAsViewed("constructor")` and `markAsUnread("constructor")` no record is
stored under that key, yet `isViewed("constructor")` is true, because `in` finds
`Object.prototype.constructor`. -/
theorem markAsUnread_constructor_still_viewed :
    getOwnProperty
        (markAsUnread (markAsViewed (freshState []) "constructor" (JSVal.obj []) 1)
          "constructor").viewedItems.props "constructor" = none ∧
    isViewed
        (markAsUnread (markAsViewed (freshState []) "constructor" (JSVal.obj []) 1)
          "constructor") "constructor" = true :=
  ⟨rfl, rfl⟩

/-- Mark and unmark away from the prototype chain: for every state, context and
item id `x`, `isViewed(x)` is true after `markAsViewed(x, ctx)`; and when the
viewed dictionary does not inherit a property named `x`, `isViewed(x)` is false
after a subsequent `markAsUnread(x)`. -/
theorem markAsViewed_markAsUnread_isViewed (s : State) (x : String) (ctx : JSVal) (now : Int)
    (h : s.viewedItems.inherits x = false) :
    isViewed (markAsViewed s x ctx now) x = true ∧
    isViewed (markAsUnread (markAsViewed s x ctx now) x) x = false := by
  constructor
  · simp [isViewed, markAsViewed, JSObject.has_set_self]
  · simp only [isViewed, markAsUnread, markAsViewed, notifyListeners_viewedItems,
      saveToStorage_viewedItems, JSObject.has_delete_self]
    simp only [JSObject.inherits, JSObject.proto_set s.viewedItems x _ h]
    exact h

/-- The preceding theorem at a document URL on a fresh manager. -/
theorem markAsViewed_markAsUnread_isViewed_witness :
    (freshState []).viewedItems.inherits "https://example.org/doc.pdf" = false ∧
    isViewed
        (markAsViewed (freshState []) "https://example.org/doc.pdf"
          (JSVal.obj [("title", JSVal.str "Doc")]) 1) "https://example.org/doc.pdf" = true ∧
    isViewed
        (markAsUnread
          (markAsViewed (freshState []) "https://example.org/doc.pdf"
            (JSVal.obj [("title", JSVal.str "Doc")]) 1) "https://example.org/doc.pdf")
        "https://example.org/doc.pdf" = false :=
  ⟨rfl, markAsViewed_markAsUnread_isViewed (freshState []) "https://example.org/doc.pdf"
    (JSVal.obj [("title", JSVal.str "Doc")]) 1 rfl⟩


theorem spreadProps_obj (ps : Props) : spreadProps (JSVal.obj ps) = ps := rfl

/-- Fields of the literal `{ ...existing, ...data, stamp: now }`. -/
theorem getOwnProperty_merged (ex data : Props) (stamp : String) (now : Int) (f : String) :
    getOwnProperty
        (defineOwnProperty (spreadInto (spreadInto [] ex) data) stamp (JSVal.num now)) f =
      if f = stamp then some (JSVal.num now)
      else (getOwnProperty data f).or (getOwnProperty ex f) := by
  rw [getOwnProperty_defineOwnProperty, getOwnProperty_spreadInto, getOwnProperty_spreadInto]
  simp [getOwnProperty, Option.or_none]

/-- The value `o[k] || {}` spreads the same properties as `o[k] || null`. -/
theorem spreadProps_or (v : JSVal) :
    spreadProps (v.or (JSVal.obj [])) = spreadProps (v.or JSVal.null) := by
  unfold JSVal.or
  split <;> rfl

/-- When the assignment to `k` will reach the `__proto__` setter, the record
read before it (`o[k] || {}`) has no own property `k`. -/
theorem existing_lacks_key (o : JSObject) (k : String) (h : o.reachesProtoSetter k = true) :
    getOwnProperty (spreadProps ((o.get k).or (JSVal.obj []))) k = none := by
  have hk := JSObject.reachesProtoSetter_key o k h
  subst hk
  simp only [JSObject.reachesProtoSetter, Bool.and_eq_true, decide_eq_true_eq,
    Bool.not_eq_true'] at h
  obtain ⟨⟨_, h1⟩, h2⟩ := h
  have h0 : getOwnProperty o.props "__proto__" = none := (hasOwnProperty_eq_false_iff _ _).1 h1
  cases hp : o.proto with
  | none =>
    simp [JSObject.get, h0, hp, fromObjectPrototype, JSVal.or, JSVal.truthy, spreadProps,
      getOwnProperty]
  | some r =>
    have hr : getOwnProperty r "__proto__" = none := by
      apply (hasOwnProperty_eq_false_iff _ _).1
      simpa [hp] using h2
    simp [JSObject.get, h0, hp, hr, fromObjectPrototype, JSVal.or, JSVal.truthy, spreadProps]

/-- The record built by `{ ...existing, ...data, stamp: now }` can be read back
under `k` after `o[k] = record`, provided `k` is not `__proto__` or `data` has no
own `__proto__`. -/
theorem get_set_merged (o : JSObject) (k stamp : String) (data : Props) (now : Int)
    (hs : stamp ≠ "__proto__")
    (hp : k ≠ "__proto__" ∨ hasOwnProperty data "__proto__" = false) :
    (o.set k
        (defineOwnProperty
          (spreadInto (spreadInto [] (spreadProps ((o.get k).or (JSVal.obj [])))) data)
          stamp (JSVal.num now))).get k =
      JSVal.obj
        (defineOwnProperty
          (spreadInto (spreadInto [] (spreadProps ((o.get k).or (JSVal.obj [])))) data)
          stamp (JSVal.num now)) := by
  apply JSObject.get_set_self
  intro hreach
  have hk := JSObject.reachesProtoSetter_key o k hreach
  have hd : getOwnProperty data k = none := by
    rcases hp with hp | hp
    · exact absurd hk hp
    · rw [hk]
      exact (hasOwnProperty_eq_false_iff _ _).1 hp
  have hne : ¬ k = stamp := by
    intro e
    exact hs (e ▸ hk)
  apply (hasOwnProperty_eq_false_iff _ _).2
  rw [getOwnProperty_merged, if_neg hne, hd, existing_lacks_key o k hreach]
  rfl

/-- C6, the code at the failing input: `saveNote("__proto__", data)` with a
`data` object that has an own property `__proto__` (as `JSON.parse` produces)
installs the record as prototype of the notes dictionary and creates no
property; `getNote("__proto__")` then reads that own property, `5`, and not a
record with the text `a`. -/
theorem saveNote_proto_key_not_read_back :
    getNote
        (saveNote (freshState []) "__proto__"
          (JSVal.obj [("__proto__", JSVal.num 5), ("text", JSVal.str "a")]) 7)
        "__proto__" = JSVal.num 5 ∧
    (saveNote (freshState []) "__proto__"
      (JSVal.obj [("__proto__", JSVal.num 5), ("text", JSVal.str "a")]) 7).notes.props = [] :=
  ⟨rfl, rfl⟩

/-- The merge of `saveNote` away from the `__proto__` setter: for every non-empty
item id and every data object (except the id `__proto__` together with a data
object that has an own property `__proto__`), the record `getNote(id)` returns
after `saveNote(id, data)` has every field of `data` other than `timestamp`,
every field of the previous `getNote(id)` that `data` does not mention, and
`timestamp` equal to the current time. -/
theorem saveNote_merges (s : State) (itemId : String) (data : Props) (now : Int)
    (hne : itemId ≠ "")
    (hp : itemId ≠ "__proto__" ∨ hasOwnProperty data "__proto__" = false) :
    ∃ record, getNote (saveNote s itemId (JSVal.obj data) now) itemId = JSVal.obj record ∧
      (∀ f, f ≠ "timestamp" → hasOwnProperty data f = true →
        getOwnProperty record f = getOwnProperty data f) ∧
      (∀ f, f ≠ "timestamp" → hasOwnProperty data f = false →
        getOwnProperty record f = getOwnProperty (spreadProps (getNote s itemId)) f) ∧
      getOwnProperty record "timestamp" = some (JSVal.num now) := by
  refine ⟨defineOwnProperty
      (spreadInto (spreadInto [] (spreadProps ((s.notes.get itemId).or (JSVal.obj [])))) data)
      "timestamp" (JSVal.num now), ?_, ?_, ?_, ?_⟩
  · simp only [getNote, saveNote, hne, if_false, notifyListeners_notes, saveToStorage_notes,
      spreadProps_obj]
    rw [get_set_merged s.notes itemId "timestamp" data now (by decide) hp]
    rfl
  · intro f hf hd
    obtain ⟨v, hv⟩ := (hasOwnProperty_eq_true_iff _ _).1 hd
    rw [getOwnProperty_merged, if_neg hf, hv]
    rfl
  · intro f hf hd
    rw [getOwnProperty_merged, if_neg hf, (hasOwnProperty_eq_false_iff _ _).1 hd, getNote,
      spreadProps_or]
    rfl
  · rw [getOwnProperty_merged, if_pos rfl]

/-- The scenario `saveNote(id, {text: "a"})` followed by `saveNote(id, {label: "L"})`:
the record has text `a` and label `L`. -/
theorem saveNote_merges_witness :
    ("n1" : String) ≠ "" ∧
    (("n1" : String) ≠ "__proto__" ∨
      hasOwnProperty [("label", JSVal.str "L")] "__proto__" = false) ∧
    (∃ record,
      getNote
          (saveNote (saveNote (freshState []) "n1" (JSVal.obj [("text", JSVal.str "a")]) 5)
            "n1" (JSVal.obj [("label", JSVal.str "L")]) 7) "n1" = JSVal.obj record ∧
      (∀ f, f ≠ "timestamp" → hasOwnProperty [("label", JSVal.str "L")] f = true →
        getOwnProperty record f = getOwnProperty [("label", JSVal.str "L")] f) ∧
      (∀ f, f ≠ "timestamp" → hasOwnProperty [("label", JSVal.str "L")] f = false →
        getOwnProperty record f =
          getOwnProperty
            (spreadProps
              (getNote
                (saveNote (freshState []) "n1" (JSVal.obj [("text", JSVal.str "a")]) 5) "n1"))
            f) ∧
      getOwnProperty record "timestamp" = some (JSVal.num 7)) ∧
    getNote
        (saveNote (saveNote (freshState []) "n1" (JSVal.obj [("text", JSVal.str "a")]) 5)
          "n1" (JSVal.obj [("label", JSVal.str "L")]) 7) "n1" =
      JSVal.obj [("text", JSVal.str "a"), ("timestamp", JSVal.num 7),
                 ("label", JSVal.str "L")] :=
  ⟨by decide, Or.inl (by decide),
   saveNote_merges (saveNote (freshState []) "n1" (JSVal.obj [("text", JSVal.str "a")]) 5)
     "n1" [("label", JSVal.str "L")] 7 (by decide) (Or.inl (by decide)),
   rfl⟩


/-- C9, the code at the failing input: `setQuizStatus("__proto__", partial)` with
a `partial` object that has an own property `__proto__` installs the record as
prototype of the quiz dictionary and creates no property;
`getQuizStatus("__proto__")` then reads that own property, `5`, and not a record
with `uiState` `correct`. -/
theorem setQuizStatus_proto_key_not_read_back :
    getQuizStatus
        (setQuizStatus (freshState []) "__proto__"
          (JSVal.obj [("__proto__", JSVal.num 5), ("uiState", JSVal.str "correct")]) 7)
        "__proto__" = JSVal.num 5 ∧
    (setQuizStatus (freshState []) "__proto__"
      (JSVal.obj [("__proto__", JSVal.num 5), ("uiState", JSVal.str "correct")]) 7
      ).quizStatus.props = [] :=
  ⟨rfl, rfl⟩

/-- The merge of `setQuizStatus` away from the `__proto__` setter: for every
non-empty item id and every partial object (except the id `__proto__` together
with a partial object that has an own property `__proto__`), the record
`getQuizStatus(id)` returns after `setQuizStatus(id, partial)` has every field of
`partial` other than `updatedAt`, every field of the previous
`getQuizStatus(id)` that `partial` does not mention, and `updatedAt` equal to the
current time. -/
theorem setQuizStatus_merges (s : State) (itemId : String) (status : Props) (now : Int)
    (hne : itemId ≠ "")
    (hp : itemId ≠ "__proto__" ∨ hasOwnProperty status "__proto__" = false) :
    ∃ record,
      getQuizStatus (setQuizStatus s itemId (JSVal.obj status) now) itemId = JSVal.obj record ∧
      (∀ f, f ≠ "updatedAt" → hasOwnProperty status f = true →
        getOwnProperty record f = getOwnProperty status f) ∧
      (∀ f, f ≠ "updatedAt" → hasOwnProperty status f = false →
        getOwnProperty record f = getOwnProperty (spreadProps (getQuizStatus s itemId)) f) ∧
      getOwnProperty record "updatedAt" = some (JSVal.num now) := by
  refine ⟨defineOwnProperty
      (spreadInto (spreadInto [] (spreadProps ((s.quizStatus.get itemId).or (JSVal.obj []))))
        status)
      "updatedAt" (JSVal.num now), ?_, ?_, ?_, ?_⟩
  · simp only [getQuizStatus, setQuizStatus, hne, if_false, saveToStorage_quizStatus,
      spreadProps_obj]
    rw [get_set_merged s.quizStatus itemId "updatedAt" status now (by decide) hp]
    rfl
  · intro f hf hd
    obtain ⟨v, hv⟩ := (hasOwnProperty_eq_true_iff _ _).1 hd
    rw [getOwnProperty_merged, if_neg hf, hv]
    rfl
  · intro f hf hd
    rw [getOwnProperty_merged, if_neg hf, (hasOwnProperty_eq_false_iff _ _).1 hd,
      getQuizStatus, spreadProps_or]
    rfl
  · rw [getOwnProperty_merged, if_pos rfl]

/-- The scenario of setting `{uiState: "incorrect", selectedIndex: 2}` and then
`{uiState: "correct"}`: `selectedIndex` stays 2 and `uiState` is `correct`. -/
theorem setQuizStatus_merges_witness :
    ("quiz-q1" : String) ≠ "" ∧
    (("quiz-q1" : String) ≠ "__proto__" ∨
      hasOwnProperty [("uiState", JSVal.str "correct")] "__proto__" = false) ∧
    (∃ record,
      getQuizStatus
          (setQuizStatus
            (setQuizStatus (freshState []) "quiz-q1"
              (JSVal.obj [("uiState", JSVal.str "incorrect"), ("selectedIndex", JSVal.num 2)]) 5)
            "quiz-q1" (JSVal.obj [("uiState", JSVal.str "correct")]) 7) "quiz-q1" =
        JSVal.obj record ∧
      (∀ f, f ≠ "updatedAt" → hasOwnProperty [("uiState", JSVal.str "correct")] f = true →
        getOwnProperty record f = getOwnProperty [("uiState", JSVal.str "correct")] f) ∧
      (∀ f, f ≠ "updatedAt" → hasOwnProperty [("uiState", JSVal.str "correct")] f = false →
        getOwnProperty record f =
          getOwnProperty
            (spreadProps
              (getQuizStatus
                (setQuizStatus (freshState []) "quiz-q1"
                  (JSVal.obj [("uiState", JSVal.str "incorrect"),
                              ("selectedIndex", JSVal.num 2)]) 5) "quiz-q1"))
            f) ∧
      getOwnProperty record "updatedAt" = some (JSVal.num 7)) ∧
    getQuizStatus
        (setQuizStatus
          (setQuizStatus (freshState []) "quiz-q1"
            (JSVal.obj [("uiState", JSVal.str "incorrect"), ("selectedIndex", JSVal.num 2)]) 5)
          "quiz-q1" (JSVal.obj [("uiState", JSVal.str "correct")]) 7) "quiz-q1" =
      JSVal.obj [("uiState", JSVal.str "correct"), ("selectedIndex", JSVal.num 2),
                 ("updatedAt", JSVal.num 7)] :=
  ⟨by decide, Or.inl (by decide),
   setQuizStatus_merges
     (setQuizStatus (freshState []) "quiz-q1"
       (JSVal.obj [("uiState", JSVal.str "incorrect"), ("selectedIndex", JSVal.num 2)]) 5)
     "quiz-q1" [("uiState", JSVal.str "correct")] 7 (by decide) (Or.inl (by decide)),
   rfl⟩


/-- On entries with numeric timestamps the sort order is `newestFirst`. -/
theorem compareFn_le_iff (a b : Props) (x y : Int)
    (ha : timestampOf a = JSVal.num x) (hb : timestampOf b = JSVal.num y) :
    compareFn a b ≤ 0 ↔ y ≤ x := by
  simp only [compareFn, ha, hb, toNumber]
  omega

/-- Inserting into a most-recent-first list keeps it most-recent-first. -/
theorem pairwise_orderedInsert (a : Props) (x : Int) (ha : timestampOf a = JSVal.num x) :
    ∀ l : List Props, (∀ e ∈ l, ∃ n, timestampOf e = JSVal.num n) →
      l.Pairwise newestFirst →
      (List.orderedInsert (fun a b => compareFn a b ≤ 0) a l).Pairwise newestFirst
  | [], _, _ => by simp [List.orderedInsert]
  | b :: l, hnum, hsorted => by
    obtain ⟨y, hb⟩ := hnum b (List.mem_cons_self _ _)
    have hl : ∀ e ∈ l, ∃ n, timestampOf e = JSVal.num n :=
      fun e he => hnum e (List.mem_cons_of_mem _ he)
    rw [List.pairwise_cons] at hsorted
    by_cases h : compareFn a b ≤ 0
    · have hyx : y ≤ x := (compareFn_le_iff a b x y ha hb).1 h
      rw [List.orderedInsert, if_pos h, List.pairwise_cons]
      refine ⟨?_, List.pairwise_cons.2 hsorted⟩
      intro c hc
      rcases List.mem_cons.1 hc with hcb | hcl
      · subst hcb
        exact ⟨x, y, ha, hb, hyx⟩
      · obtain ⟨y', z, hy', hz, hzy⟩ := hsorted.1 c hcl
        have : y' = y := by
          rw [hb] at hy'
          exact (JSVal.num.inj hy').symm
        subst this
        exact ⟨x, z, ha, hz, le_trans hzy hyx⟩
    · have hxy : x ≤ y := by
        have := (compareFn_le_iff a b x y ha hb).not.1 h
        omega
      rw [List.orderedInsert, if_neg h, List.pairwise_cons]
      refine ⟨?_, pairwise_orderedInsert a x ha l hl hsorted.2⟩
      intro c hc
      rcases (List.mem_orderedInsert _).1 hc with hca | hcl
      · subst hca
        exact ⟨y, x, hb, ha, hxy⟩
      · exact hsorted.1 c hcl

/-- Sorting entries that all carry numeric timestamps yields a most-recent-first list. -/
theorem pairwise_sort : ∀ l : List Props, (∀ e ∈ l, ∃ n, timestampOf e = JSVal.num n) →
    (sort l).Pairwise newestFirst
  | [], _ => by simp [sort]
  | a :: l, hnum => by
    obtain ⟨x, ha⟩ := hnum a (List.mem_cons_self _ _)
    have hl : ∀ e ∈ l, ∃ n, timestampOf e = JSVal.num n :=
      fun e he => hnum e (List.mem_cons_of_mem _ he)
    have ih := pairwise_sort l hl
    unfold sort at ih ⊢
    rw [List.insertionSort]
    apply pairwise_orderedInsert a x ha _ _ ih
    intro e he
    exact hl e ((List.mem_insertionSort _).1 he)

/-- The entries built from records with numeric timestamps carry those timestamps. -/
theorem labelledEntries_numeric (name : String) (hname : name ≠ "timestamp") (o : JSObject)
    (h : numericTimestamps o) :
    ∀ e ∈ labelledEntries name o, ∃ n, timestampOf e = JSVal.num n := by
  intro e he
  simp only [labelledEntries, List.mem_map] at he
  obtain ⟨p, hp, rfl⟩ := he
  obtain ⟨r, n, hr, hts⟩ := h p hp
  refine ⟨n, ?_⟩
  have hne : ¬ "timestamp" = name := fun e => hname e.symm
  simp [timestampOf, hr, spreadProps_obj, getOwnProperty_spreadInto, hts]

/-- What C10 states of one listing, for the dictionary it is built from. -/
theorem listing_sorted (name : String) (hname : name ≠ "timestamp") (o : JSObject)
    (h : numericTimestamps o) :
    (sort (labelledEntries name o)).length = (ownKeys o.props).length ∧
    (sort (labelledEntries name o)).Perm (labelledEntries name o) ∧
    (sort (labelledEntries name o)).Pairwise newestFirst := by
  refine ⟨?_, ?_, pairwise_sort _ (labelledEntries_numeric name hname o h)⟩
  · simp [sort, List.length_insertionSort, labelledEntries, ownKeys]
  · exact List.perm_insertionSort _ _

/-- C10: in a state where every viewed, saved and note record has a numeric
timestamp, `getViewedItems()`, `getSavedItems()` and `getAllNotes()` each return
one entry per key of their dictionary (a rearrangement of the labelled entries,
of length the number of keys), ordered by non-increasing timestamp. -/
theorem listings_newest_first (s : State) (hv : numericTimestamps s.viewedItems)
    (hs : numericTimestamps s.savedItems) (hn : numericTimestamps s.notes) :
    ((getViewedItems s).length = (ownKeys s.viewedItems.props).length ∧
      (getViewedItems s).Perm (labelledEntries "url" s.viewedItems) ∧
      (getViewedItems s).Pairwise newestFirst) ∧
    ((getSavedItems s).length = (ownKeys s.savedItems.props).length ∧
      (getSavedItems s).Perm (labelledEntries "itemId" s.savedItems) ∧
      (getSavedItems s).Pairwise newestFirst) ∧
    ((getAllNotes s).length = (ownKeys s.notes.props).length ∧
      (getAllNotes s).Perm (labelledEntries "id" s.notes) ∧
      (getAllNotes s).Pairwise newestFirst) :=
  ⟨listing_sorted "url" (by decide) s.viewedItems hv,
   listing_sorted "itemId" (by decide) s.savedItems hs,
   listing_sorted "id" (by decide) s.notes hn⟩

theorem numericTimestamps_empty : numericTimestamps JSObject.empty := by
  intro p hp
  simp [JSObject.empty] at hp

theorem numericTimestamps_threeViewed : numericTimestamps threeViewed.viewedItems := by
  have hprops : threeViewed.viewedItems.props =
      [("https://example.org/a", JSVal.obj [("timestamp", JSVal.num 10)]),
       ("https://example.org/b", JSVal.obj [("timestamp", JSVal.num 20)]),
       ("https://example.org/c", JSVal.obj [("timestamp", JSVal.num 30)])] := rfl
  intro p hp
  rw [hprops] at hp
  simp only [List.mem_cons, List.mem_singleton, List.not_mem_nil, or_false] at hp
  rcases hp with rfl | rfl | rfl
  · exact ⟨_, 10, rfl, rfl⟩
  · exact ⟨_, 20, rfl, rfl⟩
  · exact ⟨_, 30, rfl, rfl⟩

/-- Witness for C10: after marking three distinct URLs as viewed on an empty
state, `getViewedItems()` has length 3, most recent first. -/
theorem listings_newest_first_witness :
    numericTimestamps threeViewed.viewedItems ∧
    numericTimestamps threeViewed.savedItems ∧
    numericTimestamps threeViewed.notes ∧
    (getViewedItems threeViewed).Pairwise newestFirst ∧
    (getViewedItems threeViewed).length = 3 ∧
    getViewedItems threeViewed =
      [[("url", JSVal.str "https://example.org/c"), ("timestamp", JSVal.num 30)],
       [("url", JSVal.str "https://example.org/b"), ("timestamp", JSVal.num 20)],
       [("url", JSVal.str "https://example.org/a"), ("timestamp", JSVal.num 10)]] :=
  ⟨numericTimestamps_threeViewed, numericTimestamps_empty, numericTimestamps_empty,
   (listings_newest_first threeViewed numericTimestamps_threeViewed numericTimestamps_empty
     numericTimestamps_empty).1.2.2,
   rfl, rfl⟩

end StateManager

namespace StateManager

open JS

/-- Fields of the literal `{ timestamp: now, ...context }`: a `timestamp` of the
context replaces the stamp. -/
theorem getOwnProperty_stamped (ctx : Props) (now : Int) (f : String) :
    getOwnProperty (spreadInto (defineOwnProperty [] "timestamp" (JSVal.num now)) ctx) f =
      (getOwnProperty ctx f).or (if f = "timestamp" then some (JSVal.num now) else none) := by
  rw [getOwnProperty_spreadInto, getOwnProperty_defineOwnProperty]
  simp [getOwnProperty]

/-- The own property an assignment creates or overwrites, away from the
`__proto__` setter. -/
theorem JSObject.getOwnProperty_set_self (o : JSObject) (k : String) (r : Props)
    (h : o.reachesProtoSetter k = false) :
    getOwnProperty (o.set k r).props k = some (JSVal.obj r) := by
  cases h1 : hasOwnProperty o.props k with
  | true =>
    rw [JSObject.set_of_own o k r h1]
    have h3 : (getOwnProperty o.props k).isSome = true := h1
    simp [getOwnProperty_updateOwn, hasOwnProperty, h3]
  | false =>
    have h0 : getOwnProperty o.props k = none := (hasOwnProperty_eq_false_iff _ _).1 h1
    rw [JSObject.set_of_new o k r h1 h]
    simp [getOwnProperty_insertNew o.props k k (JSVal.obj r) h0]

/-- An assignment leaves the own properties under other keys as they are. -/
theorem JSObject.getOwnProperty_set_other (o : JSObject) (k k' : String) (r : Props)
    (hk : k' ≠ k) :
    getOwnProperty (o.set k r).props k' = getOwnProperty o.props k' := by
  cases h1 : hasOwnProperty o.props k with
  | true =>
    rw [JSObject.set_of_own o k r h1]
    simp [getOwnProperty_updateOwn, hk]
  | false =>
    have h0 : getOwnProperty o.props k = none := (hasOwnProperty_eq_false_iff _ _).1 h1
    cases h2 : o.reachesProtoSetter k with
    | true => rw [JSObject.set_of_setter o k r h1 h2]
    | false =>
      rw [JSObject.set_of_new o k r h1 h2]
      simp [getOwnProperty_insertNew o.props k k' (JSVal.obj r) h0, hk]

/-- C11, the code at the failing input: with a context that has a `timestamp`
field, the record `markAsViewed` (and `saveItem`) stores at time 5 carries the
timestamp of the context, 1, not the current time. -/
theorem markAsViewed_context_timestamp_wins :
    getOwnProperty
        (markAsViewed (freshState []) "https://example.org/doc.pdf"
          (JSVal.obj [("timestamp", JSVal.num 1), ("title", JSVal.str "Doc")]) 5
          ).viewedItems.props "https://example.org/doc.pdf" =
      some (JSVal.obj [("timestamp", JSVal.num 1), ("title", JSVal.str "Doc")]) ∧
    getOwnProperty
        (saveItem (freshState []) "glossary-irb"
          (JSVal.obj [("timestamp", JSVal.num 1), ("title", JSVal.str "IRB")]) 5
          ).savedItems.props "glossary-irb" =
      some (JSVal.obj [("timestamp", JSVal.num 1), ("title", JSVal.str "IRB")]) :=
  ⟨rfl, rfl⟩

/-- The record of `markAsViewed` away from the two special cases: when the
assignment does not reach the `__proto__` setter, the viewed dictionary holds
under `url` a record with every field of the context, and with the current time
as `timestamp` if the context has no `timestamp` of its own. -/
theorem markAsViewed_record (s : State) (url : String) (ctx : Props) (now : Int)
    (h : s.viewedItems.reachesProtoSetter url = false) :
    ∃ record,
      getOwnProperty (markAsViewed s url (JSVal.obj ctx) now).viewedItems.props url =
        some (JSVal.obj record) ∧
      (∀ f, hasOwnProperty ctx f = true → getOwnProperty record f = getOwnProperty ctx f) ∧
      (hasOwnProperty ctx "timestamp" = false →
        getOwnProperty record "timestamp" = some (JSVal.num now)) := by
  refine ⟨spreadInto (defineOwnProperty [] "timestamp" (JSVal.num now)) ctx, ?_, ?_, ?_⟩
  · simp only [markAsViewed, notifyListeners_viewedItems, saveToStorage_viewedItems,
      spreadProps_obj]
    exact JSObject.getOwnProperty_set_self s.viewedItems url _ h
  · intro f hf
    obtain ⟨v, hv⟩ := (hasOwnProperty_eq_true_iff _ _).1 hf
    rw [getOwnProperty_stamped, hv]
    rfl
  · intro hf
    rw [getOwnProperty_stamped, (hasOwnProperty_eq_false_iff _ _).1 hf]
    rfl

/-- C13: listener isolation. `addListener` appends to the list of listeners, and
for every such list and every notification `notifyListeners` calls each
registered listener once, in registration order, with the same
`(type, url, status)`, whichever of them throw; the method returns normally. -/
theorem notifyListeners_calls_each_once (s : State) (type url : String) (status : Bool)
    (callback : Listener) :
    (addListener s callback).listeners = s.listeners ++ [callback] ∧
    listenerCalls (notifyListeners s type url status).trace =
      listenerCalls s.trace ++
        s.listeners.map (fun l => Event.listenerCall l.id type url status) ∧
    (notifyListeners s type url status).listeners = s.listeners := by
  refine ⟨rfl, ?_, rfl⟩
  simp only [notifyListeners, listenerCalls_append, listenerCalls_callListener]

end StateManager

namespace StateManager

open JS

/-- The value `init()` assigns for a category is `loadFromStorage(key) || {}`. -/
theorem init_map_eq (keys : StorageKeys) (avail : Bool) (items : LocalStorage) (c : Category) :
    (init keys avail items).map c =
      (loadFromStorage avail items (keys.key c)).1.or (JSVal.obj []) := by
  cases c <;> rfl

/-- C16: initial load. For each of the four maps, `init()` yields the empty map
when storage is unavailable, when nothing (or the empty string) is stored under
the key of the map, or when the stored text does not parse, and yields the
stored map when the text parses to a plain object. -/
theorem init_loads (keys : StorageKeys) (avail : Bool) (items : LocalStorage) (c : Category) :
    (avail = false → (init keys avail items).map c = JSVal.obj []) ∧
    (LocalStorage.getItem items (keys.key c) = none →
      (init keys avail items).map c = JSVal.obj []) ∧
    (LocalStorage.getItem items (keys.key c) = some StoredText.empty →
      (init keys avail items).map c = JSVal.obj []) ∧
    (LocalStorage.getItem items (keys.key c) = some StoredText.malformed →
      (init keys avail items).map c = JSVal.obj []) ∧
    (∀ ps, avail = true →
      LocalStorage.getItem items (keys.key c) = some (StoredText.json (JSVal.obj ps)) →
      (init keys avail items).map c = JSVal.obj ps) := by
  rw [init_map_eq]
  refine ⟨?_, ?_, ?_, ?_, ?_⟩
  · intro h
    subst h
    rfl
  · intro h
    cases avail <;> simp [loadFromStorage, h, JSVal.or, JSVal.truthy]
  · intro h
    cases avail <;> simp [loadFromStorage, h, JSVal.or, JSVal.truthy]
  · intro h
    cases avail <;> simp [loadFromStorage, h, JSVal.or, JSVal.truthy]
  · intro ps ha h
    subst ha
    simp [loadFromStorage, h, JSVal.or, JSVal.truthy]

/-- C17, the code at the failing input: with the text `5` stored under the
viewed key, `init()` leaves the number 5 in `viewedItems` (no manager with four
dictionaries exists), and on that value `isViewed` and `markAsViewed` throw a
TypeError. -/
theorem init_keeps_stored_number :
    (init defaultStorageKeys true
      [("app_viewed_items", StoredText.json (JSVal.num 5))]).viewedItems = JSVal.num 5 ∧
    isViewedThrows
      (init defaultStorageKeys true
        [("app_viewed_items", StoredText.json (JSVal.num 5))]).viewedItems = true ∧
    markAsViewedThrows
      (init defaultStorageKeys true
        [("app_viewed_items", StoredText.json (JSVal.num 5))]).viewedItems = true ∧
    (construct defaultStorageKeys
      { working := true, quotaExceeded := false,
        items := [("app_viewed_items", StoredText.json (JSVal.num 5))] }).isSome = false :=
  ⟨rfl, rfl, rfl, rfl⟩

/-- C18, counterexample: the document `{"data": null}` has a `data` field, yet
`importData` reads it as a document without data and returns `success = false`,
with either value of `merge`. -/
theorem importData_null_data_fails :
    hasOwnProperty [("data", JSVal.null)] "data" = true ∧
    readDocument (JSVal.obj [("data", JSVal.null)]) = some (some BackupDocument.empty) ∧
    (importData viewedA (some BackupDocument.empty) false).2.success = false ∧
    (importData viewedA (some BackupDocument.empty) true).2.success = false :=
  ⟨rfl, rfl, rfl, rfl⟩

/-- C18, amended: for every backup document whose `data` is truthy, with either
value of `merge` and whatever the local maps hold, `importData` returns
`success = true` and the imported counts: for each category the number of keys
of the dictionary the document carries, and 0 when it carries none. -/
theorem importData_counts (s : State) (doc : BackupDocument) (d : BackupData) (merge : Bool)
    (h : doc.data = some d) :
    (importData s (some doc) merge).2.success = true ∧
    (importData s (some doc) merge).2.error = none ∧
    (importData s (some doc) merge).2.imported =
      some { viewed := (match d.viewed with
               | some D => (ownKeys D.props).length
               | none => 0)
             saved := (match d.saved with
               | some D => (ownKeys D.props).length
               | none => 0)
             notes := (match d.notes with
               | some D => (ownKeys D.props).length
               | none => 0)
             quiz := (match d.quiz with
               | some D => (ownKeys D.props).length
               | none => 0)
             errors := [] } := by
  refine ⟨?_, ?_, ?_⟩ <;> simp [importData, Option.bind, h, importedCount]

/-- Witness for C18 amended: a document carrying `{a: 2, b: 3}` for the viewed
category, merged into a state that already holds `a`: the counts are 2, 0, 0, 0. -/
theorem importData_counts_witness :
    (BackupDocument.ofData mergeData).data = some mergeData ∧
    (importData viewedA (some (BackupDocument.ofData mergeData)) true).2.success = true ∧
    (importData viewedA (some (BackupDocument.ofData mergeData)) true).2.imported =
      some { viewed := 2, saved := 0, notes := 0, quiz := 0, errors := [] } :=
  ⟨rfl,
   (importData_counts viewedA (BackupDocument.ofData mergeData) mergeData true rfl).1,
   (importData_counts viewedA (BackupDocument.ofData mergeData) mergeData true rfl).2.2⟩

/-- C20: `clearAllData` is gated by the confirmation. Confirmed, it returns
`true`, leaves all four maps empty, performs (when storage is available) one
`setItem` of the empty map per key, in the order viewed, saved, notes, quiz, and
then calls every listener with `("clear", "all", false)`; refused, it returns
`false` and leaves the state, trace included, as it was. -/
theorem clearAllData_gated (s : State) :
    ((clearAllData s true).2 = true ∧
      (clearAllData s true).1.viewedItems = JSObject.empty ∧
      (clearAllData s true).1.savedItems = JSObject.empty ∧
      (clearAllData s true).1.notes = JSObject.empty ∧
      (clearAllData s true).1.quizStatus = JSObject.empty ∧
      storageWrites (clearAllData s true).1.trace =
        storageWrites s.trace ++
          (if s.storageAvailable then
            [Event.setItem s.STORAGE_KEYS.VIEWED [] (!s.quotaExceeded),
             Event.setItem s.STORAGE_KEYS.SAVED [] (!s.quotaExceeded),
             Event.setItem s.STORAGE_KEYS.NOTES [] (!s.quotaExceeded),
             Event.setItem s.STORAGE_KEYS.QUIZ [] (!s.quotaExceeded)]
          else []) ∧
      listenerCalls (clearAllData s true).1.trace =
        listenerCalls s.trace ++
          s.listeners.map (fun l => Event.listenerCall l.id "clear" "all" false)) ∧
    clearAllData s false = (s, false) := by
  refine ⟨⟨rfl, ?_, ?_, ?_, ?_, ?_, ?_⟩, rfl⟩
  · simp [clearAllData]
  · simp [clearAllData]
  · simp [clearAllData]
  · simp [clearAllData]
  · simp only [clearAllData, if_true, notifyListeners, storageWrites_append,
      storageWrites_callListener, List.append_nil]
    cases h1 : s.storageAvailable <;> cases h2 : s.quotaExceeded <;>
      simp [saveToStorage, h1, h2, storageWrites, List.filter_append, JSObject.empty]
  · simp only [clearAllData, if_true, notifyListeners, listenerCalls_append,
      listenerCalls_callListener, saveToStorage_listeners]
    cases h1 : s.storageAvailable <;> cases h2 : s.quotaExceeded <;>
      simp [saveToStorage, h1, h2, listenerCalls, List.filter_append]

end StateManager

namespace StateManager

open JS

theorem deleteOwnProperty_cons_ne (p : String × JSVal) (rest : Props) (k : String)
    (h : ¬ p.1 = k) : deleteOwnProperty (p :: rest) k = p :: deleteOwnProperty rest k := by
  unfold deleteOwnProperty
  exact List.filter_cons_of_pos (by simpa using h)

theorem deleteOwnProperty_cons_eq (p : String × JSVal) (rest : Props) (k : String)
    (h : p.1 = k) : deleteOwnProperty (p :: rest) k = deleteOwnProperty rest k := by
  unfold deleteOwnProperty
  exact List.filter_cons_of_neg (by simpa using h)

/-- Deleting a key that is not an own property changes nothing. -/
theorem deleteOwnProperty_of_absent (ps : Props) (k : String)
    (h : getOwnProperty ps k = none) : deleteOwnProperty ps k = ps := by
  induction ps with
  | nil => rfl
  | cons p rest ih =>
    simp only [getOwnProperty, Option.or_eq_none] at h
    obtain ⟨hrest, hp⟩ := h
    have hne : ¬ p.1 = k := by
      intro e
      simp [e] at hp
    rw [deleteOwnProperty_cons_ne p rest k hne, ih hrest]

/-- Deleting an index key right after creating it gives back the former properties. -/
theorem deleteOwnProperty_insertIndex (ps : Props) (i : Nat) (k : String) (v : JSVal)
    (h : getOwnProperty ps k = none) :
    deleteOwnProperty (insertIndex ps i k v) k = ps := by
  induction ps with
  | nil =>
    rw [insertIndex, deleteOwnProperty_cons_eq (k, v) [] k rfl]
    rfl
  | cons p rest ih =>
    have hall := deleteOwnProperty_of_absent (p :: rest) k h
    simp only [getOwnProperty, Option.or_eq_none] at h
    obtain ⟨hrest, hp⟩ := h
    have hne : ¬ p.1 = k := by
      intro e
      simp [e] at hp
    have key : deleteOwnProperty ((k, v) :: p :: rest) k = p :: rest := by
      rw [deleteOwnProperty_cons_eq (k, v) (p :: rest) k rfl, hall]
    unfold insertIndex
    split
    · split
      · rw [deleteOwnProperty_cons_ne p _ k hne, ih hrest]
      · exact key
    · exact key

/-- Deleting a key right after creating it gives back the former properties. -/
theorem deleteOwnProperty_insertNew (ps : Props) (k : String) (v : JSVal)
    (h : getOwnProperty ps k = none) :
    deleteOwnProperty (insertNew ps k v) k = ps := by
  unfold insertNew
  split
  · exact deleteOwnProperty_insertIndex ps _ k v h
  · have h1 : deleteOwnProperty (ps ++ [(k, v)]) k =
        deleteOwnProperty ps k ++ deleteOwnProperty [(k, v)] k := by
      unfold deleteOwnProperty
      exact List.filter_append _ _
    rw [h1, deleteOwnProperty_of_absent ps k h, deleteOwnProperty_cons_eq (k, v) [] k rfl]
    simp [deleteOwnProperty]

/-- Membership `k in o` through the own properties and the prototype. -/
theorem JSObject.has_eq (o : JSObject) (k : String) :
    o.has k = ((getOwnProperty o.props k).isSome || o.inherits k) := rfl

/-- Whether a key is inherited depends on the prototype only. -/
theorem JSObject.inherits_congr (o o' : JSObject) (k : String) (h : o'.proto = o.proto) :
    o'.inherits k = o.inherits k := by
  simp [JSObject.inherits, h]

/-- C19, counterexample: toggling a viewed document twice, at times 5 and 7,
leaves under its URL the fresh record `{timestamp: 7}` and not the former
record `{timestamp: 1, title: "Doc"}`. -/
theorem toggleViewed_twice_replaces_record :
    getOwnProperty viewedDoc.viewedItems.props "https://example.org/doc.pdf" =
      some (JSVal.obj [("timestamp", JSVal.num 1), ("title", JSVal.str "Doc")]) ∧
    getOwnProperty
        (toggleViewed (toggleViewed viewedDoc "https://example.org/doc.pdf" (JSVal.obj []) 5)
          "https://example.org/doc.pdf" (JSVal.obj []) 7).viewedItems.props
        "https://example.org/doc.pdf" =
      some (JSVal.obj [("timestamp", JSVal.num 7)]) :=
  ⟨rfl, rfl⟩

/-- C19, amended: after two calls of `toggleViewed` on the same id, whatever the
contexts and times, exactly the ids viewed before are viewed, and the record
under every other key is unchanged; when the id was not viewed before the two
calls, the viewed dictionary is the one before the calls; when the id was viewed
before and is not a name the dictionary inherits through its prototype chain,
the record stored under it afterwards is the one the second call builds, the
literal `{ timestamp: now2, ...ctx2 }`. -/
theorem toggleViewed_twice (s : State) (x : String) (ctx1 ctx2 : JSVal) (now1 now2 : Int) :
    (∀ k, isViewed (toggleViewed (toggleViewed s x ctx1 now1) x ctx2 now2) k = isViewed s k) ∧
    (∀ k, k ≠ x →
      getOwnProperty (toggleViewed (toggleViewed s x ctx1 now1) x ctx2 now2).viewedItems.props k =
        getOwnProperty s.viewedItems.props k) ∧
    (isViewed s x = false →
      (toggleViewed (toggleViewed s x ctx1 now1) x ctx2 now2).viewedItems = s.viewedItems) ∧
    (isViewed s x = true → s.viewedItems.inherits x = false →
      getOwnProperty (toggleViewed (toggleViewed s x ctx1 now1) x ctx2 now2).viewedItems.props x =
        some (JSVal.obj
          (spreadInto (defineOwnProperty [] "timestamp" (JSVal.num now2)) (spreadProps ctx2)))) := by
  cases hv : isViewed s x with
  | false =>
    -- marked, then unmarked again
    have hhas : s.viewedItems.has x = false := hv
    rw [JSObject.has_eq, Bool.or_eq_false_iff] at hhas
    obtain ⟨hown, hinh⟩ := hhas
    have hown' : hasOwnProperty s.viewedItems.props x = false := hown
    have h0 : getOwnProperty s.viewedItems.props x = none :=
      (hasOwnProperty_eq_false_iff _ _).1 hown'
    have hreach := JSObject.reachesProtoSetter_of_not_inherits s.viewedItems x hinh
    have h1 : toggleViewed s x ctx1 now1 = markAsViewed s x ctx1 now1 := by
      simp [toggleViewed, hv]
    have hv1 : isViewed (markAsViewed s x ctx1 now1) x = true := by
      simp [isViewed, markAsViewed, JSObject.has_set_self]
    have h2 : toggleViewed (markAsViewed s x ctx1 now1) x ctx2 now2 =
        markAsUnread (markAsViewed s x ctx1 now1) x := by
      simp [toggleViewed, hv1]
    have hmap : (markAsUnread (markAsViewed s x ctx1 now1) x).viewedItems = s.viewedItems := by
      simp only [markAsUnread, markAsViewed, notifyListeners_viewedItems,
        saveToStorage_viewedItems]
      rw [JSObject.set_of_new s.viewedItems x _ hown' hreach]
      simp only [JSObject.delete, deleteOwnProperty_insertNew _ x _ h0]
    rw [h1, h2]
    refine ⟨?_, ?_, ?_, ?_⟩
    · intro k
      simp only [isViewed, hmap]
    · intro k _
      rw [hmap]
    · intro _
      exact hmap
    · intro hf
      exact absurd hf (by simp)
  | true =>
    have h1 : toggleViewed s x ctx1 now1 = markAsUnread s x := by
      simp [toggleViewed, hv]
    have hmap1 : (markAsUnread s x).viewedItems = s.viewedItems.delete x := by
      simp [markAsUnread]
    rw [h1]
    cases hinh : s.viewedItems.inherits x with
    | true =>
      -- the key stays `in` the dictionary: both calls unmark
      have hv1 : isViewed (markAsUnread s x) x = true := by
        simp [isViewed, hmap1, JSObject.has_delete_self, hinh]
      have h2 : toggleViewed (markAsUnread s x) x ctx2 now2 =
          markAsUnread (markAsUnread s x) x := by
        simp [toggleViewed, hv1]
      have hmap2 : (markAsUnread (markAsUnread s x) x).viewedItems =
          (s.viewedItems.delete x).delete x := by
        simp [markAsUnread]
      rw [h2]
      refine ⟨?_, ?_, ?_, ?_⟩
      · intro k
        simp only [isViewed, hmap2, JSObject.has_eq, JSObject.delete,
          getOwnProperty_deleteOwnProperty, JSObject.inherits]
        by_cases hk : k = x
        · subst hk
          have : s.viewedItems.inherits k = true := hinh
          simp only [JSObject.inherits] at this
          simp [this]
        · simp [hk]
      · intro k hk
        simp [hmap2, JSObject.delete, getOwnProperty_deleteOwnProperty, hk]
      · intro hf
        exact absurd hf (by simp)
      · intro _ hf
        exact absurd hf (by simp)
    | false =>
      -- unmarked, then marked again with a fresh record
      have hinh1 : (s.viewedItems.delete x).inherits x = false := by
        rw [JSObject.inherits_congr s.viewedItems (s.viewedItems.delete x) x rfl]
        exact hinh
      have hv1 : isViewed (markAsUnread s x) x = false := by
        simp [isViewed, hmap1, JSObject.has_delete_self, hinh]
      have h2 : toggleViewed (markAsUnread s x) x ctx2 now2 =
          markAsViewed (markAsUnread s x) x ctx2 now2 := by
        simp [toggleViewed, hv1]
      rw [h2]
      have hmap2 : ∃ r, (markAsViewed (markAsUnread s x) x ctx2 now2).viewedItems =
          (s.viewedItems.delete x).set x r ∧
          r = spreadInto (defineOwnProperty [] "timestamp" (JSVal.num now2)) (spreadProps ctx2) :=
        ⟨spreadInto (defineOwnProperty [] "timestamp" (JSVal.num now2)) (spreadProps ctx2),
          by simp [markAsViewed, hmap1], rfl⟩
      obtain ⟨r, hmap2, hr⟩ := hmap2
      have hproto : ((s.viewedItems.delete x).set x r).proto = s.viewedItems.proto :=
        JSObject.proto_set (s.viewedItems.delete x) x r hinh1
      refine ⟨?_, ?_, ?_, ?_⟩
      · intro k
        by_cases hk : k = x
        · subst hk
          simp only [isViewed, hmap2, JSObject.has_set_self]
          exact hv.symm
        · simp only [isViewed, hmap2, JSObject.has_eq,
            JSObject.getOwnProperty_set_other _ x k r hk,
            JSObject.inherits_congr s.viewedItems _ k hproto]
          simp [JSObject.delete, getOwnProperty_deleteOwnProperty, hk]
      · intro k hk
        rw [hmap2, JSObject.getOwnProperty_set_other _ x k r hk]
        simp [JSObject.delete, getOwnProperty_deleteOwnProperty, hk]
      · intro hf
        exact absurd hf (by simp)
      · intro _ _
        rw [hmap2, JSObject.getOwnProperty_set_self _ x r
          (JSObject.reachesProtoSetter_of_not_inherits _ x hinh1), hr]

/-- Witness for C19 amended: the viewed document of `viewedDoc`, toggled at
times 5 and 7 with the context `{title: "Doc 2"}` in the second call, is stored
afterwards with the record the second call builds, `{timestamp: 7, title: "Doc 2"}`. -/
theorem toggleViewed_twice_witness :
    isViewed viewedDoc "https://example.org/doc.pdf" = true ∧
    viewedDoc.viewedItems.inherits "https://example.org/doc.pdf" = false ∧
    getOwnProperty
        (toggleViewed (toggleViewed viewedDoc "https://example.org/doc.pdf" (JSVal.obj []) 5)
          "https://example.org/doc.pdf" (JSVal.obj [("title", JSVal.str "Doc 2")]) 7
          ).viewedItems.props "https://example.org/doc.pdf" =
      some (JSVal.obj
        (spreadInto (defineOwnProperty [] "timestamp" (JSVal.num 7))
          (spreadProps (JSVal.obj [("title", JSVal.str "Doc 2")])))) ∧
    spreadInto (defineOwnProperty [] "timestamp" (JSVal.num 7))
        (spreadProps (JSVal.obj [("title", JSVal.str "Doc 2")])) =
      [("timestamp", JSVal.num 7), ("title", JSVal.str "Doc 2")] :=
  ⟨rfl, rfl,
   (toggleViewed_twice viewedDoc "https://example.org/doc.pdf" (JSVal.obj [])
      (JSVal.obj [("title", JSVal.str "Doc 2")]) 5 7).2.2.2 rfl rfl,
   rfl⟩

end StateManager

namespace StateManager

open JS

theorem saveToStorage_trace_eq (s : State) (key : String) (data : JSObject) :
    (saveToStorage s key data).trace =
      s.trace ++ saveEvents s.storageAvailable s.quotaExceeded key data := by
  unfold saveToStorage saveEvents
  cases s.storageAvailable <;> cases s.quotaExceeded <;> simp

theorem listenerCalls_saveEvents (a q : Bool) (key : String) (data : JSObject) :
    listenerCalls (saveEvents a q key data) = [] := by
  unfold saveEvents
  cases a <;> cases q <;> rfl

theorem mem_saveEvents (a q : Bool) (key : String) (data : JSObject) (key' : String)
    (data' : Props) (ok : Bool) (h : Event.setItem key' data' ok ∈ saveEvents a q key data) :
    key' = key ∧ data' = data.props := by
  unfold saveEvents at h
  cases a <;> cases q <;> simp at h <;> exact ⟨h.1, h.2.1⟩

theorem sameMemory_saveToStorage (s1 s2 : State) (k1 k2 : String) (d1 d2 : JSObject)
    (h : sameMemory s1 s2) : sameMemory (saveToStorage s1 k1 d1) (saveToStorage s2 k2 d2) := by
  obtain ⟨hv, hs, hn, hq, hl, hc⟩ := h
  refine ⟨by simpa, by simpa, by simpa, by simpa, by simpa, ?_⟩
  rw [(saveToStorage_trace s1 k1 d1).2, (saveToStorage_trace s2 k2 d2).2, hc]

theorem sameMemory_notifyListeners (s1 s2 : State) (type url : String) (status : Bool)
    (h : sameMemory s1 s2) :
    sameMemory (notifyListeners s1 type url status) (notifyListeners s2 type url status) := by
  obtain ⟨hv, hs, hn, hq, hl, hc⟩ := h
  refine ⟨hv, hs, hn, hq, hl, ?_⟩
  simp only [notifyListeners, listenerCalls_append, listenerCalls_callListener, hc, hl]

end StateManager

namespace StateManager

open JS

theorem sameMemory_viewedItems (s1 s2 : State) (v : JSObject) (h : sameMemory s1 s2) :
    sameMemory { s1 with viewedItems := v } { s2 with viewedItems := v } :=
  ⟨rfl, h.2.1, h.2.2.1, h.2.2.2.1, h.2.2.2.2.1, h.2.2.2.2.2⟩

theorem sameMemory_savedItems (s1 s2 : State) (v : JSObject) (h : sameMemory s1 s2) :
    sameMemory { s1 with savedItems := v } { s2 with savedItems := v } :=
  ⟨h.1, rfl, h.2.2.1, h.2.2.2.1, h.2.2.2.2.1, h.2.2.2.2.2⟩

theorem sameMemory_notes (s1 s2 : State) (v : JSObject) (h : sameMemory s1 s2) :
    sameMemory { s1 with notes := v } { s2 with notes := v } :=
  ⟨h.1, h.2.1, rfl, h.2.2.2.1, h.2.2.2.2.1, h.2.2.2.2.2⟩

theorem sameMemory_quizStatus (s1 s2 : State) (v : JSObject) (h : sameMemory s1 s2) :
    sameMemory { s1 with quizStatus := v } { s2 with quizStatus := v } :=
  ⟨h.1, h.2.1, h.2.2.1, rfl, h.2.2.2.2.1, h.2.2.2.2.2⟩

theorem sameMemory_markAsViewed (s1 s2 : State) (url : String) (ctx : JSVal) (now : Int)
    (h : sameMemory s1 s2) :
    sameMemory (markAsViewed s1 url ctx now) (markAsViewed s2 url ctx now) := by
  unfold markAsViewed
  apply sameMemory_notifyListeners
  apply sameMemory_saveToStorage
  rw [h.1]
  exact sameMemory_viewedItems s1 s2 _ h

theorem sameMemory_markAsUnread (s1 s2 : State) (url : String) (h : sameMemory s1 s2) :
    sameMemory (markAsUnread s1 url) (markAsUnread s2 url) := by
  unfold markAsUnread
  apply sameMemory_notifyListeners
  apply sameMemory_saveToStorage
  rw [h.1]
  exact sameMemory_viewedItems s1 s2 _ h

theorem sameMemory_saveItem (s1 s2 : State) (itemId : String) (ctx : JSVal) (now : Int)
    (h : sameMemory s1 s2) :
    sameMemory (saveItem s1 itemId ctx now) (saveItem s2 itemId ctx now) := by
  unfold saveItem
  apply sameMemory_notifyListeners
  apply sameMemory_saveToStorage
  rw [h.2.1]
  exact sameMemory_savedItems s1 s2 _ h

theorem sameMemory_unsaveItem (s1 s2 : State) (itemId : String) (h : sameMemory s1 s2) :
    sameMemory (unsaveItem s1 itemId) (unsaveItem s2 itemId) := by
  unfold unsaveItem
  apply sameMemory_notifyListeners
  apply sameMemory_saveToStorage
  rw [h.2.1]
  exact sameMemory_savedItems s1 s2 _ h

theorem sameMemory_saveNote (s1 s2 : State) (itemId : String) (data : JSVal) (now : Int)
    (h : sameMemory s1 s2) :
    sameMemory (saveNote s1 itemId data now) (saveNote s2 itemId data now) := by
  unfold saveNote
  split
  · exact h
  · apply sameMemory_notifyListeners
    apply sameMemory_saveToStorage
    rw [h.2.2.1]
    exact sameMemory_notes s1 s2 _ h

theorem sameMemory_deleteNote (s1 s2 : State) (itemId : String) (h : sameMemory s1 s2) :
    sameMemory (deleteNote s1 itemId) (deleteNote s2 itemId) := by
  unfold deleteNote
  rw [h.2.2.1]
  split
  · exact h
  · split
    · apply sameMemory_notifyListeners
      apply sameMemory_saveToStorage
      exact sameMemory_notes s1 s2 _ h
    · exact h

theorem sameMemory_setQuizStatus (s1 s2 : State) (itemId : String) (status : JSVal)
    (now : Int) (h : sameMemory s1 s2) :
    sameMemory (setQuizStatus s1 itemId status now) (setQuizStatus s2 itemId status now) := by
  unfold setQuizStatus
  split
  · exact h
  · apply sameMemory_saveToStorage
    rw [h.2.2.2.1]
    exact sameMemory_quizStatus s1 s2 _ h

theorem sameMemory_clearQuizStatus (s1 s2 : State) (itemId : String) (h : sameMemory s1 s2) :
    sameMemory (clearQuizStatus s1 itemId) (clearQuizStatus s2 itemId) := by
  unfold clearQuizStatus
  rw [h.2.2.2.1]
  split
  · exact h
  · split
    · apply sameMemory_saveToStorage
      exact sameMemory_quizStatus s1 s2 _ h
    · exact h

theorem sameMemory_importData (s1 s2 : State) (backupData : Option BackupDocument)
    (merge : Bool) (h : sameMemory s1 s2) :
    sameMemory (importData s1 backupData merge).1 (importData s2 backupData merge).1 := by
  unfold importData
  split
  · refine ⟨h.1, h.2.1, h.2.2.1, h.2.2.2.1, h.2.2.2.2.1, ?_⟩
    show listenerCalls (s1.trace ++ _) = listenerCalls (s2.trace ++ _)
    rw [listenerCalls_append, listenerCalls_append, h.2.2.2.2.2]
  · rename_i d _
    apply sameMemory_notifyListeners
    have hv : sameMemory (importViewed s1 d merge) (importViewed s2 d merge) := by
      unfold importViewed
      split
      · apply sameMemory_saveToStorage
        rw [h.1]
        exact sameMemory_viewedItems s1 s2 _ h
      · exact h
    have hs : sameMemory (importSaved (importViewed s1 d merge) d merge)
        (importSaved (importViewed s2 d merge) d merge) := by
      unfold importSaved
      split
      · apply sameMemory_saveToStorage
        rw [hv.2.1]
        exact sameMemory_savedItems _ _ _ hv
      · exact hv
    have hn : sameMemory (importNotes (importSaved (importViewed s1 d merge) d merge) d merge)
        (importNotes (importSaved (importViewed s2 d merge) d merge) d merge) := by
      unfold importNotes
      split
      · apply sameMemory_saveToStorage
        rw [hs.2.2.1]
        exact sameMemory_notes _ _ _ hs
      · exact hs
    unfold importQuiz
    split
    · apply sameMemory_saveToStorage
      rw [hn.2.2.2.1]
      exact sameMemory_quizStatus _ _ _ hn
    · exact hn

theorem sameMemory_clearAllData (s1 s2 : State) (confirmed : Bool) (h : sameMemory s1 s2) :
    sameMemory (clearAllData s1 confirmed).1 (clearAllData s2 confirmed).1 := by
  unfold clearAllData
  split
  · apply sameMemory_notifyListeners
    apply sameMemory_saveToStorage
    apply sameMemory_saveToStorage
    apply sameMemory_saveToStorage
    apply sameMemory_saveToStorage
    exact ⟨rfl, rfl, rfl, rfl, h.2.2.2.2.1, h.2.2.2.2.2⟩
  · exact h

/-- Every call keeps two managers in agreement on memory and notifications. -/
theorem runOp_sameMemory (s1 s2 : State) (op : Op) (h : sameMemory s1 s2) :
    sameMemory (runOp s1 op) (runOp s2 op) := by
  cases op with
  | markAsViewed url ctx now => exact sameMemory_markAsViewed s1 s2 url ctx now h
  | markAsUnread url => exact sameMemory_markAsUnread s1 s2 url h
  | toggleViewed url ctx now =>
    simp only [runOp, toggleViewed, isViewed, h.1]
    split
    · exact sameMemory_markAsUnread s1 s2 url h
    · exact sameMemory_markAsViewed s1 s2 url ctx now h
  | saveItem itemId ctx now => exact sameMemory_saveItem s1 s2 itemId ctx now h
  | unsaveItem itemId => exact sameMemory_unsaveItem s1 s2 itemId h
  | toggleSaved itemId ctx now =>
    simp only [runOp, toggleSaved, isSaved, h.2.1]
    split
    · exact sameMemory_unsaveItem s1 s2 itemId h
    · exact sameMemory_saveItem s1 s2 itemId ctx now h
  | saveNote itemId data now => exact sameMemory_saveNote s1 s2 itemId data now h
  | deleteNote itemId => exact sameMemory_deleteNote s1 s2 itemId h
  | setQuizStatus itemId status now => exact sameMemory_setQuizStatus s1 s2 itemId status now h
  | clearQuizStatus itemId => exact sameMemory_clearQuizStatus s1 s2 itemId h
  | clearAllQuizStatus =>
    simp only [runOp, clearAllQuizStatus]
    apply sameMemory_saveToStorage
    exact sameMemory_quizStatus s1 s2 _ h
  | importData backupData merge => exact sameMemory_importData s1 s2 backupData merge h
  | clearAllData confirmed => exact sameMemory_clearAllData s1 s2 confirmed h
  | addListener callback =>
    simp only [runOp, addListener]
    exact ⟨h.1, h.2.1, h.2.2.1, h.2.2.2.1, by simp [h.2.2.2.2.1], h.2.2.2.2.2⟩
  | removeListener callback =>
    simp only [runOp, removeListener]
    exact ⟨h.1, h.2.1, h.2.2.1, h.2.2.2.1, by simp [h.2.2.2.2.1], h.2.2.2.2.2⟩

/-- C14: storage failures never surface. For every call and every state, running
the call with storage unavailable, or with a store whose writes throw, yields
the same four maps, the same listeners and the same listener calls as running
it with a store that accepts the write; the call returns a state in all cases. -/
theorem storage_failure_invisible (s : State) (op : Op) (avail quota : Bool) :
    sameMemory
      (runOp { s with storageAvailable := avail, quotaExceeded := quota } op)
      (runOp { s with storageAvailable := true, quotaExceeded := false } op) :=
  runOp_sameMemory _ _ op ⟨rfl, rfl, rfl, rfl, rfl, rfl⟩

end StateManager

namespace StateManager

open JS

theorem exists_mem_saveEvents (q : Bool) (key : String) (data : JSObject) :
    ∃ ok, Event.setItem key data.props ok ∈ saveEvents true q key data := by
  cases q
  · exact ⟨true, by simp [saveEvents]⟩
  · exact ⟨false, by simp [saveEvents]⟩

theorem saveToStorage_map (s : State) (key : String) (data : JSObject) (c : Category) :
    (saveToStorage s key data).map c = s.map c := by
  cases c <;> simp [State.map]

theorem notifyListeners_map (s : State) (type url : String) (status : Bool) (c : Category) :
    (notifyListeners s type url status).map c = s.map c := by
  cases c <;> rfl

/-- A call that changes no map and adds no event. -/
theorem persistsBeforeNotifying_of_trace (s s' : State) (h : s'.trace = s.trace)
    (hm : ∀ c, s'.map c = s.map c) : persistsBeforeNotifying s s' :=
  ⟨[], [], by simp [h], rfl, rfl, by simp, fun _ c hc => absurd (hm c) hc, Or.inl rfl⟩

/-- A call that only persists the map it has just changed. -/
theorem persistsBeforeNotifying_save (s s1 : State) (c : Category) (h : s1.trace = s.trace)
    (ha : s1.storageAvailable = s.storageAvailable)
    (hm : ∀ c2, c2 ≠ c → s1.map c2 = s.map c2) :
    persistsBeforeNotifying s (saveToStorage s1 (s1.storageKey c) (s1.map c)) := by
  refine ⟨saveEvents s1.storageAvailable s1.quotaExceeded (s1.storageKey c) (s1.map c), [],
    ?_, listenerCalls_saveEvents _ _ _ _, rfl, ?_, ?_, Or.inl rfl⟩
  · rw [saveToStorage_trace_eq, h, List.append_nil]
  · intro key data ok hmem
    obtain ⟨hk, hd⟩ := mem_saveEvents _ _ _ _ _ _ _ hmem
    refine ⟨c, ?_, ?_⟩
    · rw [hk]
      simp [State.storageKey]
    · rw [hd, saveToStorage_map]
  · intro hav c2 hne
    by_cases hc : c2 = c
    · subst hc
      rw [saveToStorage_map, ha, hav]
      have hk : (saveToStorage s1 (s1.storageKey c2) (s1.map c2)).storageKey c2 =
          s1.storageKey c2 := by simp [State.storageKey]
      rw [hk]
      exact exists_mem_saveEvents _ _ _
    · rw [saveToStorage_map] at hne
      exact absurd (hm c2 hc) hne

/-- A call that persists the map it has just changed and then notifies. -/
theorem persistsBeforeNotifying_save_notify (s s1 : State) (c : Category) (type url : String)
    (status : Bool) (h : s1.trace = s.trace)
    (ha : s1.storageAvailable = s.storageAvailable) (hl : s1.listeners = s.listeners)
    (hm : ∀ c2, c2 ≠ c → s1.map c2 = s.map c2) :
    persistsBeforeNotifying s
      (notifyListeners (saveToStorage s1 (s1.storageKey c) (s1.map c)) type url status) := by
  refine ⟨saveEvents s1.storageAvailable s1.quotaExceeded (s1.storageKey c) (s1.map c),
    s1.listeners.flatMap (callListener type url status),
    ?_, listenerCalls_saveEvents _ _ _ _, storageWrites_callListener _ _ _ _, ?_, ?_,
    Or.inr ⟨type, url, status, by rw [listenerCalls_callListener, hl]⟩⟩
  · simp only [notifyListeners, saveToStorage_trace_eq, h, saveToStorage_listeners]
  · intro key data ok hmem
    obtain ⟨hk, hd⟩ := mem_saveEvents _ _ _ _ _ _ _ hmem
    refine ⟨c, ?_, ?_⟩
    · rw [hk]
      simp [State.storageKey, notifyListeners]
    · rw [hd, notifyListeners_map, saveToStorage_map]
  · intro hav c2 hne
    rw [notifyListeners_map, saveToStorage_map] at hne
    by_cases hc : c2 = c
    · subst hc
      rw [notifyListeners_map, saveToStorage_map, ha, hav]
      have hk : (notifyListeners (saveToStorage s1 (s1.storageKey c2) (s1.map c2))
          type url status).storageKey c2 = s1.storageKey c2 := by
        simp [State.storageKey, notifyListeners]
      rw [hk]
      exact exists_mem_saveEvents _ _ _
    · exact absurd (hm c2 hc) hne

end StateManager

namespace StateManager

open JS

/-- The trace of a successful import: the writes of the four blocks in order,
then the notification. -/
theorem importData_trace (s : State) (doc : BackupDocument) (d : BackupData) (merge : Bool)
    (h : doc.data = some d) :
    (importData s (some doc) merge).1.trace =
      s.trace ++
        (importEvents s d merge Category.viewed ++ importEvents s d merge Category.saved ++
          importEvents s d merge Category.notes ++ importEvents s d merge Category.quiz) ++
        s.listeners.flatMap (callListener "import" "all" true) := by
  simp only [importData, Option.bind, h, notifyListeners, importEvents, BackupData.category,
    StorageKeys.key, State.map, importQuiz, importNotes, importSaved, importViewed]
  cases d.viewed <;> cases d.saved <;> cases d.notes <;> cases d.quiz <;>
    simp [saveToStorage_trace_eq]

theorem mem_importEvents (s : State) (d : BackupData) (merge : Bool) (c : Category)
    (key : String) (data : Props) (ok : Bool)
    (h : Event.setItem key data ok ∈ importEvents s d merge c) :
    ∃ m, d.category c = some m ∧ key = s.STORAGE_KEYS.key c ∧
      data = (importMap merge (s.map c) m).props := by
  unfold importEvents at h
  cases hc : d.category c with
  | none => simp [hc] at h
  | some m =>
    rw [hc] at h
    obtain ⟨hk, hd⟩ := mem_saveEvents _ _ _ _ _ _ _ h
    exact ⟨m, rfl, hk, hd⟩

theorem listenerCalls_importEvents (s : State) (d : BackupData) (merge : Bool) (c : Category) :
    listenerCalls (importEvents s d merge c) = [] := by
  unfold importEvents
  split
  · exact listenerCalls_saveEvents _ _ _ _
  · rfl

theorem importData_STORAGE_KEYS (s : State) (backupData : Option BackupDocument)
    (merge : Bool) : (importData s backupData merge).1.STORAGE_KEYS = s.STORAGE_KEYS := by
  unfold importData
  split
  · rfl
  · rename_i d _
    simp only [notifyListeners, importQuiz, importNotes, importSaved, importViewed]
    cases d.viewed <;> cases d.saved <;> cases d.notes <;> cases d.quiz <;> simp

theorem persistsBeforeNotifying_importData (s : State) (backupData : Option BackupDocument)
    (merge : Bool) : persistsBeforeNotifying s (importData s backupData merge).1 := by
  cases hb : backupData.bind (fun b => b.data) with
  | none =>
    refine ⟨[Event.consoleError "Import failed:"], [], ?_, rfl, rfl, ?_, ?_, Or.inl rfl⟩
    · simp [importData, hb]
    · intro key data ok hmem
      simp at hmem
    · intro _ c hne
      refine absurd ?_ hne
      cases c <;> simp [importData, hb, State.map]
  | some d =>
    obtain ⟨doc, hdoc, hd⟩ : ∃ doc, backupData = some doc ∧ doc.data = some d := by
      cases backupData with
      | none => simp at hb
      | some doc => exact ⟨doc, rfl, by simpa using hb⟩
    subst hdoc
    refine ⟨importEvents s d merge Category.viewed ++ importEvents s d merge Category.saved ++
        importEvents s d merge Category.notes ++ importEvents s d merge Category.quiz,
      s.listeners.flatMap (callListener "import" "all" true),
      importData_trace s doc d merge hd, ?_, storageWrites_callListener _ _ _ _, ?_, ?_,
      Or.inr ⟨"import", "all", true, listenerCalls_callListener _ _ _ _⟩⟩
    · simp only [listenerCalls_append, listenerCalls_importEvents, List.append_nil]
    · intro key data ok hmem
      have hcat : ∃ c, Event.setItem key data ok ∈ importEvents s d merge c := by
        simp only [List.mem_append] at hmem
        rcases hmem with ((h1 | h2) | h3) | h4
        · exact ⟨_, h1⟩
        · exact ⟨_, h2⟩
        · exact ⟨_, h3⟩
        · exact ⟨_, h4⟩
      obtain ⟨c, hc⟩ := hcat
      obtain ⟨m, hm, hk, hdata⟩ := mem_importEvents s d merge c key data ok hc
      refine ⟨c, ?_, ?_⟩
      · rw [hk, State.storageKey, importData_STORAGE_KEYS]
      · rw [hdata, importData_category s doc d merge c hd, hm]
    · intro hav c hne
      rw [importData_category s doc d merge c hd] at hne ⊢
      rw [State.storageKey, importData_STORAGE_KEYS]
      cases hc : d.category c with
      | none =>
        rw [hc] at hne
        exact absurd rfl hne
      | some m =>
        have hw : ∃ ok, Event.setItem (s.STORAGE_KEYS.key c) (importMap merge (s.map c) m).props ok ∈
            importEvents s d merge c := by
          unfold importEvents
          rw [hc, hav]
          exact exists_mem_saveEvents _ _ _
        obtain ⟨ok, hok⟩ := hw
        refine ⟨ok, ?_⟩
        simp only [List.mem_append]
        cases c
        · exact Or.inl (Or.inl (Or.inl hok))
        · exact Or.inl (Or.inl (Or.inr hok))
        · exact Or.inl (Or.inr hok)
        · exact Or.inr hok

theorem persistsBeforeNotifying_clearAllData (s : State) (confirmed : Bool) :
    persistsBeforeNotifying s (clearAllData s confirmed).1 := by
  cases confirmed with
  | false => exact persistsBeforeNotifying_of_trace s _ rfl (fun _ => rfl)
  | true =>
    refine ⟨saveEvents s.storageAvailable s.quotaExceeded s.STORAGE_KEYS.VIEWED JSObject.empty ++
        saveEvents s.storageAvailable s.quotaExceeded s.STORAGE_KEYS.SAVED JSObject.empty ++
        saveEvents s.storageAvailable s.quotaExceeded s.STORAGE_KEYS.NOTES JSObject.empty ++
        saveEvents s.storageAvailable s.quotaExceeded s.STORAGE_KEYS.QUIZ JSObject.empty,
      s.listeners.flatMap (callListener "clear" "all" false), ?_, ?_,
      storageWrites_callListener _ _ _ _, ?_, ?_,
      Or.inr ⟨"clear", "all", false, listenerCalls_callListener _ _ _ _⟩⟩
    · simp [clearAllData, notifyListeners, saveToStorage_trace_eq]
    · simp only [listenerCalls_append, listenerCalls_saveEvents, List.append_nil]
    · intro key data ok hmem
      simp only [List.mem_append] at hmem
      rcases hmem with ((h1 | h2) | h3) | h4
      · obtain ⟨hk, hd⟩ := mem_saveEvents _ _ _ _ _ _ _ h1
        exact ⟨Category.viewed, by simp [hk, State.storageKey, StorageKeys.key, clearAllData, notifyListeners],
          by simp [hd, State.map, clearAllData]⟩
      · obtain ⟨hk, hd⟩ := mem_saveEvents _ _ _ _ _ _ _ h2
        exact ⟨Category.saved, by simp [hk, State.storageKey, StorageKeys.key, clearAllData, notifyListeners],
          by simp [hd, State.map, clearAllData]⟩
      · obtain ⟨hk, hd⟩ := mem_saveEvents _ _ _ _ _ _ _ h3
        exact ⟨Category.notes, by simp [hk, State.storageKey, StorageKeys.key, clearAllData, notifyListeners],
          by simp [hd, State.map, clearAllData]⟩
      · obtain ⟨hk, hd⟩ := mem_saveEvents _ _ _ _ _ _ _ h4
        exact ⟨Category.quiz, by simp [hk, State.storageKey, StorageKeys.key, clearAllData, notifyListeners],
          by simp [hd, State.map, clearAllData]⟩
    · intro hav c _
      have hk : ∀ c2, (clearAllData s true).1.storageKey c2 = s.STORAGE_KEYS.key c2 := by
        intro c2
        simp [State.storageKey, clearAllData, notifyListeners]
      have hmap : ((clearAllData s true).1.map c).props = JSObject.empty.props := by
        cases c <;> simp [State.map, clearAllData]
      rw [hk, hmap, hav]
      obtain ⟨ok, hok⟩ := exists_mem_saveEvents s.quotaExceeded (s.STORAGE_KEYS.key c)
        JSObject.empty
      refine ⟨ok, ?_⟩
      simp only [List.mem_append]
      cases c
      · exact Or.inl (Or.inl (Or.inl hok))
      · exact Or.inl (Or.inl (Or.inr hok))
      · exact Or.inl (Or.inr hok)
      · exact Or.inr hok

end StateManager

namespace StateManager

open JS

theorem persistsBeforeNotifying_markAsViewed (s : State) (url : String) (ctx : JSVal)
    (now : Int) : persistsBeforeNotifying s (markAsViewed s url ctx now) :=
  persistsBeforeNotifying_save_notify s _ Category.viewed "viewed" url true rfl rfl rfl
    (fun c2 h => by cases c2 <;> first | rfl | exact absurd rfl h)

theorem persistsBeforeNotifying_markAsUnread (s : State) (url : String) :
    persistsBeforeNotifying s (markAsUnread s url) :=
  persistsBeforeNotifying_save_notify s _ Category.viewed "viewed" url false rfl rfl rfl
    (fun c2 h => by cases c2 <;> first | rfl | exact absurd rfl h)

theorem persistsBeforeNotifying_saveItem (s : State) (itemId : String) (ctx : JSVal)
    (now : Int) : persistsBeforeNotifying s (saveItem s itemId ctx now) :=
  persistsBeforeNotifying_save_notify s _ Category.saved "saved" itemId true rfl rfl rfl
    (fun c2 h => by cases c2 <;> first | rfl | exact absurd rfl h)

theorem persistsBeforeNotifying_unsaveItem (s : State) (itemId : String) :
    persistsBeforeNotifying s (unsaveItem s itemId) :=
  persistsBeforeNotifying_save_notify s _ Category.saved "saved" itemId false rfl rfl rfl
    (fun c2 h => by cases c2 <;> first | rfl | exact absurd rfl h)

/-- C12: persistence precedes notification. For every call (markAsViewed,
markAsUnread, saveItem, unsaveItem, the toggles, saveNote, deleteNote, the quiz
calls, importData, clearAllData), the events the call adds split into a first
part that holds every storage write and no listener call and a second part that
holds every listener call and no storage write; each write carries, under the
key of its map, the content that map has after the call; with storage available
every map the call has changed is written; and the listeners are notified at
most once, each with the same arguments. -/
theorem persistence_precedes_notification (s : State) (op : Op) :
    persistsBeforeNotifying s (runOp s op) := by
  cases op with
  | markAsViewed url ctx now => exact persistsBeforeNotifying_markAsViewed s url ctx now
  | markAsUnread url => exact persistsBeforeNotifying_markAsUnread s url
  | toggleViewed url ctx now =>
    simp only [runOp, toggleViewed]
    split
    · exact persistsBeforeNotifying_markAsUnread s url
    · exact persistsBeforeNotifying_markAsViewed s url ctx now
  | saveItem itemId ctx now => exact persistsBeforeNotifying_saveItem s itemId ctx now
  | unsaveItem itemId => exact persistsBeforeNotifying_unsaveItem s itemId
  | toggleSaved itemId ctx now =>
    simp only [runOp, toggleSaved]
    split
    · exact persistsBeforeNotifying_unsaveItem s itemId
    · exact persistsBeforeNotifying_saveItem s itemId ctx now
  | saveNote itemId data now =>
    simp only [runOp, saveNote]
    split
    · exact persistsBeforeNotifying_of_trace s s rfl (fun _ => rfl)
    · exact persistsBeforeNotifying_save_notify s _ Category.notes "note" itemId true rfl rfl rfl
        (fun c2 h => by cases c2 <;> first | rfl | exact absurd rfl h)
  | deleteNote itemId =>
    simp only [runOp, deleteNote]
    split
    · exact persistsBeforeNotifying_of_trace s s rfl (fun _ => rfl)
    · split
      · exact persistsBeforeNotifying_save_notify s _ Category.notes "note" itemId false rfl rfl
          rfl (fun c2 h => by cases c2 <;> first | rfl | exact absurd rfl h)
      · exact persistsBeforeNotifying_of_trace s s rfl (fun _ => rfl)
  | setQuizStatus itemId status now =>
    simp only [runOp, setQuizStatus]
    split
    · exact persistsBeforeNotifying_of_trace s s rfl (fun _ => rfl)
    · exact persistsBeforeNotifying_save s _ Category.quiz rfl rfl
        (fun c2 h => by cases c2 <;> first | rfl | exact absurd rfl h)
  | clearQuizStatus itemId =>
    simp only [runOp, clearQuizStatus]
    split
    · exact persistsBeforeNotifying_of_trace s s rfl (fun _ => rfl)
    · split
      · exact persistsBeforeNotifying_save s _ Category.quiz rfl rfl
          (fun c2 h => by cases c2 <;> first | rfl | exact absurd rfl h)
      · exact persistsBeforeNotifying_of_trace s s rfl (fun _ => rfl)
  | clearAllQuizStatus =>
    exact persistsBeforeNotifying_save s _ Category.quiz rfl rfl
      (fun c2 h => by cases c2 <;> first | rfl | exact absurd rfl h)
  | importData backupData merge => exact persistsBeforeNotifying_importData s backupData merge
  | clearAllData confirmed => exact persistsBeforeNotifying_clearAllData s confirmed
  | addListener callback =>
    exact persistsBeforeNotifying_of_trace s _ rfl (fun c => by cases c <;> rfl)
  | removeListener callback =>
    exact persistsBeforeNotifying_of_trace s _ rfl (fun c => by cases c <;> rfl)

end StateManager

namespace StateManager

open JS

/-- C15, the code at the failing input: with the text `[]` stored under the
viewed key, `init()` leaves an array in `viewedItems` (no manager with four
dictionaries exists); `markAsViewed` of a document URL puts the record on that
array as a named property, the text written is again `[]`, and a manager
initialised from the store afterwards has the empty array, without the record. -/
theorem reload_after_array_loses_record :
    arrayMapOf (init defaultStorageKeys true arrayStore).viewedItems =
      some { items := [], named := [] } ∧
    (construct defaultStorageKeys
      { working := true, quotaExceeded := false, items := arrayStore }).isSome = false ∧
    ArrayMap.markAsViewed { items := [], named := [] } "https://example.org/doc.pdf"
        (JSVal.obj []) 5 =
      some { items := [],
             named := [("https://example.org/doc.pdf",
               JSVal.obj [("timestamp", JSVal.num 5)])] } ∧
    ArrayMap.stored
        { items := [],
          named := [("https://example.org/doc.pdf", JSVal.obj [("timestamp", JSVal.num 5)])] } =
      StoredText.json (JSVal.arr []) ∧
    arrayMapOf
        (init defaultStorageKeys true
          (LocalStorage.setItem arrayStore "app_viewed_items"
            (StoredText.json (JSVal.arr [])))).viewedItems =
      some { items := [], named := [] } :=
  ⟨rfl, rfl, rfl, rfl, rfl⟩

end StateManager

namespace StateManager

open JS

/-- C21: `exportData()` returns a document with version `1.0`, whose `data`
holds the four dictionaries of the state themselves and whose `stats` holds the
number of keys of each; the call leaves the four dictionaries as they were,
writes nothing to the store and calls no listener. -/
theorem exportData_snapshot (s : State) (configAppId : Option String) (isoDate : String) :
    (exportDataCall s configAppId isoDate).2.version = some "1.0" ∧
    (exportDataCall s configAppId isoDate).2.data =
      some { viewed := some s.viewedItems, saved := some s.savedItems,
             notes := some s.notes, quiz := some s.quizStatus } ∧
    (exportDataCall s configAppId isoDate).2.stats =
      some { viewedCount := (ownKeys s.viewedItems.props).length
             savedCount := (ownKeys s.savedItems.props).length
             notesCount := (ownKeys s.notes.props).length
             quizCount := (ownKeys s.quizStatus.props).length } ∧
    (exportDataCall s configAppId isoDate).1.viewedItems = s.viewedItems ∧
    (exportDataCall s configAppId isoDate).1.savedItems = s.savedItems ∧
    (exportDataCall s configAppId isoDate).1.notes = s.notes ∧
    (exportDataCall s configAppId isoDate).1.quizStatus = s.quizStatus ∧
    storageWrites (exportDataCall s configAppId isoDate).1.trace = storageWrites s.trace ∧
    listenerCalls (exportDataCall s configAppId isoDate).1.trace = listenerCalls s.trace :=
  ⟨rfl, rfl, rfl, rfl, rfl, rfl, rfl, rfl, rfl⟩

/-- C23: the quiz-status calls are silent. For every state, whatever listeners
are registered, `setQuizStatus`, `clearQuizStatus` and `clearAllQuizStatus` add
no listener call to the trace and leave the viewed, saved and notes dictionaries
and the listener list as they were. -/
theorem quizStatus_calls_silent (s : State) (itemId : String) (status : JSVal) (now : Int) :
    (listenerCalls (setQuizStatus s itemId status now).trace = listenerCalls s.trace ∧
      (setQuizStatus s itemId status now).viewedItems = s.viewedItems ∧
      (setQuizStatus s itemId status now).savedItems = s.savedItems ∧
      (setQuizStatus s itemId status now).notes = s.notes ∧
      (setQuizStatus s itemId status now).listeners = s.listeners) ∧
    (listenerCalls (clearQuizStatus s itemId).trace = listenerCalls s.trace ∧
      (clearQuizStatus s itemId).viewedItems = s.viewedItems ∧
      (clearQuizStatus s itemId).savedItems = s.savedItems ∧
      (clearQuizStatus s itemId).notes = s.notes ∧
      (clearQuizStatus s itemId).listeners = s.listeners) ∧
    (listenerCalls (clearAllQuizStatus s).trace = listenerCalls s.trace ∧
      (clearAllQuizStatus s).viewedItems = s.viewedItems ∧
      (clearAllQuizStatus s).savedItems = s.savedItems ∧
      (clearAllQuizStatus s).notes = s.notes ∧
      (clearAllQuizStatus s).listeners = s.listeners) := by
  refine ⟨?_, ?_, ?_⟩
  · unfold setQuizStatus
    split
    · exact ⟨rfl, rfl, rfl, rfl, rfl⟩
    · refine ⟨?_, ?_, ?_, ?_, ?_⟩
      · rw [(saveToStorage_trace _ _ _).2]
      · simp
      · simp
      · simp
      · simp
  · unfold clearQuizStatus
    split
    · exact ⟨rfl, rfl, rfl, rfl, rfl⟩
    · split
      · refine ⟨?_, ?_, ?_, ?_, ?_⟩
        · rw [(saveToStorage_trace _ _ _).2]
        · simp
        · simp
        · simp
        · simp
      · exact ⟨rfl, rfl, rfl, rfl, rfl⟩
  · unfold clearAllQuizStatus
    refine ⟨?_, ?_, ?_, ?_, ?_⟩
    · rw [(saveToStorage_trace _ _ _).2]
    · simp
    · simp
    · simp
    · simp

end StateManager

namespace Utils

/-- On one character the regular expression with its callback and the entity
table of the specification agree. -/
theorem callback_eq_entityOf (c : Char) :
    (if inClass c then (escapeCallback c).toList else [c]) = (entityOf c).toList := by
  by_cases h1 : c = Char.ofNat 38
  · subst h1; rfl
  by_cases h2 : c = Char.ofNat 60
  · subst h2; rfl
  by_cases h3 : c = Char.ofNat 62
  · subst h3; rfl
  by_cases h4 : c = Char.ofNat 34
  · subst h4; rfl
  by_cases h5 : c = Char.ofNat 39
  · subst h5; rfl
  simp [inClass, entityOf, h1, h2, h3, h4, h5, String.singleton]

theorem replaceAll_eq_flatMap (cs : List Char) :
    replaceAll inClass escapeCallback cs = cs.flatMap (fun c => (entityOf c).toList) := by
  induction cs with
  | nil => rfl
  | cons c rest ih => rw [replaceAll, ih, callback_eq_entityOf, List.flatMap_cons]

/-- No entity and no unescaped character is one of `<`, `>`, the double quote
or the apostrophe. -/
theorem entityOf_safe (c x : Char) (h : x ∈ (entityOf c).toList) :
    x ≠ Char.ofNat 60 ∧ x ≠ Char.ofNat 62 ∧ x ≠ Char.ofNat 34 ∧ x ≠ Char.ofNat 39 := by
  by_cases h1 : c = Char.ofNat 38
  · subst h1
    revert x
    decide
  by_cases h2 : c = Char.ofNat 60
  · subst h2
    revert x
    decide
  by_cases h3 : c = Char.ofNat 62
  · subst h3
    revert x
    decide
  by_cases h4 : c = Char.ofNat 34
  · subst h4
    revert x
    decide
  by_cases h5 : c = Char.ofNat 39
  · subst h5
    revert x
    decide
  simp [entityOf, h1, h2, h3, h4, h5, String.singleton] at h
  subst h
  exact ⟨h2, h3, h4, h5⟩

/-- C24: `escapeHTML(s)` is `s` with each `&`, `<`, `>`, double quote and
apostrophe replaced by its entity and every other character kept; the result
holds no raw `<`, `>`, double quote or apostrophe; and escaping distributes over
concatenation. -/
theorem escapeHTML_spec (s : String) :
    escapeHTML s = escapeSpec s ∧
    (∀ x ∈ (escapeHTML s).toList,
      x ≠ Char.ofNat 60 ∧ x ≠ Char.ofNat 62 ∧ x ≠ Char.ofNat 34 ∧ x ≠ Char.ofNat 39) ∧
    (∀ a b : String, escapeHTML (a ++ b) = escapeHTML a ++ escapeHTML b) := by
  refine ⟨?_, ?_, ?_⟩
  · simp only [escapeHTML, escapeSpec, replaceAll_eq_flatMap]
  · intro x hx
    have hx2 : x ∈ s.toList.flatMap (fun c => (entityOf c).toList) := by
      rw [← replaceAll_eq_flatMap]
      exact hx
    obtain ⟨c, _, hc⟩ := List.mem_flatMap.1 hx2
    exact entityOf_safe c x hc
  · intro a b
    apply String.ext
    simp only [escapeHTML, replaceAll_eq_flatMap, String.toList, String.data_append,
      List.flatMap_append]

end Utils

namespace StateManager

open JS

theorem changesOnly_refl (c : Category) (x : String) (s : State) : changesOnly c x s s :=
  ⟨fun _ _ => rfl, fun _ _ => rfl⟩

/-- C25: the single-item calls are local. For every state and id `x`, each of
`markAsViewed`, `markAsUnread`, `saveItem`, `unsaveItem`, `saveNote`,
`deleteNote`, `setQuizStatus` and `clearQuizStatus` applied to `x` leaves the
other three dictionaries as they were, and in its own dictionary leaves the
entry stored under every other id as it was. -/
theorem single_item_calls_local (s : State) (x : String) (v : JSVal) (now : Int) :
    changesOnly Category.viewed x s (markAsViewed s x v now) ∧
    changesOnly Category.viewed x s (markAsUnread s x) ∧
    changesOnly Category.saved x s (saveItem s x v now) ∧
    changesOnly Category.saved x s (unsaveItem s x) ∧
    changesOnly Category.notes x s (saveNote s x v now) ∧
    changesOnly Category.notes x s (deleteNote s x) ∧
    changesOnly Category.quiz x s (setQuizStatus s x v now) ∧
    changesOnly Category.quiz x s (clearQuizStatus s x) := by
  refine ⟨?_, ?_, ?_, ?_, ?_, ?_, ?_, ?_⟩
  · refine ⟨fun c2 h => ?_, fun y hy => ?_⟩
    · cases c2 <;> first | exact absurd rfl h | simp [State.map, markAsViewed, notifyListeners]
    · simp only [State.map, markAsViewed, notifyListeners, saveToStorage_viewedItems]
      exact JSObject.getOwnProperty_set_other _ _ _ _ hy
  · refine ⟨fun c2 h => ?_, fun y hy => ?_⟩
    · cases c2 <;> first | exact absurd rfl h | simp [State.map, markAsUnread, notifyListeners]
    · simp only [State.map, markAsUnread, notifyListeners, saveToStorage_viewedItems,
        JSObject.delete, getOwnProperty_deleteOwnProperty, if_neg hy]
  · refine ⟨fun c2 h => ?_, fun y hy => ?_⟩
    · cases c2 <;> first | exact absurd rfl h | simp [State.map, saveItem, notifyListeners]
    · simp only [State.map, saveItem, notifyListeners, saveToStorage_savedItems]
      exact JSObject.getOwnProperty_set_other _ _ _ _ hy
  · refine ⟨fun c2 h => ?_, fun y hy => ?_⟩
    · cases c2 <;> first | exact absurd rfl h | simp [State.map, unsaveItem, notifyListeners]
    · simp only [State.map, unsaveItem, notifyListeners, saveToStorage_savedItems,
        JSObject.delete, getOwnProperty_deleteOwnProperty, if_neg hy]
  · unfold saveNote
    split
    · exact changesOnly_refl _ _ _
    · refine ⟨fun c2 h => ?_, fun y hy => ?_⟩
      · cases c2 <;> first | exact absurd rfl h | simp [State.map, notifyListeners]
      · simp only [State.map, notifyListeners, saveToStorage_notes]
        exact JSObject.getOwnProperty_set_other _ _ _ _ hy
  · unfold deleteNote
    split
    · exact changesOnly_refl _ _ _
    · split
      · refine ⟨fun c2 h => ?_, fun y hy => ?_⟩
        · cases c2 <;> first | exact absurd rfl h | simp [State.map, notifyListeners]
        · simp only [State.map, notifyListeners, saveToStorage_notes,
            JSObject.delete, getOwnProperty_deleteOwnProperty, if_neg hy]
      · exact changesOnly_refl _ _ _
  · unfold setQuizStatus
    split
    · exact changesOnly_refl _ _ _
    · refine ⟨fun c2 h => ?_, fun y hy => ?_⟩
      · cases c2 <;> first | exact absurd rfl h | simp [State.map]
      · simp only [State.map, saveToStorage_quizStatus]
        exact JSObject.getOwnProperty_set_other _ _ _ _ hy
  · unfold clearQuizStatus
    split
    · exact changesOnly_refl _ _ _
    · split
      · refine ⟨fun c2 h => ?_, fun y hy => ?_⟩
        · cases c2 <;> first | exact absurd rfl h | simp [State.map]
        · simp only [State.map, saveToStorage_quizStatus,
            JSObject.delete, getOwnProperty_deleteOwnProperty, if_neg hy]
      · exact changesOnly_refl _ _ _

/-- C26, the code at the failing input: on a new manager `isSaved("constructor")`
is `true`, and after `toggleSaved("constructor", ...)` it is `true` again, not
its negation; likewise `isViewed` under `toggleViewed`. -/
theorem toggle_constructor_not_flipped :
    isSaved (freshState []) "constructor" = true ∧
    isSaved (toggleSaved (freshState []) "constructor"
      (JSVal.obj [("type", JSVal.str "knowledge-check")]) 5) "constructor" = true ∧
    isViewed (freshState []) "constructor" = true ∧
    isViewed (toggleViewed (freshState []) "constructor" (JSVal.obj []) 5) "constructor" = true :=
  ⟨rfl, rfl, rfl, rfl⟩

/-- A toggle flips membership for every id the dictionary does not inherit
through its prototype chain. -/
theorem toggle_flips (s : State) (x : String) (ctx : JSVal) (now : Int) :
    (s.savedItems.inherits x = false →
      isSaved (toggleSaved s x ctx now) x = !isSaved s x) ∧
    (s.viewedItems.inherits x = false →
      isViewed (toggleViewed s x ctx now) x = !isViewed s x) := by
  constructor
  · intro h
    cases hv : isSaved s x with
    | true =>
      have h1 : toggleSaved s x ctx now = unsaveItem s x := by simp [toggleSaved, hv]
      rw [h1]
      simp [unsaveItem, isSaved, notifyListeners, JSObject.has_delete_self, h]
    | false =>
      have h1 : toggleSaved s x ctx now = saveItem s x ctx now := by simp [toggleSaved, hv]
      rw [h1]
      simp [saveItem, isSaved, notifyListeners, JSObject.has_set_self]
  · intro h
    cases hv : isViewed s x with
    | true =>
      have h1 : toggleViewed s x ctx now = markAsUnread s x := by simp [toggleViewed, hv]
      rw [h1]
      simp [markAsUnread, isViewed, notifyListeners, JSObject.has_delete_self, h]
    | false =>
      have h1 : toggleViewed s x ctx now = markAsViewed s x ctx now := by
        simp [toggleViewed, hv]
      rw [h1]
      simp [markAsViewed, isViewed, notifyListeners, JSObject.has_set_self]

end StateManager

namespace StateManager

open JS

/-- C27, the code at the failing input: after `saveItem("glossary-irb",
{itemId: "glossary-iacuc", title: "IRB"})` the saved dictionary has the one key
`glossary-irb`, and the one entry of `getSavedItems()` carries the `itemId` of
the record, `glossary-iacuc`; likewise for `url` in `getViewedItems()` and `id`
in `getAllNotes()`. -/
theorem listing_label_overridden :
    ownKeys (saveItem (freshState []) "glossary-irb"
      (JSVal.obj [("itemId", JSVal.str "glossary-iacuc"), ("title", JSVal.str "IRB")]) 5
      ).savedItems.props = ["glossary-irb"] ∧
    getSavedItems (saveItem (freshState []) "glossary-irb"
      (JSVal.obj [("itemId", JSVal.str "glossary-iacuc"), ("title", JSVal.str "IRB")]) 5) =
      [[("itemId", JSVal.str "glossary-iacuc"), ("timestamp", JSVal.num 5),
        ("title", JSVal.str "IRB")]] ∧
    labelsOf "url" (getViewedItems (markAsViewed (freshState []) "https://example.org/a"
      (JSVal.obj [("url", JSVal.str "https://example.org/b")]) 5)) =
      [some (JSVal.str "https://example.org/b")] ∧
    labelsOf "id" (getAllNotes (saveNote (freshState []) "n1"
      (JSVal.obj [("id", JSVal.str "n2"), ("text", JSVal.str "x")]) 5)) =
      [some (JSVal.str "n2")] :=
  ⟨rfl, rfl, rfl, rfl⟩

/-- When no stored record has a field of the label's name, the identifiers of a
listing are the keys of the dictionary, each once. -/
theorem labels_are_keys (name : String) (o : JSObject)
    (h : ∀ p ∈ o.props, hasOwnProperty (spreadProps p.2) name = false) :
    (labelsOf name (sort (labelledEntries name o))).Perm
      ((ownKeys o.props).map (fun k => some (JSVal.str k))) := by
  have hperm : (sort (labelledEntries name o)).Perm (labelledEntries name o) :=
    List.perm_insertionSort _ _
  refine (hperm.map _).trans ?_
  have heq : (labelledEntries name o).map (fun e => getOwnProperty e name) =
      (ownKeys o.props).map (fun k => some (JSVal.str k)) := by
    simp only [labelledEntries, ownKeys, List.map_map]
    apply List.map_congr_left
    intro p hp
    have h0 : getOwnProperty (spreadProps p.2) name = none :=
      (hasOwnProperty_eq_false_iff _ _).1 (h p hp)
    simp [getOwnProperty_spreadInto, getOwnProperty_defineOwnProperty, h0]
  rw [heq]

end StateManager

namespace NotesManager

open JS StateManager

/-- C22, the code at the failing input: with the editor open on note `n1` and
the text cleared (or replaced by blanks), `save()` leaves `hasNote("n1")` true:
the notes dictionary is the one before the call. -/
theorem save_empty_text_keeps_note :
    hasNote (editing "").stateManager "n1" = true ∧
    hasNote (save (editing "") true 5).stateManager "n1" = true ∧
    (save (editing "") true 5).stateManager.notes = oneNote.notes ∧
    hasNote (save (editing "  ") true 5).stateManager "n1" = true ∧
    hasNote (NotesManager.delete (editing "x") true).stateManager "n1" = false :=
  ⟨rfl, rfl, rfl, by decide, rfl⟩

/-- Whatever the editor is open on, `save()` with a blank text leaves the state
manager untouched: no note is removed. -/
theorem save_blank_keeps_state (m : NotesManager) (confirmed : Bool) (now : Int)
    (h : trim m.textareaValue = "") :
    (save m confirmed now).stateManager = m.stateManager := by
  unfold save
  cases hid : m.currentId with
  | none => rfl
  | some id =>
    by_cases he : id = ""
    · simp [he, close]
    · simp only [he, if_false, h, if_true]
      unfold NotesManager.delete
      simp only [hid, he, if_false]
      by_cases hv : m.textareaValue = ""
      · simp [hv]
      · simp [hv, h]

end NotesManager

namespace QuizManager

open JS StateManager

/-- C29, the code at the failing input: one question, answered correctly at the
first attempt. Before the reload `getScore()` counts it (1 of 1); the status
`handleAnswer` has persisted holds no `firstAttemptRecorded`, and after the
reload `restoreQuizStateFromStorage` leaves `firstAttemptAnswers` empty, so
`getScore()` is 0 of 1. -/
theorem score_lost_after_reload :
    getScore (handleAnswer (create [⟨"1"⟩]) (freshState []) "1" 0 true 5 6).1 =
      { correct := 1, total := 1 } ∧
    getQuizStatus (handleAnswer (create [⟨"1"⟩]) (freshState []) "1" 0 true 5 6).2 "quiz-q1" =
      JSVal.obj [("uiState", JSVal.str "correct"), ("selectedIndex", JSVal.num 0),
                 ("attempted", JSVal.bool true), ("everWrong", JSVal.bool false),
                 ("finished", JSVal.bool true), ("updatedAt", JSVal.num 5)] ∧
    (reload emptyBackend (handleAnswer (create [⟨"1"⟩]) (freshState []) "1" 0 true 5 6).1
      (handleAnswer (create [⟨"1"⟩]) (freshState []) "1" 0 true 5 6).2).map
        (fun q => q.firstAttemptAnswers) = some [] ∧
    (reload emptyBackend (handleAnswer (create [⟨"1"⟩]) (freshState []) "1" 0 true 5 6).1
      (handleAnswer (create [⟨"1"⟩]) (freshState []) "1" 0 true 5 6).2).map getScore =
      some { correct := 0, total := 1 } :=
  ⟨rfl, rfl, rfl, rfl⟩

end QuizManager

namespace JS

theorem digitsValue_append (cs : List Char) (c : Char) :
    digitsValue (cs ++ [c]) = 10 * digitsValue cs + (c.toNat - 48) := by
  simp [digitsValue, List.foldl_append]

theorem digitsValue_eq_ofDigits (cs : List Char) :
    digitsValue cs = Nat.ofDigits 10 (cs.reverse.map (fun c => c.toNat - 48)) := by
  induction cs using List.reverseRecOn with
  | nil => rfl
  | append_singleton cs c ih =>
    rw [digitsValue_append, ih]
    simp [Nat.ofDigits_cons]
    omega

theorem digit_lt (c : Char) (h : c.isDigit = true) : c.toNat - 48 < 10 := by
  simp only [Char.isDigit, Bool.and_eq_true, decide_eq_true_eq] at h
  have h2 : c.val.toNat ≤ 57 := h.2
  show c.val.toNat - 48 < 10
  omega

theorem digit_inj (c d : Char) (hc : c.isDigit = true) (hd : d.isDigit = true)
    (h : c.toNat - 48 = d.toNat - 48) : c = d := by
  simp only [Char.isDigit, Bool.and_eq_true, decide_eq_true_eq] at hc hd
  have h1 : 48 ≤ c.val.toNat := hc.1
  have h2 : 48 ≤ d.val.toNat := hd.1
  have h3 : c.val.toNat = d.val.toNat := by
    have h4 : c.val.toNat - 48 = d.val.toNat - 48 := h
    omega
  apply Char.ext
  exact UInt32.ext h3

/-- The decimal digits of a canonical numeric string determine it. -/
theorem digits_of_canonical (cs : List Char) (hall : cs.all Char.isDigit = true)
    (hhead : cs.head? ≠ some '0') :
    Nat.digits 10 (digitsValue cs) = cs.reverse.map (fun c => c.toNat - 48) := by
  rw [digitsValue_eq_ofDigits]
  apply Nat.digits_ofDigits 10 (by norm_num)
  · intro l hl
    simp only [List.mem_map, List.mem_reverse] at hl
    obtain ⟨c, hc, rfl⟩ := hl
    exact digit_lt c (List.all_eq_true.1 hall c hc)
  · intro hne
    cases cs with
    | nil => simp at hne
    | cons c rest =>
      have hc : c.isDigit = true := List.all_eq_true.1 hall c (List.mem_cons_self _ _)
      have hc0 : c ≠ '0' := by
        intro e
        apply hhead
        simp [e]
      simp only [List.reverse_cons, List.map_append, List.map_cons, List.map_nil,
        List.getLast_append_singleton]
      intro h0
      apply hc0
      apply digit_inj c '0' hc (by decide)
      simpa using h0

theorem map_digit_inj (cs ds : List Char) (hc : cs.all Char.isDigit = true)
    (hd : ds.all Char.isDigit = true)
    (h : cs.map (fun c => c.toNat - 48) = ds.map (fun c => c.toNat - 48)) : cs = ds := by
  induction cs generalizing ds with
  | nil =>
    cases ds with
    | nil => rfl
    | cons d rest => simp at h
  | cons c rest ih =>
    cases ds with
    | nil => simp at h
    | cons d rest2 =>
      simp only [List.map_cons, List.cons.injEq] at h
      simp only [List.all_cons, Bool.and_eq_true] at hc hd
      rw [digit_inj c d hc.1 hd.1 h.1, ih rest2 hc.2 hd.2 h.2]

/-- Two canonical numeric strings of digits with the same value are equal. -/
theorem canonical_digits_inj (cs ds : List Char) (hc : cs.all Char.isDigit = true)
    (hd : ds.all Char.isDigit = true) (hc0 : cs ≠ []) (hd0 : ds ≠ [])
    (hch : cs.head? ≠ some '0' ∨ cs.length = 1) (hdh : ds.head? ≠ some '0' ∨ ds.length = 1)
    (h : digitsValue cs = digitsValue ds) : cs = ds := by
  have zero_case : ∀ xs ys : List Char, xs.all Char.isDigit = true → ys ≠ [] →
      xs.head? = some '0' → xs.length = 1 → (ys.head? ≠ some '0' ∨ ys.length = 1) →
      ys.all Char.isDigit = true → digitsValue xs = digitsValue ys → xs = ys := by
    intro xs ys _ hy0 hx1 hx2 hyh hyd hv
    have hxs : xs = ['0'] := by
      cases xs with
      | nil => simp at hx2
      | cons x rest =>
        cases rest with
        | nil => simpa using hx1
        | cons _ _ => simp at hx2
    subst hxs
    by_cases hy : ys.head? = some '0'
    · have hy1 : ys.length = 1 := by
        rcases hyh with h1 | h1
        · exact absurd hy h1
        · exact h1
      cases ys with
      | nil => simp at hy1
      | cons y rest =>
        cases rest with
        | nil =>
          simp at hy
          rw [hy]
        | cons _ _ => simp at hy1
    · have hdig := digits_of_canonical ys hyd hy
      have hv0 : digitsValue ys = 0 := by
        rw [← hv]
        rfl
      rw [hv0] at hdig
      simp at hdig
      exact absurd hdig hy0
  by_cases h1 : cs.head? = some '0'
  · have hl : cs.length = 1 := by
      rcases hch with h2 | h2
      · exact absurd h1 h2
      · exact h2
    exact zero_case cs ds hc hd0 h1 hl hdh hd h
  · by_cases h2 : ds.head? = some '0'
    · have hl : ds.length = 1 := by
        rcases hdh with h3 | h3
        · exact absurd h2 h3
        · exact h3
      exact (zero_case ds cs hd hc0 h2 hl hch hc h.symm).symm
    · have e1 := digits_of_canonical cs hc h1
      have e2 := digits_of_canonical ds hd h2
      rw [h] at e1
      rw [e1] at e2
      have e3 : cs.map (fun c => c.toNat - 48) = ds.map (fun c => c.toNat - 48) := by
        have := congrArg List.reverse e2
        simpa using this
      exact map_digit_inj cs ds hc hd e3

/-- An array index determines its key. -/
theorem arrayIndex?_inj (a b : String) (i : Nat) (ha : arrayIndex? a = some i)
    (hb : arrayIndex? b = some i) : a = b := by
  unfold arrayIndex? at ha hb
  simp only at ha hb
  split at ha
  · rename_i hca
    split at hb
    · rename_i hcb
      have va : digitsValue a.toList = i := by simpa using ha
      have vb : digitsValue b.toList = i := by simpa using hb
      apply String.ext
      exact canonical_digits_inj a.toList b.toList hca.2.1 hcb.2.1 hca.1 hcb.1 hca.2.2.1
        hcb.2.2.1 (va.trans vb.symm)
    · simp at hb
  · simp at ha

end JS

namespace JS

theorem keyBefore_ne (a b : String) (h : keyBefore a b) : a ≠ b := by
  intro e
  subst e
  unfold keyBefore at h
  cases hi : arrayIndex? a with
  | none => simp [hi] at h
  | some i => simp [hi] at h

theorem keyBefore_of_index (a b : String) (i : Nat) (hb : arrayIndex? b = some i)
    (h : keyBefore a b) : ∃ j, arrayIndex? a = some j ∧ j < i := by
  unfold keyBefore at h
  cases ha : arrayIndex? a with
  | none => simp [ha, hb] at h
  | some j =>
    simp only [ha, hb] at h
    exact ⟨j, rfl, h⟩

theorem keyBefore_index_none (a b : String) (i : Nat) (ha : arrayIndex? a = some i)
    (hb : arrayIndex? b = none) : keyBefore a b := by
  simp [keyBefore, ha, hb]

theorem keyBefore_index_index (a b : String) (i j : Nat) (ha : arrayIndex? a = some i)
    (hb : arrayIndex? b = some j) (h : i < j) : keyBefore a b := by
  simp [keyBefore, ha, hb, h]

theorem ownKeys_updateOwn (ps : Props) (k : String) (v : JSVal) :
    ownKeys (updateOwn ps k v) = ownKeys ps := by
  unfold ownKeys updateOwn
  rw [List.map_map]
  apply List.map_congr_left
  intro p _
  by_cases h : p.1 = k
  · simp [h]
  · simp [h]

theorem not_mem_ownKeys_iff (ps : Props) (k : String) :
    k ∉ ownKeys ps ↔ getOwnProperty ps k = none := by
  induction ps with
  | nil => simp [ownKeys, getOwnProperty]
  | cons p rest ih =>
    have e : ownKeys (p :: rest) = p.1 :: ownKeys rest := rfl
    rw [e, List.mem_cons, not_or, ih]
    by_cases h : p.1 = k
    · subst h
      simp [getOwnProperty]
    · have h2 : ¬ k = p.1 := fun e => h e.symm
      simp [getOwnProperty, h, h2]

theorem ownKeys_insertIndex (ps : Props) (i : Nat) (k : String) (v : JSVal) (q : String) :
    q ∈ ownKeys (insertIndex ps i k v) ↔ q = k ∨ q ∈ ownKeys ps := by
  induction ps with
  | nil => simp [insertIndex, ownKeys]
  | cons p rest ih =>
    unfold insertIndex
    cases hp : arrayIndex? p.1 with
    | none => simp [ownKeys]
    | some j =>
      by_cases hj : j < i
      · simp only [hj, if_true]
        simp only [ownKeys, List.map_cons, List.mem_cons] at ih ⊢
        rw [ih]
        tauto
      · simp [hj, ownKeys]

theorem canonical_cons (p : String × JSVal) (rest : Props) :
    Canonical (p :: rest) ↔ (∀ q ∈ ownKeys rest, keyBefore p.1 q) ∧ Canonical rest := by
  unfold Canonical
  have e : ownKeys (p :: rest) = p.1 :: ownKeys rest := rfl
  rw [e, List.pairwise_cons]

theorem canonical_insertIndex (ps : Props) (i : Nat) (k : String) (v : JSVal)
    (hc : Canonical ps) (hk : arrayIndex? k = some i) (hn : k ∉ ownKeys ps) :
    Canonical (insertIndex ps i k v) := by
  induction ps with
  | nil => simp [insertIndex, Canonical, ownKeys]
  | cons p rest ih =>
    obtain ⟨hp, hrest⟩ := (canonical_cons p rest).1 hc
    have e : ownKeys (p :: rest) = p.1 :: ownKeys rest := rfl
    rw [e, List.mem_cons, not_or] at hn
    unfold insertIndex
    cases hpi : arrayIndex? p.1 with
    | none =>
      show Canonical ((k, v) :: p :: rest)
      rw [canonical_cons]
      refine ⟨?_, hc⟩
      intro q hq
      rw [e, List.mem_cons] at hq
      rcases hq with hq | hq
      · subst hq
        exact keyBefore_index_none k _ i hk hpi
      · have hb := hp q hq
        cases hqi : arrayIndex? q with
        | none => exact keyBefore_index_none k q i hk hqi
        | some j =>
          obtain ⟨j2, hj2, _⟩ := keyBefore_of_index p.1 q j hqi hb
          rw [hpi] at hj2
          exact absurd hj2 (by simp)
    | some j =>
      by_cases hj : j < i
      · simp only [hj, if_true]
        rw [canonical_cons]
        refine ⟨?_, ih hrest hn.2⟩
        intro q hq
        rcases (ownKeys_insertIndex rest i k v q).1 hq with hq | hq
        · subst hq
          exact keyBefore_index_index _ _ j i hpi hk hj
        · exact hp q hq
      · simp only [hj, if_false]
        have hij : i < j := by
          rcases Nat.lt_or_ge i j with h1 | h1
          · exact h1
          · have h2 : i = j := Nat.le_antisymm (Nat.le_of_not_lt hj) h1
            subst h2
            exact absurd (arrayIndex?_inj k p.1 i hk hpi) hn.1
        rw [canonical_cons]
        refine ⟨?_, hc⟩
        intro q hq
        rw [e, List.mem_cons] at hq
        rcases hq with hq | hq
        · subst hq
          exact keyBefore_index_index _ _ i j hk hpi hij
        · have hb := hp q hq
          cases hqi : arrayIndex? q with
          | none => exact keyBefore_index_none k q i hk hqi
          | some j3 =>
            obtain ⟨j2, hj2, hlt⟩ := keyBefore_of_index p.1 q j3 hqi hb
            rw [hpi] at hj2
            have : j = j2 := by simpa using hj2
            subst this
            exact keyBefore_index_index _ _ i j3 hk hqi (Nat.lt_trans hij hlt)

theorem canonical_insertNew (ps : Props) (k : String) (v : JSVal) (hc : Canonical ps)
    (hn : k ∉ ownKeys ps) : Canonical (insertNew ps k v) := by
  unfold insertNew
  cases hk : arrayIndex? k with
  | some i => exact canonical_insertIndex ps i k v hc hk hn
  | none =>
    show Canonical (ps ++ [(k, v)])
    unfold Canonical at hc ⊢
    have e : ownKeys (ps ++ [(k, v)]) = ownKeys ps ++ [k] := by simp [ownKeys]
    rw [e, List.pairwise_append]
    refine ⟨hc, List.pairwise_singleton _ _, ?_⟩
    intro a ha b hb
    have hbk : b = k := by simpa using hb
    subst hbk
    cases hai : arrayIndex? a with
    | some i => exact keyBefore_index_none a b i hai hk
    | none =>
      have hne : a ≠ b := fun e => hn (e ▸ ha)
      simp [keyBefore, hai, hk, hne]

theorem canonical_defineOwnProperty (ps : Props) (k : String) (v : JSVal)
    (hc : Canonical ps) : Canonical (defineOwnProperty ps k v) := by
  unfold defineOwnProperty
  split
  · unfold Canonical
    rw [ownKeys_updateOwn]
    exact hc
  · rename_i h
    have h0 : getOwnProperty ps k = none :=
      (StateManager.hasOwnProperty_eq_false_iff ps k).1 (by simpa using h)
    exact canonical_insertNew ps k v hc ((not_mem_ownKeys_iff ps k).2 h0)

theorem canonical_spreadInto (src target : Props) (hc : Canonical target) :
    Canonical (spreadInto target src) := by
  induction src generalizing target with
  | nil => exact hc
  | cons p rest ih =>
    have hstep : spreadInto target (p :: rest) =
        spreadInto (defineOwnProperty target p.1 p.2) rest := by
      simp [spreadInto]
    rw [hstep]
    exact ih _ (canonical_defineOwnProperty target p.1 p.2 hc)

end JS

namespace JS

theorem spreadInto_cons (target : Props) (p : String × JSVal) (rest : Props) :
    spreadInto target (p :: rest) = spreadInto (defineOwnProperty target p.1 p.2) rest := by
  simp [spreadInto]

/-- An index key larger than all keys present goes to the end. -/
theorem insertIndex_last (t : Props) (i : Nat) (k : String) (v : JSVal)
    (h : ∀ a ∈ ownKeys t, ∃ j, arrayIndex? a = some j ∧ j < i) :
    insertIndex t i k v = t ++ [(k, v)] := by
  induction t with
  | nil => rfl
  | cons p rest ih =>
    have e : ownKeys (p :: rest) = p.1 :: ownKeys rest := rfl
    obtain ⟨j, hj, hlt⟩ := h p.1 (by rw [e]; exact List.mem_cons_self _ _)
    unfold insertIndex
    simp only [hj, hlt, if_true]
    rw [ih (fun a ha => h a (by rw [e]; exact List.mem_cons_of_mem _ ha))]
    rfl

/-- Spreading properties that stand in enumeration order after the ones already
there appends them as they are. -/
theorem spreadInto_canonical (r t : Props) (hc : Canonical (t ++ r)) :
    spreadInto t r = t ++ r := by
  induction r generalizing t with
  | nil => simp [spreadInto]
  | cons p rest ih =>
    have hc2 := hc
    unfold Canonical at hc2
    have e : ownKeys (t ++ p :: rest) = ownKeys t ++ (p.1 :: ownKeys rest) := by
      simp [ownKeys]
    rw [e, List.pairwise_append] at hc2
    obtain ⟨_, _, hcross⟩ := hc2
    have hbefore : ∀ a ∈ ownKeys t, keyBefore a p.1 :=
      fun a ha => hcross a ha p.1 (List.mem_cons_self _ _)
    have hn : p.1 ∉ ownKeys t := fun hm => keyBefore_ne _ _ (hbefore p.1 hm) rfl
    have h0 : getOwnProperty t p.1 = none := (not_mem_ownKeys_iff t p.1).1 hn
    have hdef : defineOwnProperty t p.1 p.2 = t ++ [p] := by
      unfold defineOwnProperty
      have hh : hasOwnProperty t p.1 = false := by simp [hasOwnProperty, h0]
      simp only [hh, Bool.false_eq_true, if_false]
      unfold insertNew
      cases hpi : arrayIndex? p.1 with
      | none => rfl
      | some i =>
        show insertIndex t i p.1 p.2 = t ++ [p]
        rw [insertIndex_last t i p.1 p.2
          (fun a ha => keyBefore_of_index a p.1 i hpi (hbefore a ha))]
    rw [spreadInto_cons, hdef, ih (t ++ [p]) (by simpa using hc)]
    simp

/-- In properties without a repeated key, an entry is what its key reads. -/
theorem getOwnProperty_of_mem (ps : Props) (hc : Canonical ps) (q : String × JSVal)
    (hq : q ∈ ps) : getOwnProperty ps q.1 = some q.2 := by
  induction ps with
  | nil => simp at hq
  | cons p rest ih =>
    obtain ⟨hp, hrest⟩ := (canonical_cons p rest).1 hc
    rw [List.mem_cons] at hq
    unfold getOwnProperty
    rcases hq with hq | hq
    · subst hq
      have hn : q.1 ∉ ownKeys rest := fun hm => keyBefore_ne _ _ (hp q.1 hm) rfl
      rw [(not_mem_ownKeys_iff rest q.1).1 hn]
      simp
    · rw [ih hrest hq]
      simp

theorem isSome_getOwnProperty_of_mem (d : Props) (p : String × JSVal) (hp : p ∈ d) :
    (getOwnProperty d p.1).isSome = true := by
  cases h : getOwnProperty d p.1 with
  | some v => rfl
  | none =>
    have hn := (not_mem_ownKeys_iff d p.1).2 h
    exact absurd (List.mem_map_of_mem Prod.fst hp) hn

/-- Spreading `d` into properties that already have every key of `d` only
overwrites values. -/
theorem spreadInto_eq_overlay (d X : Props)
    (h : ∀ p ∈ d, hasOwnProperty X p.1 = true) : spreadInto X d = overlay d X := by
  induction d generalizing X with
  | nil =>
    simp only [spreadInto, List.foldl_nil, overlay, getOwnProperty, Option.getD_none]
    exact (List.map_id X).symm
  | cons p rest ih =>
    have hp : hasOwnProperty X p.1 = true := h p (List.mem_cons_self _ _)
    have hdef : defineOwnProperty X p.1 p.2 = updateOwn X p.1 p.2 := by
      simp [defineOwnProperty, hp]
    have hkeys : ∀ q ∈ rest, hasOwnProperty (updateOwn X p.1 p.2) q.1 = true := by
      intro q hq
      have h1 := h q (List.mem_cons_of_mem _ hq)
      cases hg : getOwnProperty (updateOwn X p.1 p.2) q.1 with
      | some v => simp [hasOwnProperty, hg]
      | none =>
        have hn := (not_mem_ownKeys_iff _ _).2 hg
        rw [ownKeys_updateOwn] at hn
        have h2 := (not_mem_ownKeys_iff _ _).1 hn
        simp [hasOwnProperty, h2] at h1
    rw [spreadInto_cons, hdef, ih _ hkeys]
    unfold overlay updateOwn
    rw [List.map_map]
    apply List.map_congr_left
    intro q _
    by_cases hq : q.1 = p.1
    · simp only [Function.comp, hq, if_true, getOwnProperty]
      cases getOwnProperty rest p.1 <;> simp
    · have hq2 : ¬ p.1 = q.1 := fun e => hq e.symm
      simp only [Function.comp, hq, if_false, getOwnProperty, hq2]
      cases getOwnProperty rest q.1 <;> simp

/-- Spreading the same source a second time changes nothing. -/
theorem spreadInto_twice (X d : Props) (hX : Canonical X) :
    spreadInto (spreadInto X d) d = spreadInto X d := by
  have hR : Canonical (spreadInto X d) := canonical_spreadInto d X hX
  rw [spreadInto_eq_overlay d (spreadInto X d)]
  · unfold overlay
    conv_rhs => rw [← List.map_id (spreadInto X d)]
    apply List.map_congr_left
    intro q hq
    have h1 := getOwnProperty_of_mem _ hR q hq
    rw [getOwnProperty_spreadInto] at h1
    cases hd : getOwnProperty d q.1 with
    | none => simp
    | some v =>
      rw [hd] at h1
      have : v = q.2 := by simpa using h1
      simp [this]
  · intro p hp
    have h1 := isSome_getOwnProperty_of_mem d p hp
    cases hd : getOwnProperty d p.1 with
    | none => simp [hd] at h1
    | some v => simp [hasOwnProperty, getOwnProperty_spreadInto, hd]

/-- Merging the same dictionary in a second time changes nothing:
`{...{...a, ...b}, ...b}` is `{...a, ...b}`. -/
theorem spread2_idempotent (a b : JSObject) :
    JSObject.spread2 (JSObject.spread2 a b) b = JSObject.spread2 a b := by
  have hnil : Canonical [] := by simp [Canonical, ownKeys]
  have hX : Canonical (spreadInto [] a.props) := canonical_spreadInto _ _ hnil
  have hR : Canonical (spreadInto (spreadInto [] a.props) b.props) :=
    canonical_spreadInto _ _ hX
  unfold JSObject.spread2
  simp only
  rw [spreadInto_canonical _ [] (by simpa using hR)]
  simp only [List.nil_append]
  rw [spreadInto_twice _ _ hX]

end JS

namespace StateManager

open JS

theorem importData_merge_twice_map (s : State) (backupData : Option BackupDocument)
    (c : Category) :
    (importData (importData s backupData true).1 backupData true).1.map c =
      (importData s backupData true).1.map c := by
  cases hb : backupData.bind (fun b => b.data) with
  | none =>
    have h1 : ∀ t : State, (importData t backupData true).1.map c = t.map c := by
      intro t
      cases c <;> simp [importData, hb, State.map]
    rw [h1, h1]
  | some d =>
    obtain ⟨doc, hdoc, hd⟩ : ∃ doc, backupData = some doc ∧ doc.data = some d := by
      cases backupData with
      | none => simp at hb
      | some doc => exact ⟨doc, rfl, by simpa using hb⟩
    subst hdoc
    rw [importData_category _ doc d true c hd, importData_category s doc d true c hd]
    cases d.category c with
    | none => rfl
    | some m =>
      simp only [importMap, if_true]
      exact spread2_idempotent (s.map c) m

/-- C28: merge import is idempotent. For every state and every backup document
(also one without `data`, which is rejected both times), after
`importData(doc, true)` a second `importData(doc, true)` leaves each of the four
dictionaries equal to what the first call left. -/
theorem importData_merge_idempotent (s : State) (backupData : Option BackupDocument) :
    (importData (importData s backupData true).1 backupData true).1.viewedItems =
      (importData s backupData true).1.viewedItems ∧
    (importData (importData s backupData true).1 backupData true).1.savedItems =
      (importData s backupData true).1.savedItems ∧
    (importData (importData s backupData true).1 backupData true).1.notes =
      (importData s backupData true).1.notes ∧
    (importData (importData s backupData true).1 backupData true).1.quizStatus =
      (importData s backupData true).1.quizStatus :=
  ⟨importData_merge_twice_map s backupData Category.viewed,
   importData_merge_twice_map s backupData Category.saved,
   importData_merge_twice_map s backupData Category.notes,
   importData_merge_twice_map s backupData Category.quiz⟩

end StateManager

namespace GlossaryManager

theorem length_swap (a : List Nat) (i j : Nat) : (swap a i j).length = a.length := by
  simp [swap]

/-- Exchanging two elements of an array rearranges it. -/
theorem swap_perm (a : List Nat) (i j : Nat) (hi : i < a.length) (hj : j < a.length) :
    (swap a i j).Perm a := by
  rw [List.perm_iff_count]
  intro b
  have hj2 : j < (a.set i a[j]).length := by simpa using hj
  have e1 : a.getD j 0 = a[j] := by simp [List.getD_eq_getElem?_getD, hj]
  have e2 : a.getD i 0 = a[i] := by simp [List.getD_eq_getElem?_getD, hi]
  have e3 : (a.set i a[j])[j] = a[j] := by
    rw [List.getElem_set]
    split <;> rfl
  have hci := List.count_set a[j] b a i hi
  have hcj := List.count_set a[i] b (a.set i a[j]) j hj2
  rw [e3] at hcj
  have b1 : (if a[i] == b then 1 else 0) ≤ a.count b := by
    split
    · rename_i h
      have : a[i] = b := by simpa using h
      have hm : b ∈ a := this ▸ List.getElem_mem hi
      exact List.count_pos_iff.2 hm
    · exact Nat.zero_le _
  unfold swap
  rw [e1, e2, hcj, hci]
  omega

theorem shuffleLoop_perm (draw : Nat → Nat) (hdraw : ∀ i, draw i ≤ i) :
    ∀ (i : Nat) (a : List Nat), i < a.length → (shuffleLoop draw i a).Perm a
  | 0, a, _ => List.Perm.refl a
  | i + 1, a, h => by
    have hj : draw (i + 1) < a.length := Nat.lt_of_le_of_lt (hdraw (i + 1)) h
    have hlen : i < (swap a (i + 1) (draw (i + 1))).length := by
      rw [length_swap]
      omega
    exact (shuffleLoop_perm draw hdraw i _ hlen).trans (swap_perm a (i + 1) _ h hj)

theorem shuffledIndices_perm {α : Type} (g : GlossaryManager α) (draw : Nat → Nat)
    (hne : g.items ≠ []) (hdraw : ∀ i, draw i ≤ i) :
    (shuffleCards g draw).shuffledIndices.Perm (List.range g.items.length) := by
  have hpos : 0 < g.items.length := List.length_pos.2 hne
  have h0 : g.items.length ≠ 0 := Nat.pos_iff_ne_zero.1 hpos
  simp only [shuffleCards, h0, if_false]
  apply shuffleLoop_perm draw hdraw
  simp only [List.length_range]
  omega

theorem nextCard_items {α : Type} (g : GlossaryManager α) : (nextCard g).items = g.items := by
  unfold nextCard
  split <;> rfl

theorem nextCard_shuffledIndices {α : Type} (g : GlossaryManager α) :
    (nextCard g).shuffledIndices = g.shuffledIndices := by
  unfold nextCard
  split <;> rfl

theorem iterate_nextCard_items {α : Type} (g : GlossaryManager α) (k : Nat) :
    (nextCard^[k] g).items = g.items := by
  induction k with
  | zero => rfl
  | succ k ih => rw [Function.iterate_succ_apply', nextCard_items, ih]

theorem iterate_nextCard_shuffledIndices {α : Type} (g : GlossaryManager α) (k : Nat) :
    (nextCard^[k] g).shuffledIndices = g.shuffledIndices := by
  induction k with
  | zero => rfl
  | succ k ih => rw [Function.iterate_succ_apply', nextCard_shuffledIndices, ih]

theorem nextCard_index {α : Type} (g : GlossaryManager α)
    (h : g.currentCardIndex + 1 < g.items.length) :
    (nextCard g).currentCardIndex = g.currentCardIndex + 1 := by
  simp only [nextCard, h, if_true]

/-- Pressing the next button `k` times moves `k` cards on, as long as a card is left. -/
theorem iterate_nextCard_index {α : Type} (g : GlossaryManager α) (k : Nat)
    (h : g.currentCardIndex + k < g.items.length) :
    (nextCard^[k] g).currentCardIndex = g.currentCardIndex + k := by
  induction k with
  | zero => rfl
  | succ k ih =>
    have ih2 := ih (by omega)
    rw [Function.iterate_succ_apply', nextCard_index, ih2]
    · omega
    · rw [iterate_nextCard_items, ih2]
      omega

/-- The card at position `c` of a shuffled deck. -/
theorem getCurrentItem_shuffled {α : Type} (g : GlossaryManager α) (i : Nat)
    (hlen : g.shuffledIndices ≠ []) (hne : g.items ≠ [])
    (hi : g.shuffledIndices.get? g.currentCardIndex = some i) :
    getCurrentItem g = g.items.get? i := by
  have h0 : g.items.length ≠ 0 := Nat.pos_iff_ne_zero.1 (List.length_pos.2 hne)
  have h1 : g.shuffledIndices.length > 0 := List.length_pos.2 hlen
  simp only [getCurrentItem, h0, if_false, h1, if_true, hi, Option.bind]

theorem map_range_get?_bind {α : Type} (l : List Nat) (f : Nat → Option α) :
    (List.range l.length).map (fun k => (l.get? k).bind f) = l.map f := by
  apply List.ext_getElem?
  intro k
  by_cases hk : k < l.length
  · simp [List.getElem?_map, List.getElem?_range, hk, List.getElem?_eq_getElem]
  · have hk2 : l.length ≤ k := Nat.le_of_not_lt hk
    simp [List.getElem?_map, List.getElem?_eq_none, hk2]

theorem map_range_get? {α : Type} (l : List α) :
    (List.range l.length).map (fun i => l.get? i) = l.map some := by
  apply List.ext_getElem?
  intro k
  by_cases hk : k < l.length
  · simp [List.getElem?_map, List.getElem?_range, hk, List.getElem?_eq_getElem]
  · have hk2 : l.length ≤ k := Nat.le_of_not_lt hk
    simp [List.getElem?_map, List.getElem?_eq_none, hk2]

theorem shuffleCards_fields {α : Type} (g : GlossaryManager α) (draw : Nat → Nat)
    (hne : g.items ≠ []) :
    (shuffleCards g draw).items = g.items ∧ (shuffleCards g draw).currentCardIndex = 0 := by
  have h0 : g.items.length ≠ 0 := Nat.pos_iff_ne_zero.1 (List.length_pos.2 hne)
  simp only [shuffleCards, h0, if_false, and_self]

/-- The card shown after `k` presses of the next button on a freshly shuffled
deck is the item whose index stands at position `k`. -/
theorem shownAfter_shuffleCards {α : Type} (g : GlossaryManager α) (draw : Nat → Nat)
    (hne : g.items ≠ []) (hdraw : ∀ i, draw i ≤ i) (k : Nat) (hk : k < g.items.length) :
    shownAfter (shuffleCards g draw) k =
      ((shuffleCards g draw).shuffledIndices.get? k).bind (fun i => g.items.get? i) := by
  obtain ⟨hitems, hidx⟩ := shuffleCards_fields g draw hne
  have hperm := shuffledIndices_perm g draw hne hdraw
  have hlen : (shuffleCards g draw).shuffledIndices.length = g.items.length := by
    rw [hperm.length_eq, List.length_range]
  have hkl : k < (shuffleCards g draw).shuffledIndices.length := by omega
  have hget : (shuffleCards g draw).shuffledIndices.get? k =
      some ((shuffleCards g draw).shuffledIndices[k]) := by
    simp [List.getElem?_eq_getElem, hkl]
  have hcur : (nextCard^[k] (shuffleCards g draw)).currentCardIndex = k := by
    rw [iterate_nextCard_index, hidx, Nat.zero_add]
    rw [hidx, hitems]
    omega
  unfold shownAfter
  rw [getCurrentItem_shuffled (nextCard^[k] (shuffleCards g draw))
    ((shuffleCards g draw).shuffledIndices[k])]
  · rw [iterate_nextCard_items, hitems, hget]
    rfl
  · rw [iterate_nextCard_shuffledIndices]
    exact List.ne_nil_of_length_pos (by omega)
  · rw [iterate_nextCard_items, hitems]
    exact hne
  · rw [iterate_nextCard_shuffledIndices, hcur]
    exact hget

/-- C30: the flashcard shuffle is a permutation. For a non-empty item list and
draws `j` with `0 ≤ j ≤ i`, `shuffleCards` leaves in `shuffledIndices` a
permutation of `0..n-1` and starts at card 0; `nextCard` and `prevCard` keep the
position below `n` and touch neither the items nor the shuffle; at every
position below `n` `getCurrentItem` returns an item of the list; and the cards
shown at the positions `0..n-1`, reached by pressing next, are the items, each
exactly once. -/
theorem shuffleCards_permutation {α : Type} (g : GlossaryManager α) (draw : Nat → Nat)
    (hne : g.items ≠ []) (hdraw : ∀ i, draw i ≤ i) :
    (shuffleCards g draw).shuffledIndices.Perm (List.range g.items.length) ∧
    (shuffleCards g draw).items = g.items ∧
    (shuffleCards g draw).currentCardIndex = 0 ∧
    (∀ h : GlossaryManager α, h.currentCardIndex < h.items.length →
      (nextCard h).currentCardIndex < h.items.length ∧
      (prevCard h).currentCardIndex < h.items.length ∧
      (nextCard h).items = h.items ∧ (prevCard h).items = h.items ∧
      (nextCard h).shuffledIndices = h.shuffledIndices ∧
      (prevCard h).shuffledIndices = h.shuffledIndices) ∧
    (∀ c, c < g.items.length →
      ∃ item ∈ g.items,
        getCurrentItem { shuffleCards g draw with currentCardIndex := c } = some item) ∧
    ((List.range g.items.length).map (shownAfter (shuffleCards g draw))).Perm
      (g.items.map some) := by
  obtain ⟨hitems, hidx⟩ := shuffleCards_fields g draw hne
  have hperm := shuffledIndices_perm g draw hne hdraw
  have hlen : (shuffleCards g draw).shuffledIndices.length = g.items.length := by
    rw [hperm.length_eq, List.length_range]
  have hpos : 0 < g.items.length := List.length_pos.2 hne
  refine ⟨hperm, hitems, hidx, ?_, ?_, ?_⟩
  · intro h hh
    refine ⟨?_, ?_, nextCard_items h, ?_, nextCard_shuffledIndices h, ?_⟩
    · unfold nextCard
      split
      · assumption
      · exact hh
    · unfold prevCard
      split
      · show h.currentCardIndex - 1 < h.items.length
        omega
      · exact hh
    · unfold prevCard
      split <;> rfl
    · unfold prevCard
      split <;> rfl
  · intro c hc
    have hcl : c < (shuffleCards g draw).shuffledIndices.length := by omega
    have hmem : (shuffleCards g draw).shuffledIndices[c] ∈ List.range g.items.length :=
      hperm.subset (List.getElem_mem hcl)
    have hlt : (shuffleCards g draw).shuffledIndices[c] < g.items.length :=
      List.mem_range.1 hmem
    refine ⟨g.items[(shuffleCards g draw).shuffledIndices[c]], List.getElem_mem hlt, ?_⟩
    rw [getCurrentItem_shuffled _ ((shuffleCards g draw).shuffledIndices[c])]
    · show (shuffleCards g draw).items.get? _ = _
      rw [hitems]
      simp [List.getElem?_eq_getElem, hlt]
    · exact List.ne_nil_of_length_pos (by show 0 < (shuffleCards g draw).shuffledIndices.length; omega)
    · show (shuffleCards g draw).items ≠ []
      rw [hitems]
      exact hne
    · show (shuffleCards g draw).shuffledIndices.get? c = _
      simp [List.getElem?_eq_getElem, hcl]
  · have hmap : (List.range g.items.length).map (shownAfter (shuffleCards g draw)) =
        (shuffleCards g draw).shuffledIndices.map (fun i => g.items.get? i) := by
      rw [← map_range_get?_bind (shuffleCards g draw).shuffledIndices
        (fun i => g.items.get? i), hlen]
      apply List.map_congr_left
      intro k hk
      exact shownAfter_shuffleCards g draw hne hdraw k (List.mem_range.1 hk)
    rw [hmap, ← map_range_get?]
    exact hperm.map _

end GlossaryManager

namespace GlossaryManager

/-- Witness for C30: the deck of four terms shuffled with the draws `i / 2`. -/
theorem shuffleCards_permutation_witness :
    demoDeck.items ≠ [] ∧ (∀ i : Nat, i / 2 ≤ i) ∧
    (shuffleCards demoDeck (fun i => i / 2)).shuffledIndices = [2, 0, 3, 1] ∧
    (shuffleCards demoDeck (fun i => i / 2)).shuffledIndices.Perm
      (List.range demoDeck.items.length) ∧
    ((List.range demoDeck.items.length).map
      (shownAfter (shuffleCards demoDeck (fun i => i / 2)))).Perm
      (demoDeck.items.map some) :=
  ⟨by decide, fun i => Nat.div_le_self i 2, rfl,
   (shuffleCards_permutation demoDeck (fun i => i / 2) (by decide)
      (fun i => Nat.div_le_self i 2)).1,
   (shuffleCards_permutation demoDeck (fun i => i / 2) (by decide)
      (fun i => Nat.div_le_self i 2)).2.2.2.2.2⟩

end GlossaryManager
